import Mathlib

/-!
# Package integrity and atomic installation: a verification development

A shallow embedding of the version comparator, the integrity checks, the manifest
loader and resource validator, the single-file install transaction of the plugin
manager, the comparator of its update check and the multi-file scene package download
(`frontend/models/SceneCatalogPackage.cpp`, `frontend/plugin-manager/PluginManager.cpp`,
`frontend/plugin-manager/PluginManagerWindow.cpp`, `frontend/widgets/SceneCatalogDock.cpp`).

Conventions of the embedding:
* `std::string` is `String`; the work is done on its list of characters;
* C++ `int` is a 32-bit two's-complement integer: an `Int` wrapped by `wrapInt32`;
* functions with an `errorMessage` out-parameter return the message beside the result.
-/

set_option autoImplicit false

namespace OBS

/-! ## Version comparison (`SceneCatalogPackage.cpp`) -/

/-- Two's-complement wrap of a mathematical integer into the range of a 32-bit `int`. -/
def wrapInt32 (x : Int) : Int := (x + 2147483648) % 4294967296 - 2147483648

/-- The call `std::isdigit(static_cast<unsigned char>(ch))` in the "C" locale. -/
def isDigit (ch : Char) : Bool := decide (48 ≤ ch.toNat) && decide (ch.toNat ≤ 57)

/-- The loop `while (std::getline(stream, part, delim))`: the successive values of `part`.
A stream at end-of-file yields nothing, so a trailing delimiter opens no further part. -/
def getlineParts (delim : Char) : List Char → List (List Char)
  | [] => []
  | c :: cs =>
    if c = delim then [] :: getlineParts delim cs
    else
      match getlineParts delim cs with
      | [] => [[c]]
      | p :: ps => (c :: p) :: ps

/-- The inner loop of `parseVersionParts` over one part: the pair `(value, hasDigit)`
when the loop is entered with the given `value` and `hasDigit`. -/
def parsePartLoop : List Char → Int → Bool → Int × Bool
  | [], value, hasDigit => (value, hasDigit)
  | ch :: rest, value, hasDigit =>
    if !isDigit ch then (value, hasDigit)
    else parsePartLoop rest (wrapInt32 (value * 10 + ((ch.toNat : Int) - 48))) true

/-- The value pushed for one part: `hasDigit ? value : 0`. -/
def parsePart (part : List Char) : Int :=
  let r := parsePartLoop part 0 false
  if r.2 then r.1 else 0

/-- The function `parseVersionParts`. -/
def parseVersionParts (version : String) : List Int :=
  (getlineParts '.' version.toList).map parsePart

/-- The call `v.resize(n, 0)` on a `std::vector<int>`. -/
def resize (v : List Int) (n : Nat) : List Int :=
  v.take n ++ List.replicate (n - v.length) 0

/-- The comparison loop of `compareSemanticVersions` over the two resized vectors. -/
def compareLoop : List Int → List Int → Int
  | l :: ls, r :: rs => if l < r then -1 else if l > r then 1 else compareLoop ls rs
  | _, _ => 0

/-- The function `compareSemanticVersions`. -/
def compareSemanticVersions (lhs rhs : String) : Int :=
  let left := parseVersionParts lhs
  let right := parseVersionParts rhs
  let maxSize := max left.length right.length
  compareLoop (resize left maxSize) (resize right maxSize)

/-! ### The comparison as the specification words it -/

/-- Splitting on a separator: `n` separators give `n + 1` components. -/
def splitOnChar (sep : Char) : List Char → List (List Char)
  | [] => [[]]
  | c :: cs =>
    if c = sep then [] :: splitOnChar sep cs
    else
      match splitOnChar sep cs with
      | [] => [[c]]
      | p :: ps => (c :: p) :: ps

/-- The decimal value of the leading run of digits of a component, entered with the
value read so far; no bound on the number of digits. -/
def leadingDigitsValue : List Char → Nat → Nat
  | [], acc => acc
  | ch :: rest, acc => if isDigit ch then leadingDigitsValue rest (acc * 10 + (ch.toNat - 48)) else acc

/-- The integer sequence of a version string, in the specification's words: split on
`.`, take each component's leading-decimal-digit value. -/
def specVersionParts (version : String) : List Nat :=
  (splitOnChar '.' version.toList).map (fun part => leadingDigitsValue part 0)

/-- Zero-padding of a sequence to the length `n`. -/
def zeroPad (xs : List Nat) (n : Nat) : List Nat :=
  xs ++ List.replicate (n - xs.length) 0

/-- The sign of the first differing position of two sequences of equal length; `0` when
no position differs. -/
def signFirstDiff : List Nat → List Nat → Int
  | l :: ls, r :: rs => if l < r then -1 else if r < l then 1 else signFirstDiff ls rs
  | _, _ => 0

/-- The comparison of two version strings, in the specification's words. -/
def specCompare (a b : String) : Int :=
  let n := max (specVersionParts a).length (specVersionParts b).length
  signFirstDiff (zeroPad (specVersionParts a) n) (zeroPad (specVersionParts b) n)

/-- The version strings whose components all have a leading-digit value in the range of
a 32-bit `int`. -/
def componentsInRange (version : String) : Prop :=
  ∀ part ∈ splitOnChar '.' version.toList, leadingDigitsValue part 0 < 2147483648

/-! ## SHA-256 (`QCryptographicHash::Sha256`, FIPS 180-4) and its hexadecimal form

The digest is computed by the Qt library; it is written out here after FIPS 180-4 so
that the checks below can be evaluated on concrete files. Words are natural numbers
below `2^32`. -/

/-- The contents of a file or of a download: a sequence of bytes. -/
abbrev Bytes := List UInt8

namespace Sha256

/-- The round constants `K`. -/
def K : List Nat := [
  1116352408, 1899447441, 3049323471, 3921009573, 961987163, 1508970993,
  2453635748, 2870763221, 3624381080, 310598401, 607225278, 1426881987,
  1925078388, 2162078206, 2614888103, 3248222580, 3835390401, 4022224774,
  264347078, 604807628, 770255983, 1249150122, 1555081692, 1996064986,
  2554220882, 2821834349, 2952996808, 3210313671, 3336571891, 3584528711,
  113926993, 338241895, 666307205, 773529912, 1294757372, 1396182291,
  1695183700, 1986661051, 2177026350, 2456956037, 2730485921, 2820302411,
  3259730800, 3345764771, 3516065817, 3600352804, 4094571909, 275423344,
  430227734, 506948616, 659060556, 883997877, 958139571, 1322822218,
  1537002063, 1747873779, 1955562222, 2024104815, 2227730452, 2361852424,
  2428436474, 2756734187, 3204031479, 3329325298]

/-- The initial hash value. -/
def H0 : List Nat :=
  [1779033703, 3144134277, 1013904242, 2773480762,
   1359893119, 2600822924, 528734635, 1541459225]

/-- Reduction to a 32-bit word. -/
def w32 (x : Nat) : Nat := x % 4294967296

/-- Rotation of a 32-bit word to the right by `n` bits. -/
def rotr (x n : Nat) : Nat := ((x >>> n) ||| (x <<< (32 - n))) % 4294967296

/-- The function `Ch`: the bits of `y` where `x` has a one, those of `z` elsewhere. -/
def ch (x y z : Nat) : Nat := (x &&& y) ^^^ ((x ^^^ 4294967295) &&& z)

/-- The function `Maj`: the majority of the three bits at each position. -/
def maj (x y z : Nat) : Nat := (x &&& y) ^^^ (x &&& z) ^^^ (y &&& z)

/-- The function written as a capital sigma with index 0. -/
def bigSigma0 (x : Nat) : Nat := rotr x 2 ^^^ rotr x 13 ^^^ rotr x 22

/-- The function written as a capital sigma with index 1. -/
def bigSigma1 (x : Nat) : Nat := rotr x 6 ^^^ rotr x 11 ^^^ rotr x 25

/-- The function written as a small sigma with index 0. -/
def smallSigma0 (x : Nat) : Nat := rotr x 7 ^^^ rotr x 18 ^^^ (x >>> 3)

/-- The function written as a small sigma with index 1. -/
def smallSigma1 (x : Nat) : Nat := rotr x 17 ^^^ rotr x 19 ^^^ (x >>> 10)

/-- Padding: the bit `1`, zeros up to 56 modulo 64 bytes, the bit length on 8 bytes. -/
def pad (msg : List Nat) : List Nat :=
  msg ++ [128] ++ List.replicate ((119 - msg.length % 64) % 64) 0 ++
    (List.range 8).map (fun i => ((8 * msg.length) >>> (8 * (7 - i))) % 256)

/-- Big-endian grouping of bytes into 32-bit words. -/
def toWords : List Nat → List Nat
  | a :: b :: c :: d :: rest => (((a * 256 + b) * 256 + c) * 256 + d) :: toWords rest
  | _ => []

/-- The message schedule, newest word first: `n` more words after those given. -/
def extend : Nat → List Nat → List Nat
  | 0, w => w
  | n + 1, w =>
    extend n (w32 (smallSigma1 (w.getD 1 0) + w.getD 6 0 + smallSigma0 (w.getD 14 0) + w.getD 15 0) :: w)

/-- One round on the eight working variables with the pair (constant, schedule word). -/
def round (s : List Nat) (kw : Nat × Nat) : List Nat :=
  match s with
  | [a, b, c, d, e, f, g, h] =>
    let t1 := h + bigSigma1 e + ch e f g + kw.1 + kw.2
    let t2 := bigSigma0 a + maj a b c
    [w32 (t1 + t2), a, b, c, w32 (d + t1), e, f, g]
  | _ => s

/-- The compression of one 16-word block into the hash value. -/
def compress (h : List Nat) (block : List Nat) : List Nat :=
  let w := (extend 48 block.reverse).reverse
  List.zipWith (fun x y => w32 (x + y)) h ((K.zip w).foldl round h)

/-- The first `n` blocks of 16 words. -/
def blocks : Nat → List Nat → List (List Nat)
  | 0, _ => []
  | n + 1, ws => ws.take 16 :: blocks n (ws.drop 16)

/-- The eight words of the digest. -/
def digestWords (msg : List Nat) : List Nat :=
  let ws := toWords (pad msg)
  (blocks (ws.length / 16) ws).foldl compress H0

/-- A lowercase hexadecimal digit. -/
def hexDigit (n : Nat) : Char := if n < 10 then Char.ofNat (48 + n) else Char.ofNat (87 + n)

/-- The eight lowercase hexadecimal digits of a word. -/
def hexWord (w : Nat) : List Char :=
  (List.range 8).map (fun i => hexDigit ((w >>> (4 * (7 - i))) % 16))

end Sha256

/-- The value `hash.result().toHex()` after the bytes have been added to a
`QCryptographicHash(QCryptographicHash::Sha256)`: 64 lowercase hexadecimal digits. -/
def sha256Hex (data : Bytes) : String :=
  String.mk (((Sha256.digestWords (data.map UInt8.toNat)).map Sha256.hexWord).flatten)

/-! ## The file system

A file system is a tree: a node is a regular file with its bytes or a directory with its
named entries. A `Path` is a resolved absolute location, the list of names from the
file-system root. The operations follow POSIX; symbolic links are not modelled, and
permissions, quotas and the like enter through an explicit fault argument of each
operation (`none`: the environment lets the operation run). -/

/-- A resolved absolute path: the names from the file-system root downwards. -/
abbrev Path := List String

/-- A node of the file-system tree. -/
inductive Node where
  | file (bytes : Bytes)
  | dir (entries : List (String × Node))

/-- The entry of a directory with the given name. -/
def lookupEntry (name : String) : List (String × Node) → Option Node
  | [] => none
  | (k, v) :: rest => if k = name then some v else lookupEntry name rest

/-- The directory entries without the given name. -/
def eraseEntry (name : String) : List (String × Node) → List (String × Node)
  | [] => []
  | (k, v) :: rest => if k = name then eraseEntry name rest else (k, v) :: eraseEntry name rest

/-- The directory entries with the given name bound to `v`: replaced in place, else added. -/
def putEntry (name : String) (v : Node) : List (String × Node) → List (String × Node)
  | [] => [(name, v)]
  | (k, w) :: rest => if k = name then (k, v) :: rest else (k, w) :: putEntry name v rest

/-- The node at a path, if there is one. -/
def Node.get : Node → Path → Option Node
  | n, [] => some n
  | .file _, _ :: _ => none
  | .dir es, name :: rest =>
    match lookupEntry name es with
    | some child => child.get rest
    | none => none

/-- The tree with the node at a path replaced by `v` (`none`: removed). The result is
`none` when the parent of the path is not an existing directory. -/
def Node.set : Node → Path → Option Node → Option Node
  | _, [], v => v
  | .file _, _ :: _, _ => none
  | .dir es, [name], none => some (.dir (eraseEntry name es))
  | .dir es, [name], some n => some (.dir (putEntry name n es))
  | .dir es, name :: r :: rest, v =>
    match lookupEntry name es with
    | some child =>
      match child.set (r :: rest) v with
      | some c => some (.dir (putEntry name c es))
      | none => none
    | none => none

/-- The call `std::filesystem::exists(p)`. -/
def fsExists (fs : Node) (p : Path) : Bool := (fs.get p).isSome

/-- The call `std::filesystem::file_size(p, error)`: `none` stands for a set `error`
(no such file, or not a regular file). -/
def fsFileSize (fs : Node) (p : Path) : Option Nat :=
  match fs.get p with
  | some (.file bytes) => some bytes.length
  | _ => none

/-- The tree with all missing directories along a path created; `none` when a regular
file is in the way. -/
def Node.mkdirs : Node → Path → Option Node
  | .file _, _ => none
  | .dir es, [] => some (.dir es)
  | .dir es, name :: rest =>
    match (match lookupEntry name es with
           | some child => child.mkdirs rest
           | none => (Node.dir []).mkdirs rest) with
    | some c => some (.dir (putEntry name c es))
    | none => none

/-- The call `std::filesystem::create_directories(p)`: the new tree, or the `what()` of
the `filesystem_error` thrown. -/
def fsCreateDirectories (fault : Option String) (fs : Node) (p : Path) : Except String Node :=
  match fault with
  | some what => .error what
  | none =>
    match fs.mkdirs p with
    | some fs' => .ok fs'
    | none => .error "create_directories: Not a directory"

/-- The calls `QFile::open(QIODevice::WriteOnly)`, `write(data)`, `close()` on a path:
the file is created or truncated and holds `data`; `none` when the open fails (fault
of the environment, missing parent directory, or a directory at the path). -/
def fsWriteFile (fault : Bool) (fs : Node) (p : Path) (data : Bytes) : Option Node :=
  if fault then none
  else
    match p, fs.get p with
    | [], _ => none
    | _ :: _, some (.dir _) => none
    | _ :: _, _ => fs.set p (some (.file data))

/-- Whether `dst` may be replaced by the node `n` in a rename: nothing there, a regular
file replaced by a regular file, or an empty directory replaced by a directory. -/
def renameTargetError (n : Node) (target : Option Node) : Option String :=
  match n, target with
  | _, none => none
  | .file _, some (.file _) => none
  | .file _, some (.dir _) => some "rename: Is a directory"
  | .dir _, some (.file _) => some "rename: Not a directory"
  | .dir _, some (.dir []) => none
  | .dir _, some (.dir (_ :: _)) => some "rename: Directory not empty"

/-- The call `std::filesystem::rename(src, dst)`: the new tree, or the `what()` of the
`filesystem_error` thrown. -/
def fsRename (fault : Option String) (fs : Node) (src dst : Path) : Except String Node :=
  match fault with
  | some what => .error what
  | none =>
    match fs.get src with
    | none => .error "rename: No such file or directory"
    | some n =>
      if src = dst then .ok fs
      else if src <+: dst then .error "rename: Invalid argument"
      else
        match renameTargetError n (fs.get dst) with
        | some what => .error what
        | none =>
          match (fs.set src none).bind (fun fs1 => fs1.set dst (some n)) with
          | some fs' => .ok fs'
          | none => .error "rename: No such file or directory"

/-- How a `copy_file` is refused by the environment: the `what()` of the error, and the
bytes already written to the destination file, if it has been created. -/
structure CopyFault where
  what : String
  written : Option Bytes

/-- The call `std::filesystem::copy_file(src, dst, copy_options::overwrite_existing)`:
the outcome (`what()` of the `filesystem_error` thrown, if any) and the tree after it. -/
def fsCopyFile (fault : Option CopyFault) (fs : Node) (src dst : Path) : Except String Unit × Node :=
  match fs.get src with
  | some (.file bytes) =>
    if src = dst then (.error "copy_file: File exists", fs)
    else
      match fs.get dst with
      | some (.dir _) => (.error "copy_file: Is a directory", fs)
      | _ =>
        match fault with
        | none =>
          match fs.set dst (some (.file bytes)) with
          | some fs' => (.ok (), fs')
          | none => (.error "copy_file: No such file or directory", fs)
        | some f =>
          match f.written with
          | none => (.error f.what, fs)
          | some part => (.error f.what, ((fs.set dst (some (.file part))).getD fs))
  | _ => (.error "copy_file: No such file or directory", fs)

/-- The call `std::filesystem::remove_all(p)`: the new tree, or the `what()` of the
`filesystem_error` thrown. -/
def fsRemoveAll (fault : Option String) (fs : Node) (p : Path) : Except String Node :=
  match fault with
  | some what => .error what
  | none =>
    match fs.get p with
    | none => .ok fs
    | some _ =>
      match fs.set p none with
      | some fs' => .ok fs'
      | none => .error "remove_all: Device or resource busy"

/-- How reading a file for hashing is refused by the environment. -/
inductive ReadFault where
  | openFails
  | readFails

/-- The call `QFile::open(QIODevice::ReadOnly)` on a path: the bytes the open file gives
access to, `none` when the open fails. -/
def fsOpenRead (fault : Option ReadFault) (fs : Node) (p : Path) : Option Bytes :=
  match fault, fs.get p with
  | some .openFails, _ => none
  | _, some (.file bytes) => some bytes
  | _, _ => none

/-! ### Paths built from strings -/

/-- One name of a path string applied to a resolved location: empty names and `.` stay,
`..` goes to the parent, any other name goes down. -/
def pathStep (acc : Path) (name : List Char) : Path :=
  if name = [] ∨ name = ['.'] then acc
  else if name = ['.', '.'] then acc.dropLast
  else acc ++ [String.mk name]

/-- The location of `base / std::filesystem::u8path(rel)`: `rel` is split at `/`; an
absolute `rel` replaces `base`, as `operator/` does. The names are applied one after the
other without looking at the file system, so `a/..` is `.` also where `a` is missing. -/
def pathAppend (base : Path) (rel : String) : Path :=
  (splitOnChar '/' rel.toList).foldl pathStep (if rel.toList.head? = some '/' then [] else base)

/-! ## Integrity checks and the install transaction (`PluginManager.cpp`) -/

/-- The struct `PluginPackageMetadata`. -/
structure PluginPackageMetadata where
  id : String
  name : String
  version : String
  compatibility : String
  packageUrl : String
  sha256 : String
  signature : String

/-- The struct `PortalSession`. -/
structure PortalSession where
  username : String
  role : String
  accessToken : String
  refreshToken : String

/-- The comparison `a.compare(b, Qt::CaseInsensitive) == 0` of two `QString`s, for the
use made of it here: one side is a digest of hexadecimal digits, and the only
characters that fold onto those are the letters `A` to `F`. -/
def equalsCaseInsensitive (a b : String) : Bool :=
  decide (a.toList.map Char.toLower = b.toList.map Char.toLower)

/-- The function `PluginManager::verifyPackageHash_`: the result and `errorMessage`. -/
def verifyPackageHash_ (fs : Node) (fault : Option ReadFault) (packagePath : Path)
    (expectedSha256 : String) (errorMessage : String) : Bool × String :=
  if expectedSha256 = "" then (false, "Missing expected SHA256 hash for package.")
  else
    match fsOpenRead fault fs packagePath, fault with
    | none, _ => (false, "Unable to read downloaded package for hash verification.")
    | some _, some _ => (false, "Unable to compute package hash.")
    | some bytes, none =>
      if !equalsCaseInsensitive (sha256Hex bytes) expectedSha256 then (false, "Package hash mismatch.")
      else (true, errorMessage)

/-- The function `PluginManager::verifyPackageSignature_`: the result and `errorMessage`. -/
def verifyPackageSignature_ (sha256 signature : String) (errorMessage : String) : Bool × String :=
  if signature = "" then (false, "Missing package signature.")
  else if signature ≠ "sha256:" ++ sha256 then (false, "Package signature verification failed.")
  else (true, errorMessage)

/-- What `downloadAndInstallPackage` takes from its environment: the network, the two
base directories, the clock, and for each file-system call whether the environment
refuses it. -/
structure Environment where
  /-- The body of the reply to a GET of the URL with the optional bearer token; `none`
  when `reply->error() != QNetworkReply::NoError`. -/
  fetch : String → Option String → Option Bytes
  /-- The value of `std::filesystem::temp_directory_path()`. -/
  tempDirectoryPath : Path
  /-- The value of `App()->userPluginManagerSettingsLocation`. -/
  userPluginManagerSettingsLocation : Path
  /-- The value of `QDateTime::currentDateTimeUtc().toString("yyyyMMddhhmmss")`. -/
  timestamp : String
  createTempDirFault : Option String
  openTempFault : Bool
  readTempFault : Option ReadFault
  backupRenameFault : Option String
  createPluginDirFault : Option String
  copyFault : Option CopyFault
  restoreRenameFault : Option String
  removeBackupFault : Option String

/-- How a call of `downloadAndInstallPackage` ends: it returns its `bool` with the
`errorMessage` it leaves, or an exception leaves the function. -/
inductive Outcome where
  | returned (ok : Bool) (errorMessage : String)
  | threw (what : String)

/-- The name `metadata.id + "-" + metadata.version + ".pkg"`. -/
def tempFileName (metadata : PluginPackageMetadata) : String :=
  metadata.id ++ "-" ++ metadata.version ++ ".pkg"

/-- The directory `temp_directory_path() / "obs-plugin-packages"`. -/
def tempDir (env : Environment) : Path :=
  pathAppend env.tempDirectoryPath "obs-plugin-packages"

/-- The path `tempDir / tempFileName`. -/
def tempPath (env : Environment) (metadata : PluginPackageMetadata) : Path :=
  pathAppend (tempDir env) (tempFileName metadata)

/-- The directory `userPluginManagerSettingsLocation / "obs-studio/plugins"`. -/
def pluginsRoot (env : Environment) : Path :=
  pathAppend env.userPluginManagerSettingsLocation "obs-studio/plugins"

/-- The directory `pluginsRoot / metadata.id`. -/
def pluginDir (env : Environment) (metadata : PluginPackageMetadata) : Path :=
  pathAppend (pluginsRoot env) metadata.id

/-- The path `pluginDir / tempFileName`. -/
def installPath (env : Environment) (metadata : PluginPackageMetadata) : Path :=
  pathAppend (pluginDir env metadata) (tempFileName metadata)

/-- The path `backupDir` after `backupDir = pluginDir; backupDir += ".backup-" + timestamp`.
The text is appended to the path string, so the result is the location of
`pluginsRoot / (metadata.id + ".backup-" + timestamp)`. -/
def backupDir (env : Environment) (metadata : PluginPackageMetadata) : Path :=
  pathAppend (pluginsRoot env) (metadata.id ++ ".backup-" ++ env.timestamp)

/-- The two checks of `downloadAndInstallPackage` on the downloaded file, in their order:
`verifyPackageHash_(tempPath, metadata.sha256, errorMessage)`, then
`verifyPackageSignature_(metadata.sha256, metadata.signature, errorMessage)`. -/
def verifyDownload (env : Environment) (fs : Node) (metadata : PluginPackageMetadata)
    (errorMessage : String) : Bool × String :=
  match verifyPackageHash_ fs env.readTempFault (tempPath env metadata) metadata.sha256 errorMessage with
  | (false, msg) => (false, msg)
  | (true, msg) => verifyPackageSignature_ metadata.sha256 metadata.signature msg

/-- The `try` block of `downloadAndInstallPackage`: `create_directories(pluginDir)`, then
`copy_file(tempPath, installPath, overwrite_existing)`; the `what()` of the
`filesystem_error` caught, if any, and the tree the block leaves. -/
def stagePayload (env : Environment) (fs : Node) (metadata : PluginPackageMetadata) :
    Except String Unit × Node :=
  match fsCreateDirectories env.createPluginDirFault fs (pluginDir env metadata) with
  | .error what => (.error what, fs)
  | .ok fs1 => fsCopyFile env.copyFault fs1 (tempPath env metadata) (installPath env metadata)

/-- The part of `downloadAndInstallPackage` after the two checks: backup of an existing
`pluginDir`, staging, then restore of the backup or its removal. `backup` is `none`
where the code has an empty `backupDir`. -/
def installVerified (env : Environment) (fs : Node) (metadata : PluginPackageMetadata)
    (errorMessage : String) : Outcome × Node :=
  let backedUp : Except String (Option Path × Node) :=
    if fsExists fs (pluginDir env metadata) then
      match fsRename env.backupRenameFault fs (pluginDir env metadata) (backupDir env metadata) with
      | .error what => .error what
      | .ok fs1 => .ok (some (backupDir env metadata), fs1)
    else .ok (none, fs)
  match backedUp with
  | .error what => (.threw what, fs)
  | .ok (backup, fs1) =>
    match stagePayload env fs1 metadata with
    | (.error what, fs2) =>
      match backup with
      | some b =>
        if fsExists fs2 b then
          match fsRename env.restoreRenameFault fs2 b (pluginDir env metadata) with
          | .error what2 => (.threw what2, fs2)
          | .ok fs3 => (.returned false ("Failed to install package: " ++ what), fs3)
        else (.returned false ("Failed to install package: " ++ what), fs2)
      | none => (.returned false ("Failed to install package: " ++ what), fs2)
    | (.ok (), fs2) =>
      match backup with
      | some b =>
        if fsExists fs2 b then
          match fsRemoveAll env.removeBackupFault fs2 b with
          | .error what => (.threw what, fs2)
          | .ok fs3 => (.returned true errorMessage, fs3)
        else (.returned true errorMessage, fs2)
      | none => (.returned true errorMessage, fs2)

/-- The function `PluginManager::downloadAndInstallPackage` on the file system `fs`: how
the call ends and the file system it leaves. -/
def downloadAndInstallPackage (env : Environment) (fs : Node) (metadata : PluginPackageMetadata)
    (session : PortalSession) (errorMessage : String) : Outcome × Node :=
  if metadata.packageUrl = "" then (.returned false "Missing package URL.", fs)
  else
    match env.fetch metadata.packageUrl
        (if session.accessToken = "" then none else some session.accessToken) with
    | none => (.returned false "Failed to download package.", fs)
    | some packageData =>
      match fsCreateDirectories env.createTempDirFault fs (tempDir env) with
      | .error what => (.threw what, fs)
      | .ok fs1 =>
        match fsWriteFile env.openTempFault fs1 (tempPath env metadata) packageData with
        | none => (.returned false "Unable to write downloaded package.", fs1)
        | some fs2 =>
          match verifyDownload env fs2 metadata errorMessage with
          | (false, msg) => (.returned false msg, fs2)
          | (true, msg) => installVerified env fs2 metadata msg

/-! ## Scene package manifests (`SceneCatalogPackage.cpp`) -/

/-- The struct `SceneCatalogResource`; `size` is a `uint64_t`. -/
structure SceneCatalogResource where
  path : String
  sha256 : String
  url : String
  size : Nat

/-- The struct `SceneCatalogAddon`. -/
structure SceneCatalogAddon where
  id : String
  type : String

/-- The constant `SceneCatalogPackage::kSupportedFormatVersion`. -/
def kSupportedFormatVersion : Int := 1

/-- The struct `SceneCatalogPackage`; the defaults are those of its member initialisers. -/
structure SceneCatalogPackage where
  formatVersion : Int := kSupportedFormatVersion
  id : String := ""
  name : String := ""
  version : String := ""
  obsMinVersion : String := ""
  description : String := ""
  assetRootToken : String := "$\x7bscene_assets\x7d"
  collectionJson : String := ""
  previewImageUrl : String := ""
  resources : List SceneCatalogResource := []
  addons : List SceneCatalogAddon := []

/-- The function `computeSha256` of the anonymous namespace: the digest written to
`output`, `none` for the result `false` (the file cannot be opened or read). -/
def computeSha256 (fault : Option ReadFault) (fs : Node) (path : Path) : Option String :=
  match fsOpenRead fault fs path, fault with
  | some bytes, none => some (sha256Hex bytes)
  | _, _ => none

/-- The call `std::transform(s.begin(), s.end(), s.begin(), ::tolower)` in the "C" locale. -/
def toLowerAscii (s : String) : String := String.mk (s.toList.map Char.toLower)

/-- The body of the loop of `validateResources` for one resource: the `errorMessage` set
before `return false`, or `none` when the iteration runs to its end. -/
def validateResource (readFault : Path → Option ReadFault) (fs : Node) (rootPath : Path)
    (resource : SceneCatalogResource) : Option String :=
  if resource.path = "" then some "Scene package resource entry is missing a path."
  else
    let fullPath := pathAppend rootPath resource.path
    if !fsExists fs fullPath then some ("Missing resource file: " ++ resource.path)
    else if resource.size > 0 ∧ fsFileSize fs fullPath ≠ some resource.size then
      some ("Resource size mismatch: " ++ resource.path)
    else if resource.sha256 ≠ "" then
      match computeSha256 (readFault fullPath) fs fullPath with
      | none => some ("Failed to compute resource hash: " ++ resource.path)
      | some computed =>
        if toLowerAscii computed ≠ "" ∧ toLowerAscii computed ≠ toLowerAscii resource.sha256 then
          some ("Resource hash mismatch: " ++ resource.path)
        else none
    else none

/-- The loop of `validateResources` over the resources not yet visited. -/
def validateResourcesLoop (readFault : Path → Option ReadFault) (fs : Node) (rootPath : Path) :
    List SceneCatalogResource → String → Bool × String
  | [], errorMessage => (true, errorMessage)
  | resource :: rest, errorMessage =>
    match validateResource readFault fs rootPath resource with
    | some msg => (false, msg)
    | none => validateResourcesLoop readFault fs rootPath rest errorMessage

/-- The function `SceneCatalogPackage::validateResources`: the result and `errorMessage`. -/
def SceneCatalogPackage.validateResources (pkg : SceneCatalogPackage)
    (readFault : Path → Option ReadFault) (fs : Node) (rootPath : Path) (errorMessage : String) :
    Bool × String :=
  validateResourcesLoop readFault fs rootPath pkg.resources errorMessage

/-- The function `SceneCatalogPackage::validateCompatibility`: the result and
`errorMessage`. -/
def SceneCatalogPackage.validateCompatibility (pkg : SceneCatalogPackage) (currentVersion : String)
    (errorMessage : String) : Bool × String :=
  if pkg.obsMinVersion = "" then (true, errorMessage)
  else if compareSemanticVersions currentVersion pkg.obsMinVersion < 0 then
    (false, "Scene package requires a newer OBS version.")
  else (true, errorMessage)

/-! ### Manifest documents

The document is read through the `obs_data` interface of libobs. Its values are modelled
as a tree; the parser and the serialiser of the library are parameters. -/

/-- A value of a parsed document. A number is given by the 64-bit integer that
`obs_data_get_int` reads from it. -/
inductive Json where
  | null
  | bool (b : Bool)
  | number (value : Int)
  | string (s : String)
  | array (items : List Json)
  | object (fields : List (String × Json))

/-- An `obs_data_t` object: its named items. -/
abbrev ObsData := List (String × Json)

/-- The item of an object with the given name. -/
def obsDataItem (name : String) : ObsData → Option Json
  | [] => none
  | (k, v) :: rest => if k = name then some v else obsDataItem name rest

/-- The call `obs_data_get_int(data, name)`: `0` when there is no number of that name. -/
def obs_data_get_int (data : ObsData) (name : String) : Int :=
  match obsDataItem name data with
  | some (.number value) => value
  | _ => 0

/-- The call `obs_data_get_string(data, name)`: empty when there is no string of that name. -/
def obs_data_get_string (data : ObsData) (name : String) : String :=
  match obsDataItem name data with
  | some (.string s) => s
  | _ => ""

/-- The call `obs_data_get_obj(data, name)`: `none` for a null pointer. -/
def obs_data_get_obj (data : ObsData) (name : String) : Option ObsData :=
  match obsDataItem name data with
  | some (.object fields) => some fields
  | _ => none

/-- The call `obs_data_get_array(data, name)` with the items that
`obs_data_array_item` gives for `0 ≤ i < obs_data_array_count`: the objects of the
array. `none` for a null pointer. -/
def obs_data_get_array (data : ObsData) (name : String) : Option (List ObsData) :=
  match obsDataItem name data with
  | some (.array items) =>
    some (items.filterMap (fun item => match item with
      | .object fields => some fields
      | _ => none))
  | _ => none

/-- The two calls of libobs that are taken from the environment. -/
structure ObsDataLibrary where
  /-- The call `obs_data_create_from_json(text)`: `none` for a null pointer. -/
  obs_data_create_from_json : String → Option ObsData
  /-- The call `obs_data_get_json(data)`. -/
  obs_data_get_json : ObsData → String

/-- The resource record built from one item of the `resources` array. -/
def resourceFromItem (resource : ObsData) : SceneCatalogResource :=
  { path := obs_data_get_string resource "path"
    sha256 := obs_data_get_string resource "sha256"
    url := obs_data_get_string resource "url"
    size := (obs_data_get_int resource "size" % 18446744073709551616).toNat }

/-- The addon record built from one item of the `addons` array. -/
def addonFromItem (addon : ObsData) : SceneCatalogAddon :=
  { id := obs_data_get_string addon "id"
    type := obs_data_get_string addon "type" }

/-- The value of `out` in `LoadFromJson` once the scalar fields and the preview have
been read (before the collection is looked up), for the accepted `formatVersion`. -/
def manifestHeader (data : ObsData) (formatVersion : Int) : SceneCatalogPackage :=
  { formatVersion := formatVersion
    id := obs_data_get_string data "id"
    name := obs_data_get_string data "name"
    version := obs_data_get_string data "version"
    obsMinVersion := obs_data_get_string data "obs_min_version"
    description := obs_data_get_string data "description"
    assetRootToken :=
      if obs_data_get_string data "asset_root_token" ≠ "" then
        obs_data_get_string data "asset_root_token"
      else ({} : SceneCatalogPackage).assetRootToken
    previewImageUrl :=
      match obs_data_get_obj data "preview" with
      | some preview => obs_data_get_string preview "thumbnail"
      | none => ({} : SceneCatalogPackage).previewImageUrl }

/-- The value of `out` in `LoadFromJson` once the collection, the resources and the
addons have been stored into the value `out` that holds the scalar fields. -/
def manifestBody (lib : ObsDataLibrary) (data collection : ObsData) (out : SceneCatalogPackage) :
    SceneCatalogPackage :=
  { out with
    collectionJson := lib.obs_data_get_json collection
    resources :=
      match obs_data_get_array data "resources" with
      | some resources => out.resources ++ resources.map resourceFromItem
      | none => out.resources
    addons :=
      match obs_data_get_array data "addons" with
      | some addons => out.addons ++ addons.map addonFromItem
      | none => out.addons }

/-- The function `SceneCatalogPackage::LoadFromJson`: the result, the value left in
`out`, and `errorMessage`. -/
def SceneCatalogPackage.LoadFromJson (lib : ObsDataLibrary) (json : String)
    (errorMessage : String) : Bool × SceneCatalogPackage × String :=
  match lib.obs_data_create_from_json json with
  | none => (false, {}, "Invalid scene package manifest JSON.")
  | some data =>
    let formatVersion := wrapInt32 (obs_data_get_int data "format_version")
    let formatVersion := if formatVersion = 0 then kSupportedFormatVersion else formatVersion
    if formatVersion ≠ kSupportedFormatVersion then
      (false, {}, "Unsupported scene package format version.")
    else
      let out := manifestHeader data formatVersion
      match obs_data_get_obj data "collection" with
      | none => (false, out, "Scene package is missing a collection payload.")
      | some collection =>
        let out := manifestBody lib data collection out
        if out.id = "" ∨ out.name = "" then
          (false, out, "Scene package is missing required metadata fields.")
        else (true, out, errorMessage)

/-- The documents whose format version `LoadFromJson` accepts: the value of
`format_version` read as an `int` is `0` (as it is for a missing field) or the supported
version. -/
def formatVersionAccepted (data : ObsData) : Prop :=
  wrapInt32 (obs_data_get_int data "format_version") = 0 ∨
    wrapInt32 (obs_data_get_int data "format_version") = kSupportedFormatVersion

/-! ### The checks of one resource as the specification words them -/

/-- The resolved file of a resource: `installRoot / path`. -/
def resourceFile (rootPath : Path) (resource : SceneCatalogResource) : Path :=
  pathAppend rootPath resource.path

/-- The path check: `path` is not empty. -/
def pathCheck (resource : SceneCatalogResource) : Bool := decide (resource.path ≠ "")

/-- The existence check: the resolved file exists. -/
def existenceCheck (fs : Node) (rootPath : Path) (resource : SceneCatalogResource) : Bool :=
  fsExists fs (resourceFile rootPath resource)

/-- The size check: a declared size of `0` asks for no check, any other must be the
actual size of the file. -/
def sizeCheck (fs : Node) (rootPath : Path) (resource : SceneCatalogResource) : Bool :=
  decide (resource.size = 0) ||
    (match fs.get (resourceFile rootPath resource) with
     | some (.file bytes) => decide (bytes.length = resource.size)
     | _ => false)

/-- The bytes of the resolved file of a resource when it is a regular file that the
environment lets be read. -/
def readableBytes (readFault : Path → Option ReadFault) (fs : Node) (rootPath : Path)
    (resource : SceneCatalogResource) : Option Bytes :=
  match readFault (resourceFile rootPath resource), fs.get (resourceFile rootPath resource) with
  | none, some (.file bytes) => some bytes
  | _, _ => none

/-- The hash check: an empty `sha256` asks for no check, any other must be the digest of
the file up to the case of the letters. -/
def hashCheck (readFault : Path → Option ReadFault) (fs : Node) (rootPath : Path)
    (resource : SceneCatalogResource) : Bool :=
  decide (resource.sha256 = "") ||
    (match readableBytes readFault fs rootPath resource with
     | some bytes =>
       decide ((sha256Hex bytes).toList.map Char.toLower = resource.sha256.toList.map Char.toLower)
     | none => false)

/-- The message of a failed hash check: the digest differs, or it cannot be computed. -/
def hashCheckError (readFault : Path → Option ReadFault) (fs : Node) (rootPath : Path)
    (resource : SceneCatalogResource) : String :=
  match readableBytes readFault fs rootPath resource with
  | some _ => "Resource hash mismatch: " ++ resource.path
  | none => "Failed to compute resource hash: " ++ resource.path

/-- The four checks of a resource in the order path, existence, size, hash, each with
the error it stands for. -/
def resourceChecks (readFault : Path → Option ReadFault) (fs : Node) (rootPath : Path)
    (resource : SceneCatalogResource) : List (Bool × String) :=
  [(pathCheck resource, "Scene package resource entry is missing a path."),
   (existenceCheck fs rootPath resource, "Missing resource file: " ++ resource.path),
   (sizeCheck fs rootPath resource, "Resource size mismatch: " ++ resource.path),
   (hashCheck readFault fs rootPath resource, hashCheckError readFault fs rootPath resource)]

/-- The error of the first failing check of a resource, `none` when all four pass. -/
def firstFailingCheck (readFault : Path → Option ReadFault) (fs : Node) (rootPath : Path)
    (resource : SceneCatalogResource) : Option String :=
  ((resourceChecks readFault fs rootPath resource).find? (fun check => !check.1)).map (fun check => check.2)

/-! ### Plain names and layouts -/

/-- A plain file name: not empty, without `/`, and neither `.` nor `..`. -/
def isPlainName (s : String) : Bool :=
  decide ('/' ∉ s.toList) && decide (s ≠ "") && decide (s ≠ ".") && decide (s ≠ "..")

/-- The requests and environments in which every path the transaction builds is the one
its name says: `id` is a plain file name, `version` and the timestamp have no `/`, and
neither of the temporary directory and the plugins root lies inside the other. -/
def plainLayout (env : Environment) (metadata : PluginPackageMetadata) : Prop :=
  isPlainName metadata.id = true ∧ '/' ∉ metadata.version.toList ∧ '/' ∉ env.timestamp.toList ∧
    ¬ pluginsRoot env <+: tempDir env ∧ ¬ tempDir env <+: pluginsRoot env

/-! ## The comparator of the update check (`PluginManagerWindow.cpp`)

The function works on `QString`s; they are modelled by `String`, and the members of
`QString` that the function calls are given by the behaviour that Qt documents. -/

/-- The call `QChar::isSpace()` for the characters of ASCII: the space and the
characters from tab to carriage return. -/
def isSpace (ch : Char) : Bool :=
  decide (ch.toNat = 32) || (decide (9 ≤ ch.toNat) && decide (ch.toNat ≤ 13))

/-- The call `QString::trimmed()`: white space removed at both ends. -/
def trimmed (s : List Char) : List Char :=
  ((s.dropWhile isSpace).reverse.dropWhile isSpace).reverse

/-- The call `QString::split(sep, Qt::SkipEmptyParts)`: the components between the
separators, the empty ones left out. -/
def splitSkipEmptyParts (sep : Char) (s : String) : List String :=
  ((splitOnChar sep s.toList).filter (fun part => part ≠ [])).map String.mk

/-- The call `QString::toInt()` with its default arguments (base 10, no `ok`): the
value of the string when it is, between optional white space, an optional sign followed
by decimal digits only and the value is in the range of `int`; `0` when the conversion
fails. -/
def toInt (s : String) : Int :=
  let t := trimmed s.toList
  let digits := if t.head? = some '-' ∨ t.head? = some '+' then t.tail else t
  if digits = [] ∨ digits.all isDigit = false then 0
  else
    let value : Int :=
      if t.head? = some '-' then - (leadingDigitsValue digits 0 : Int)
      else (leadingDigitsValue digits 0 : Int)
    if -2147483648 ≤ value ∧ value ≤ 2147483647 then value else 0

/-- The loop `for (int i = 0; i < maxCount; ++i)` of `compareVersions_`, entered at the
index `i` with `maxCount - i` iterations to go. -/
def compareVersionsLoop (leftParts rightParts : List String) : Nat → Nat → Int
  | 0, _ => 0
  | steps + 1, i =>
    let leftValue := if h : i < leftParts.length then toInt leftParts[i] else 0
    let rightValue := if h : i < rightParts.length then toInt rightParts[i] else 0
    if leftValue ≠ rightValue then (if leftValue < rightValue then -1 else 1)
    else compareVersionsLoop leftParts rightParts steps (i + 1)

/-- The function `PluginManagerWindow::compareVersions_`. -/
def compareVersions_ (left right : String) : Int :=
  let leftParts := splitSkipEmptyParts '.' left
  let rightParts := splitSkipEmptyParts '.' right
  let maxCount := max leftParts.length rightParts.length
  compareVersionsLoop leftParts rightParts maxCount 0

/-- The version strings whose dot-separated components are all non-empty runs of decimal
digits with a value in the range of `int`. -/
def digitComponents (version : String) : Prop :=
  ∀ part ∈ splitOnChar '.' version.toList,
    part ≠ [] ∧ (∀ ch ∈ part, isDigit ch = true) ∧ leadingDigitsValue part 0 < 2147483648

/-! ## The scene package download (`SceneCatalogDock.cpp`) -/

/-- The struct `SceneCatalogEntry`. -/
structure SceneCatalogEntry where
  id : String
  name : String
  version : String
  type : String
  summary : String
  obsMinVersion : String
  previewUrl : String
  manifestUrl : String
  packageUrl : String

/-- What `downloadPackage` takes from its environment: the network, the URL resolution of
Qt, the host version, the scenes directory, libobs, and for each file-system call
whether the environment refuses it. -/
structure SceneEnvironment where
  /-- The reply to a GET of the URL: its body, or `reply->errorString()` when
  `reply->error() != QNetworkReply::NoError`. -/
  reply : String → Except String Bytes
  /-- The URL `manifestBase.resolved(QUrl(url))`, where `manifestBase` is the manifest URL
  with its path cut after the last `/`; the arguments are the manifest URL and the `url`
  of a resource. -/
  resolved : String → String → String
  /-- The value of `App()->GetVersionString()`. -/
  versionString : String
  /-- The value of `App()->userScenesLocation`. -/
  userScenesLocation : Path
  library : ObsDataLibrary
  createDirectoriesFault : Path → Option String
  openFault : Path → Bool
  readFault : Path → Option ReadFault

/-- The function `fetchUrl` of the anonymous namespace: the payload returned and
`errorMessage`. -/
def fetchUrl (env : SceneEnvironment) (url : String) (errorMessage : String) : Bytes × String :=
  match env.reply url with
  | .error errorString => ([], errorString)
  | .ok payload => (payload, errorMessage)

/-- The call `QByteArray::toStdString()`: one `char` for each byte. -/
def toStdString (payload : Bytes) : String :=
  String.mk (payload.map (fun b => Char.ofNat b.toNat))

/-- The location of `(base / std::filesystem::u8path(rel)).parent_path()`: the last name
of the path text is dropped, the names before it are applied as in `pathAppend`. -/
def parentPath (base : Path) (rel : String) : Path :=
  (splitOnChar '/' rel.toList).dropLast.foldl pathStep
    (if rel.toList.head? = some '/' then [] else base)

/-- The directory `userScenesLocation / "scene-packages" / package.id / package.version`. -/
def scenePackageRoot (env : SceneEnvironment) (package : SceneCatalogPackage) : Path :=
  pathAppend (pathAppend (pathAppend env.userScenesLocation "scene-packages") package.id)
    package.version

/-- The loop of `downloadPackage` over the resources not yet visited, entered with the
file system, the URLs requested so far and `errorMessage`. The loop is left by a
`return false` or an exception (`error`, with the file system and the requests at that
point) or runs to its end (`ok`). -/
def downloadResources (env : SceneEnvironment) (manifestUrl : String) (packageRoot : Path) :
    List SceneCatalogResource → Node → List String → String →
      Except (Outcome × Node × List String) (Node × List String × String)
  | [], fs, requests, errorMessage => .ok (fs, requests, errorMessage)
  | resource :: rest, fs, requests, errorMessage =>
    if resource.url = "" then
      downloadResources env manifestUrl packageRoot rest fs requests errorMessage
    else
      let resourceUrl := env.resolved manifestUrl resource.url
      let fetched := fetchUrl env resourceUrl errorMessage
      if fetched.1 = [] then
        .error (.returned false ("Failed to download resource: " ++ resource.path), fs,
          requests ++ [resourceUrl])
      else
        let destination := pathAppend packageRoot resource.path
        let parent := parentPath packageRoot resource.path
        match fsCreateDirectories (env.createDirectoriesFault parent) fs parent with
        | .error what => .error (.threw what, fs, requests ++ [resourceUrl])
        | .ok fs1 =>
          match fsWriteFile (env.openFault destination) fs1 destination fetched.1 with
          | none =>
            .error (.returned false ("Failed to write resource file: " ++ resource.path), fs1,
              requests ++ [resourceUrl])
          | some fs2 =>
            downloadResources env manifestUrl packageRoot rest fs2 (requests ++ [resourceUrl])
              fetched.2

/-- How a call of `downloadPackage` ends: the outcome, the values left in the
out-parameters `package` and `packageRoot`, the file system, and the URLs requested
from the network, in their order. -/
structure DownloadResult where
  outcome : Outcome
  package : SceneCatalogPackage
  packageRoot : Path
  fs : Node
  requests : List String

/-- The function `SceneCatalogDockWidget::downloadPackage` on the file system `fs`;
`package`, `packageRoot` and `errorMessage` are the values of the three reference
parameters at the call. -/
def downloadPackage (env : SceneEnvironment) (fs : Node) (entry : SceneCatalogEntry)
    (package : SceneCatalogPackage) (packageRoot : Path) (errorMessage : String) :
    DownloadResult :=
  let manifestUrl := if entry.manifestUrl = "" then entry.packageUrl else entry.manifestUrl
  if manifestUrl = "" then
    ⟨.returned false "Scene catalog entry is missing a manifest URL.", package, packageRoot, fs, []⟩
  else
    let fetched := fetchUrl env manifestUrl errorMessage
    if fetched.1 = [] then
      ⟨.returned false
          (if fetched.2 = "" then "Failed to download scene package manifest." else fetched.2),
        package, packageRoot, fs, [manifestUrl]⟩
    else
      match SceneCatalogPackage.LoadFromJson env.library (toStdString fetched.1) fetched.2 with
      | (false, out, msg) => ⟨.returned false msg, out, packageRoot, fs, [manifestUrl]⟩
      | (true, out, msg) =>
        match out.validateCompatibility env.versionString msg with
        | (false, msg1) => ⟨.returned false msg1, out, packageRoot, fs, [manifestUrl]⟩
        | (true, msg1) =>
          let root := scenePackageRoot env out
          match fsCreateDirectories (env.createDirectoriesFault root) fs root with
          | .error what => ⟨.threw what, out, root, fs, [manifestUrl]⟩
          | .ok fs1 =>
            match downloadResources env manifestUrl root out.resources fs1 [manifestUrl] msg1 with
            | .error (outcome, fs2, requests) => ⟨outcome, out, root, fs2, requests⟩
            | .ok (fs2, requests, msg2) =>
              match out.validateResources env.readFault fs2 root msg2 with
              | (ok, msg3) => ⟨.returned ok msg3, out, root, fs2, requests⟩

/-! ## Example data -/

/-- The bytes of a small download. -/
def examplePayload : Bytes := [80, 75, 3, 4]

/-- The SHA-256 digest of `examplePayload`, in lowercase hexadecimal. -/
def payloadDigest : String := "8dcc7e601606217f3b754766511182a916b17e9a26a94c9d887104eba92e9bb2"

/-- The digest `payloadDigest` written with capital letters. -/
def payloadDigestUpper : String :=
  "8DCC7E601606217F3B754766511182A916B17E9A26A94C9D887104EBA92E9BB2"

/-- An environment without faults whose network answers every request with
`examplePayload`. -/
def exampleEnv : Environment :=
  { fetch := fun _ _ => some examplePayload
    tempDirectoryPath := ["tmp"]
    userPluginManagerSettingsLocation := ["config"]
    timestamp := "20250101120000"
    createTempDirFault := none
    openTempFault := false
    readTempFault := none
    backupRenameFault := none
    createPluginDirFault := none
    copyFault := none
    restoreRenameFault := none
    removeBackupFault := none }

/-- A tree with an installed plugin `demo` under the plugins root. -/
def exampleFs : Node :=
  .dir [("tmp", .dir []),
        ("config", .dir [("obs-studio", .dir [("plugins",
          .dir [("demo", .dir [("demo-0.9.pkg", .file [1, 2, 3])])])])])]

/-- A request for version `1.0` of `demo` with the right hash and signature. -/
def exampleRequest : PluginPackageMetadata :=
  { id := "demo", name := "Demo", version := "1.0", compatibility := "",
    packageUrl := "https://portal.example/demo.pkg",
    sha256 := payloadDigest, signature := "sha256:" ++ payloadDigest }

/-- A session that is not logged in. -/
def exampleSession : PortalSession :=
  { username := "", role := "", accessToken := "", refreshToken := "" }

/-- The request `exampleRequest` with the hash in capital letters and the signature
built from the lowercase digest. -/
def upperCaseRequest : PluginPackageMetadata :=
  { exampleRequest with sha256 := payloadDigestUpper, signature := "sha256:" ++ payloadDigest }

/-- The tree `exampleFs` once the download has been written to the temporary file. -/
def exampleDownloadedFs : Node :=
  .dir [("tmp", .dir [("obs-plugin-packages", .dir [("demo-1.0.pkg", .file examplePayload)])]),
        ("config", .dir [("obs-studio", .dir [("plugins",
          .dir [("demo", .dir [("demo-0.9.pkg", .file [1, 2, 3])])])])])]

/-- The tree `exampleDownloadedFs` once `demo` has been renamed to its backup. -/
def exampleBackedUpFs : Node :=
  .dir [("tmp", .dir [("obs-plugin-packages", .dir [("demo-1.0.pkg", .file examplePayload)])]),
        ("config", .dir [("obs-studio", .dir [("plugins",
          .dir [("demo.backup-20250101120000", .dir [("demo-0.9.pkg", .file [1, 2, 3])])])])])]

/-- An environment that refuses to create the plugin directory. -/
def refusedEnv : Environment :=
  { exampleEnv with createPluginDirFault := some "create_directories: Permission denied" }

/-- An environment whose disk is full when the payload is copied: the destination file
is created and nothing is written to it. -/
def diskFullEnv : Environment :=
  { exampleEnv with copyFault := some ⟨"copy_file: No space left on device", some []⟩ }

/-- The request `exampleRequest` with a wrong hash. -/
def wrongHashRequest : PluginPackageMetadata :=
  { exampleRequest with sha256 := "00" }

/-- The tree `exampleFs` once version `1.0` of `demo` has been installed. -/
def exampleInstalledFs : Node :=
  .dir [("tmp", .dir [("obs-plugin-packages", .dir [("demo-1.0.pkg", .file examplePayload)])]),
        ("config", .dir [("obs-studio", .dir [("plugins",
          .dir [("demo", .dir [("demo-1.0.pkg", .file examplePayload)])])])])]

/-- A request whose `id` is an absolute path into the plugins root, with a wrong hash. -/
def hostileRequest : PluginPackageMetadata :=
  { exampleRequest with id := "/config/obs-studio/plugins/demo/", sha256 := "00" }

/-- A request whose `id` leaves the plugins root, with the right hash and signature. -/
def traversalRequest : PluginPackageMetadata :=
  { exampleRequest with id := "../x" }

/-- A tree with a directory `x` beside the plugins root. -/
def traversalFs : Node :=
  .dir [("tmp", .dir []),
        ("config", .dir [("obs-studio",
          .dir [("x", .dir [("old.bin", .file [7])]), ("plugins", .dir [])])])]

/-- A tree with the files of an installed scene package. -/
def exampleSceneFs : Node :=
  .dir [("scenes", .dir [("a.bin", .file examplePayload), ("b.bin", .file [1, 2, 3])])]

/-- A resource whose file matches: size not declared, digest given in capital letters. -/
def exampleResourceA : SceneCatalogResource :=
  { path := "a.bin", sha256 := payloadDigestUpper, url := "", size := 0 }

/-- A resource with a wrong size and a wrong digest. -/
def exampleResourceB : SceneCatalogResource :=
  { path := "b.bin", sha256 := payloadDigest, url := "", size := 5 }

/-- A resource whose file is missing. -/
def exampleResourceC : SceneCatalogResource :=
  { path := "c.bin", sha256 := "", url := "", size := 0 }

/-- A manifest whose only resource matches its file. -/
def matchingPackage : SceneCatalogPackage :=
  { id := "pack", name := "Pack", resources := [exampleResourceA] }

/-- A manifest with the three example resources. -/
def examplePackage : SceneCatalogPackage :=
  { id := "pack", name := "Pack", resources := [exampleResourceA, exampleResourceB, exampleResourceC] }

/-- The text of a manifest document. -/
def exampleManifestText : String :=
  "\x7b\"id\":\"pack\",\"name\":\"Pack\",\"version\":\"1.2\",\"collection\":\x7b\x7d\x7d"

/-- A library that parses `exampleManifestText` and nothing else, and serialises every
object as `\x7b\x7d`. -/
def exampleLibrary : ObsDataLibrary :=
  { obs_data_create_from_json := fun text =>
      if text = exampleManifestText then
        some [("id", .string "pack"), ("name", .string "Pack"), ("version", .string "1.2"),
          ("collection", .object [])]
      else none
    obs_data_get_json := fun _ => "\x7b\x7d" }

/-- The manifest of `exampleManifestText`. -/
def exampleManifest : SceneCatalogPackage :=
  { id := "pack", name := "Pack", version := "1.2", collectionJson := "\x7b\x7d" }

/-- A document with the format version `4294967297`, which is `1` modulo `2^32`. -/
def wideVersionDocument : ObsData :=
  [("format_version", .number 4294967297), ("id", .string "pack"), ("name", .string "Pack"),
    ("collection", .object [])]

/-- A document with the unsupported format version `2`. -/
def versionTwoDocument : ObsData :=
  [("format_version", .number 2), ("id", .string "pack"), ("name", .string "Pack"),
    ("collection", .object [])]

/-- A document with the supported format version and a collection, without `id`. -/
def namelessDocument : ObsData :=
  [("format_version", .number 1), ("name", .string "Pack"), ("version", .string "1.2"),
    ("collection", .object [])]

/-- A document with `id` and `name`, without a collection. -/
def collectionlessDocument : ObsData :=
  [("format_version", .number 1), ("id", .string "pack"), ("name", .string "Pack"),
    ("version", .string "1.2")]

/-- A document without `format_version`, with a collection, `id` and `name`. -/
def unversionedDocument : ObsData :=
  [("id", .string "pack"), ("name", .string "Pack"), ("version", .string "1.2"),
    ("collection", .object [])]

/-- A library whose parser gives the document `data` for every text. -/
def libraryOf (data : ObsData) : ObsDataLibrary :=
  { obs_data_create_from_json := fun _ => some data
    obs_data_get_json := fun _ => "\x7b\x7d" }

/-- A scene package that asks for host version `31.0.0`. -/
def newerHostPackage : SceneCatalogPackage :=
  { id := "pack", name := "Pack", version := "1.2", obsMinVersion := "31.0.0" }

/-- The request `exampleRequest` with a signature built from another digest. -/
def wrongSignatureRequest : PluginPackageMetadata :=
  { exampleRequest with signature := "sha256:00" }

/-- An environment that refuses to remove the backup directory. -/
def lockedBackupEnv : Environment :=
  { exampleEnv with removeBackupFault := some "remove_all: Permission denied" }

/-- The tree `exampleBackedUpFs` once version `1.0` of `demo` has been staged beside the
backup. -/
def exampleStagedFs : Node :=
  .dir [("tmp", .dir [("obs-plugin-packages", .dir [("demo-1.0.pkg", .file examplePayload)])]),
        ("config", .dir [("obs-studio", .dir [("plugins",
          .dir [("demo.backup-20250101120000", .dir [("demo-0.9.pkg", .file [1, 2, 3])]),
            ("demo", .dir [("demo-1.0.pkg", .file examplePayload)])])])])]

/-- A request for version `4.0` of the plugin `obs-ndi`. -/
def hyphenRequest : PluginPackageMetadata :=
  { exampleRequest with id := "obs-ndi", version := "4.0" }

/-- A request for version `ndi-4.0` of the plugin `obs`. -/
def hyphenVersionRequest : PluginPackageMetadata :=
  { exampleRequest with id := "obs", version := "ndi-4.0" }

/-- A request with an empty `id`. -/
def emptyIdRequest : PluginPackageMetadata :=
  { exampleRequest with id := "" }

/-- A manifest document with three resources; the first is stored as the file `assets`,
the second below a directory of that name. -/
def clashingDocument : ObsData :=
  [("id", .string "pack"), ("name", .string "Pack"), ("version", .string "1.2"),
    ("collection", .object []),
    ("resources", .array [
      .object [("path", .string "assets"), ("url", .string "assets")],
      .object [("path", .string "assets/b.bin"), ("url", .string "b.bin")],
      .object [("path", .string "c.bin"), ("url", .string "c.bin")]])]

/-- A manifest document with one resource whose path leaves the package root. -/
def escapingDocument : ObsData :=
  [("id", .string "pack"), ("name", .string "Pack"), ("version", .string "1.2"),
    ("collection", .object []),
    ("resources", .array [
      .object [("path", .string "../../../global.ini"), ("url", .string "global.ini"),
        ("sha256", .string payloadDigest), ("size", .number 4)]])]

/-- A manifest document with three resources: the first without URL, the third not
available from the network. -/
def partialDocument : ObsData :=
  [("id", .string "pack"), ("name", .string "Pack"), ("version", .string "1.2"),
    ("collection", .object []),
    ("resources", .array [
      .object [("path", .string "local.bin")],
      .object [("path", .string "a.bin"), ("url", .string "a.bin")],
      .object [("path", .string "missing.bin"), ("url", .string "missing.bin")],
      .object [("path", .string "c.bin"), ("url", .string "c.bin")]])]

/-- An environment without faults for the manifest `data`: the network answers every
request with `examplePayload`, but for `missing.bin`, which it does not have; the
resource URLs are resolved against `https://portal.example/pack/`. -/
def sceneEnv (data : ObsData) : SceneEnvironment :=
  { reply := fun url =>
      if url = "https://portal.example/pack/missing.bin" then .error "Not Found"
      else .ok examplePayload
    resolved := fun _ url => "https://portal.example/pack/" ++ url
    versionString := "31.0.0"
    userScenesLocation := ["scenes"]
    library := libraryOf data
    createDirectoriesFault := fun _ => none
    openFault := fun _ => false
    readFault := fun _ => none }

/-- The catalog entry of the package `pack`. -/
def exampleEntry : SceneCatalogEntry :=
  { id := "pack", name := "Pack", version := "1.2", type := "scene", summary := "",
    obsMinVersion := "", previewUrl := "",
    manifestUrl := "https://portal.example/pack/manifest.json", packageUrl := "" }

/-- A tree with an empty scenes directory. -/
def emptyScenesFs : Node := .dir [("scenes", .dir [])]

/-! # Theorems -/

/-! ## Version comparison -/

/-- The value read so far is never above the final value. -/
theorem leadingDigitsValue_ge (part : List Char) (acc : Nat) :
    acc ≤ leadingDigitsValue part acc := by
  induction part generalizing acc with
  | nil => exact Nat.le_refl _
  | cons ch rest ih =>
    unfold leadingDigitsValue
    split
    · exact Nat.le_trans (by omega) (ih (acc * 10 + (ch.toNat - 48)))
    · exact Nat.le_refl _

/-- A value in the range of `int` is left as it is by the wrap. -/
theorem wrapInt32_of_lt (n : Nat) (h : n < 2147483648) : wrapInt32 (n : Int) = (n : Int) := by
  unfold wrapInt32
  omega

/-- Once a digit has been seen, `hasDigit` stays set. -/
theorem parsePartLoop_snd_true (part : List Char) (v : Int) :
    (parsePartLoop part v true).2 = true := by
  induction part generalizing v with
  | nil => rfl
  | cons ch rest ih =>
    unfold parsePartLoop
    split
    · rfl
    · exact ih _

/-- While the value stays in the range of `int`, the loop computes the value of
the leading digits. -/
theorem parsePartLoop_fst (part : List Char) (acc : Nat) (hd : Bool)
    (hr : leadingDigitsValue part acc < 2147483648) :
    (parsePartLoop part (acc : Int) hd).1 = (leadingDigitsValue part acc : Int) := by
  induction part generalizing acc hd with
  | nil => rfl
  | cons ch rest ih =>
    unfold parsePartLoop leadingDigitsValue
    unfold leadingDigitsValue at hr
    by_cases hdig : isDigit ch = true
    · simp only [hdig, Bool.not_true, Bool.false_eq_true, ↓reduceIte] at hr ⊢
      have h48 : 48 ≤ ch.toNat := by
        unfold isDigit at hdig
        simp only [Bool.and_eq_true, decide_eq_true_eq] at hdig
        exact hdig.1
      have hlt : acc * 10 + (ch.toNat - 48) < 2147483648 :=
        Nat.lt_of_le_of_lt (leadingDigitsValue_ge rest _) hr
      have hcast : (acc : Int) * 10 + ((ch.toNat : Int) - 48) =
          ((acc * 10 + (ch.toNat - 48) : Nat) : Int) := by omega
      rw [hcast, wrapInt32_of_lt _ hlt]
      exact ih _ true hr
    · simp only [hdig, Bool.not_false, ↓reduceIte, Bool.false_eq_true]

/-- A part whose leading digits are in the range of `int` parses to their value. -/
theorem parsePart_eq (part : List Char) (hr : leadingDigitsValue part 0 < 2147483648) :
    parsePart part = (leadingDigitsValue part 0 : Int) := by
  have h1 := parsePartLoop_fst part 0 false hr
  unfold parsePart
  simp only
  split
  · exact h1
  · rename_i hfalse
    cases part with
    | nil => rfl
    | cons ch rest =>
      unfold parsePartLoop at hfalse
      unfold leadingDigitsValue
      by_cases hdig : isDigit ch = true
      · simp only [hdig, Bool.not_true, Bool.false_eq_true, ↓reduceIte] at hfalse
        exact absurd (parsePartLoop_snd_true rest _) hfalse
      · simp [hdig]

/-- A split has at least one component. -/
theorem splitOnChar_ne_nil (sep : Char) (l : List Char) : splitOnChar sep l ≠ [] := by
  cases l with
  | nil => simp [splitOnChar]
  | cons c cs =>
    unfold splitOnChar
    split
    · simp
    · split <;> simp

/-- The parts read by `getline` are the components of the split, but for an empty
last component, which `getline` does not produce. -/
theorem splitOnChar_getlineParts (sep : Char) (l : List Char) :
    splitOnChar sep l = getlineParts sep l ∨ splitOnChar sep l = getlineParts sep l ++ [[]] := by
  induction l with
  | nil => right; rfl
  | cons c cs ih =>
    unfold splitOnChar getlineParts
    by_cases hc : c = sep
    · simp only [hc, ↓reduceIte]
      rcases ih with h | h
      · left; rw [h]
      · right; rw [h]; rfl
    · simp only [hc, ↓reduceIte]
      rcases ih with h | h
      · left; rw [h]
      · cases hg : getlineParts sep cs with
        | nil =>
          left
          rw [h, hg]
          rfl
        | cons p ps =>
          right
          rw [h, hg]
          rfl

/-- On natural numbers the comparison loop is the sign of the first difference. -/
theorem compareLoop_cast (l r : List Nat) :
    compareLoop (l.map Nat.cast) (r.map Nat.cast) = signFirstDiff l r := by
  induction l generalizing r with
  | nil => cases r <;> rfl
  | cons a l ih =>
    cases r with
    | nil => rfl
    | cons b r =>
      simp only [List.map_cons, compareLoop, signFirstDiff, ih]
      by_cases h1 : a < b
      · have : (a : Int) < (b : Int) := by omega
        simp [h1, this]
      · by_cases h2 : b < a
        · have h3 : ¬ (a : Int) < (b : Int) := by omega
          have h4 : (a : Int) > (b : Int) := by omega
          simp [h1, h2, h3, h4]
        · have h3 : ¬ (a : Int) < (b : Int) := by omega
          have h4 : ¬ (a : Int) > (b : Int) := by omega
          simp [h1, h2, h3, h4]

/-- Resizing to at least the length is zero-padding. -/
theorem resize_cast (l : List Nat) (n : Nat) (h : l.length ≤ n) :
    resize (l.map Nat.cast) n = (zeroPad l n).map Nat.cast := by
  unfold resize zeroPad
  rw [List.take_of_length_le (by simpa using h)]
  simp

/-- A common trailing zero does not change the sign of the first difference. -/
theorem signFirstDiff_append_zero (x y : List Nat) (h : x.length = y.length) :
    signFirstDiff (x ++ [0]) (y ++ [0]) = signFirstDiff x y := by
  induction x generalizing y with
  | nil =>
    cases y with
    | nil => simp [signFirstDiff]
    | cons b y => simp at h
  | cons a x ih =>
    cases y with
    | nil => simp at h
    | cons b y =>
      have ih' := ih y (by simpa using h)
      simp only [List.cons_append, signFirstDiff]
      simp only [List.append_eq] at ih' ⊢
      rw [ih']

/-- Padding by one more is one more zero at the end. -/
theorem zeroPad_succ (l : List Nat) (n : Nat) (h : l.length ≤ n) :
    zeroPad l (n + 1) = zeroPad l n ++ [0] := by
  unfold zeroPad
  have : n + 1 - l.length = (n - l.length) + 1 := by omega
  rw [this, List.replicate_succ', List.append_assoc]

/-- The length of a padded sequence. -/
theorem zeroPad_length (l : List Nat) (n : Nat) (h : l.length ≤ n) : (zeroPad l n).length = n := by
  unfold zeroPad
  simp
  omega

/-- The sign of the first difference does not depend on how far both sequences
are padded. -/
theorem signFirstDiff_zeroPad_add (l r : List Nat) (n k : Nat) (hl : l.length ≤ n)
    (hr : r.length ≤ n) :
    signFirstDiff (zeroPad l (n + k)) (zeroPad r (n + k)) =
      signFirstDiff (zeroPad l n) (zeroPad r n) := by
  induction k with
  | zero => rfl
  | succ k ih =>
    rw [← Nat.add_assoc, zeroPad_succ l (n + k) (by omega), zeroPad_succ r (n + k) (by omega),
      signFirstDiff_append_zero _ _ (by rw [zeroPad_length _ _ (by omega), zeroPad_length _ _ (by omega)]),
      ih]

/-- A trailing zero is absorbed by the padding. -/
theorem zeroPad_append_zero (l : List Nat) (n : Nat) (h : l.length + 1 ≤ n) :
    zeroPad (l ++ [0]) n = zeroPad l n := by
  unfold zeroPad
  have : n - l.length = (n - (l ++ [0]).length) + 1 := by simp; omega
  rw [this, List.replicate_succ, List.append_assoc]
  rfl

/-- Padding a sequence with or without a trailing zero gives the same. -/
theorem zeroPad_of_trailing_zero (l ls : List Nat) (n : Nat) (h : ls = l ∨ ls = l ++ [0])
    (hn : ls.length ≤ n) : zeroPad ls n = zeroPad l n := by
  rcases h with h | h
  · rw [h]
  · subst h
    exact zeroPad_append_zero l n (by simpa using hn)

/-- The comparison of two padded sequences does not see trailing zeros. -/
theorem signFirstDiff_trailing_zero (l r ls rs : List Nat) (hl : ls = l ∨ ls = l ++ [0])
    (hr : rs = r ∨ rs = r ++ [0]) :
    signFirstDiff (zeroPad ls (max ls.length rs.length)) (zeroPad rs (max ls.length rs.length)) =
      signFirstDiff (zeroPad l (max l.length r.length)) (zeroPad r (max l.length r.length)) := by
  have h1 : l.length ≤ ls.length := by
    rcases hl with h | h <;> simp [h]
  have h2 : r.length ≤ rs.length := by
    rcases hr with h | h <;> simp [h]
  rw [zeroPad_of_trailing_zero l ls _ hl (Nat.le_max_left _ _),
    zeroPad_of_trailing_zero r rs _ hr (Nat.le_max_right _ _)]
  have hk : max ls.length rs.length =
      max l.length r.length + (max ls.length rs.length - max l.length r.length) := by omega
  rw [hk]
  exact signFirstDiff_zeroPad_add l r _ _ (Nat.le_max_left _ _) (Nat.le_max_right _ _)

/-- For components in range the parsed parts are the values of the leading digits of
the parts read by `getline`. -/
theorem parseVersionParts_eq (version : String) (h : componentsInRange version) :
    parseVersionParts version =
      ((getlineParts '.' version.toList).map (fun part => leadingDigitsValue part 0)).map
        Nat.cast := by
  unfold parseVersionParts
  rw [List.map_map]
  apply List.map_congr_left
  intro part hpart
  have hmem : part ∈ splitOnChar '.' version.toList := by
    rcases splitOnChar_getlineParts '.' version.toList with hs | hs
    · rw [hs]; exact hpart
    · rw [hs]; exact List.mem_append_left _ hpart
  exact parsePart_eq part (h part hmem)

/-- The sequence of the specification is the one of the parts read by `getline`,
with at most a zero more at the end. -/
theorem specVersionParts_eq (version : String) :
    specVersionParts version =
        (getlineParts '.' version.toList).map (fun part => leadingDigitsValue part 0) ∨
      specVersionParts version =
        (getlineParts '.' version.toList).map (fun part => leadingDigitsValue part 0) ++ [0] := by
  unfold specVersionParts
  rcases splitOnChar_getlineParts '.' version.toList with hs | hs
  · left; rw [hs]
  · right; rw [hs, List.map_append]; rfl

/-- For version strings whose components are in the range of `int`, the code returns the
sign of the first differing position of the two zero-padded integer sequences. -/
theorem compareSemanticVersions_eq_specCompare (a b : String) (ha : componentsInRange a)
    (hb : componentsInRange b) : compareSemanticVersions a b = specCompare a b := by
  unfold compareSemanticVersions specCompare
  simp only
  rw [parseVersionParts_eq a ha, parseVersionParts_eq b hb]
  simp only [List.length_map]
  rw [resize_cast _ _ (by simp), resize_cast _ _ (by simp), compareLoop_cast]
  have := signFirstDiff_trailing_zero _ _ _ _ (specVersionParts_eq a) (specVersionParts_eq b)
  rw [this]
  simp only [List.length_map]

/-- The comparison of `"1.9.0"` with `"1.10.0"`: both are in range, the code agrees with
the specification's comparison, and the result is `-1`. -/
theorem compareSemanticVersions_eq_specCompare_witness :
    compareSemanticVersions "1.9.0" "1.10.0" = specCompare "1.9.0" "1.10.0" ∧
      compareSemanticVersions "1.9.0" "1.10.0" = -1 :=
  ⟨compareSemanticVersions_eq_specCompare "1.9.0" "1.10.0"
      (by unfold componentsInRange; decide) (by unfold componentsInRange; decide),
    by decide⟩

/-- Claim C1 (the code at the failing input): the component `2147483648` exceeds the
range of `int`; the code orders `"2147483648"` below `"0"`, the sign of the first
differing position of the two integer sequences is `1`. -/
theorem compareSemanticVersions_overflow :
    compareSemanticVersions "2147483648" "0" = -1 ∧ specCompare "2147483648" "0" = 1 := by
  decide

/-! ## Order properties of the comparison -/

/-- Resizing by one more: the first element, or `0` for an empty vector, then the rest
resized. -/
theorem resize_succ (l : List Int) (n : Nat) :
    resize l (n + 1) = l.headD 0 :: resize l.tail n := by
  cases l with
  | nil =>
    unfold resize
    simp [List.replicate_succ]
  | cons a l =>
    unfold resize
    simp

/-- A vector compared with itself. -/
theorem compareLoop_self (l : List Int) : compareLoop l l = 0 := by
  induction l with
  | nil => rfl
  | cons a l ih =>
    unfold compareLoop
    simp [ih]

/-- The loop returns `-1`, `0` or `1`. -/
theorem compareLoop_range (l r : List Int) :
    compareLoop l r = -1 ∨ compareLoop l r = 0 ∨ compareLoop l r = 1 := by
  induction l generalizing r with
  | nil => right; left; cases r <;> rfl
  | cons a l ih =>
    cases r with
    | nil => right; left; rfl
    | cons b r =>
      unfold compareLoop
      by_cases h1 : a < b
      · left; simp [h1]
      · by_cases h2 : a > b
        · right; right; simp [h1, h2]
        · simp only [h1, h2, ↓reduceIte]
          exact ih r

/-- Swapping the two vectors negates the result. -/
theorem compareLoop_swap (l r : List Int) : compareLoop l r = - compareLoop r l := by
  induction l generalizing r with
  | nil => cases r <;> rfl
  | cons a l ih =>
    cases r with
    | nil => rfl
    | cons b r =>
      unfold compareLoop
      by_cases h1 : a < b
      · have h2 : ¬ b < a := by omega
        have h3 : b > a := h1
        simp [h1, h2, h3]
      · by_cases h2 : a > b
        · have h3 : b < a := h2
          simp [h1, h2, h3]
        · have h3 : ¬ b < a := h2
          have h4 : ¬ b > a := h1
          simp only [h1, h2, h3, h4, ↓reduceIte]
          exact ih r

/-- The loop is transitive on vectors of one length. -/
theorem compareLoop_trans (x y z : List Int) (hxy : x.length = y.length)
    (hyz : y.length = z.length) (h1 : compareLoop x y ≤ 0) (h2 : compareLoop y z ≤ 0) :
    compareLoop x z ≤ 0 := by
  induction x generalizing y z with
  | nil => cases z <;> simp [compareLoop]
  | cons a x ih =>
    cases y with
    | nil => simp at hxy
    | cons b y =>
      cases z with
      | nil => simp at hyz
      | cons c z =>
        unfold compareLoop at h1 h2 ⊢
        by_cases hab : a < b
        · by_cases hbc : b < c
          · have : a < c := by omega
            simp [this]
          · by_cases hbc2 : b > c
            · simp [hbc, hbc2] at h2
            · have : a < c := by omega
              simp [this]
        · by_cases hab2 : a > b
          · simp [hab, hab2] at h1
          · simp only [hab, hab2, ↓reduceIte] at h1
            have hab3 : a = b := by omega
            subst hab3
            by_cases hbc : a < c
            · simp [hbc]
            · by_cases hbc2 : a > c
              · simp [hbc, hbc2] at h2
              · simp only [hbc, hbc2, ↓reduceIte] at h2 ⊢
                exact ih y z (by simpa using hxy) (by simpa using hyz) h1 h2

/-- Resizing both vectors further than their lengths does not change the result. -/
theorem compareLoop_resize_add (l r : List Int) (n k : Nat) (hl : l.length ≤ n)
    (hr : r.length ≤ n) :
    compareLoop (resize l (n + k)) (resize r (n + k)) =
      compareLoop (resize l n) (resize r n) := by
  induction n generalizing l r with
  | zero =>
    have hl0 : l = [] := List.length_eq_zero.mp (by omega)
    have hr0 : r = [] := List.length_eq_zero.mp (by omega)
    subst hl0 hr0
    rw [compareLoop_self, compareLoop_self]
  | succ n ih =>
    have hk : n + 1 + k = (n + k) + 1 := by omega
    rw [hk, resize_succ, resize_succ, resize_succ l n, resize_succ r n]
    unfold compareLoop
    rw [ih l.tail r.tail (by simp; omega) (by simp; omega)]

/-- The comparison is the loop over the vectors resized to any common bound of their
lengths. -/
theorem compareSemanticVersions_resize (a b : String) (n : Nat)
    (ha : (parseVersionParts a).length ≤ n) (hb : (parseVersionParts b).length ≤ n) :
    compareSemanticVersions a b =
      compareLoop (resize (parseVersionParts a) n) (resize (parseVersionParts b) n) := by
  unfold compareSemanticVersions
  simp only
  have hn : n = max (parseVersionParts a).length (parseVersionParts b).length +
      (n - max (parseVersionParts a).length (parseVersionParts b).length) := by omega
  rw [hn]
  exact (compareLoop_resize_add _ _ _ _ (Nat.le_max_left _ _) (Nat.le_max_right _ _)).symm

/-- The length of a resized vector. -/
theorem resize_length (l : List Int) (n : Nat) : (resize l n).length = n := by
  unfold resize
  simp
  omega

/-- The comparison is transitive. -/
theorem compareSemanticVersions_trans (a b c : String)
    (h1 : compareSemanticVersions a b ≤ 0) (h2 : compareSemanticVersions b c ≤ 0) :
    compareSemanticVersions a c ≤ 0 := by
  have ha : (parseVersionParts a).length ≤ max (parseVersionParts a).length
      (max (parseVersionParts b).length (parseVersionParts c).length) := by omega
  have hb : (parseVersionParts b).length ≤ max (parseVersionParts a).length
      (max (parseVersionParts b).length (parseVersionParts c).length) := by omega
  have hc : (parseVersionParts c).length ≤ max (parseVersionParts a).length
      (max (parseVersionParts b).length (parseVersionParts c).length) := by omega
  rw [compareSemanticVersions_resize a b _ ha hb] at h1
  rw [compareSemanticVersions_resize b c _ hb hc] at h2
  rw [compareSemanticVersions_resize a c _ ha hc]
  exact compareLoop_trans _ _ _ (by rw [resize_length, resize_length])
    (by rw [resize_length, resize_length]) h1 h2

/-- Swapping the two version strings negates the result. -/
theorem compareSemanticVersions_swap (a b : String) :
    compareSemanticVersions a b = - compareSemanticVersions b a := by
  unfold compareSemanticVersions
  simp only
  rw [Nat.max_comm (parseVersionParts b).length]
  exact compareLoop_swap _ _
/-- The parts read from a version string with `.0` appended: those of the string, then
one or two parts that hold no digit or the digit `0`. -/
theorem getlineParts_append_dot_zero (l : List Char) :
    getlineParts '.' (l ++ ['.', '0']) = getlineParts '.' l ++ [['0']] ∨
      getlineParts '.' (l ++ ['.', '0']) = getlineParts '.' l ++ [[], ['0']] := by
  induction l with
  | nil => right; decide
  | cons c cs ih =>
    by_cases hc : c = '.'
    · subst hc
      rcases ih with h | h
      · left
        show getlineParts '.' ('.' :: (cs ++ ['.', '0'])) = _
        unfold getlineParts
        simp only [↓reduceIte, h, List.cons_append]
      · right
        show getlineParts '.' ('.' :: (cs ++ ['.', '0'])) = _
        unfold getlineParts
        simp only [↓reduceIte, h, List.cons_append]
    · show getlineParts '.' (c :: (cs ++ ['.', '0'])) = _ ∨
        getlineParts '.' (c :: (cs ++ ['.', '0'])) = _
      cases hg : getlineParts '.' cs with
      | nil =>
        have hcs : cs = [] := by
          cases cs with
          | nil => rfl
          | cons d ds =>
            unfold getlineParts at hg
            split at hg
            · simp at hg
            · split at hg <;> simp at hg
        subst hcs
        left
        simp [getlineParts, hc]
      | cons p ps =>
        rcases ih with h | h
        · left
          unfold getlineParts
          simp only [hc, ↓reduceIte, hg]
          rw [h, hg]; rfl
        · right
          unfold getlineParts
          simp only [hc, ↓reduceIte, hg]
          rw [h, hg]; rfl

/-- The vector parsed from a version string with `.0` appended is the vector of the
string followed by zeros. -/
theorem parseVersionParts_append_dot_zero (a : String) :
    ∃ k, parseVersionParts (a ++ ".0") = parseVersionParts a ++ List.replicate k 0 := by
  unfold parseVersionParts
  have hl : (a ++ ".0").toList = a.toList ++ ['.', '0'] := by
    show (a ++ ".0").data = a.data ++ ['.', '0']
    rw [String.data_append]
  rw [hl]
  rcases getlineParts_append_dot_zero a.toList with h | h
  · exact ⟨1, by rw [h, List.map_append]; rfl⟩
  · exact ⟨2, by rw [h, List.map_append]; rfl⟩

/-- Resizing a vector to its length plus `k` appends `k` zeros. -/
theorem resize_add (l : List Int) (k : Nat) :
    resize l (l.length + k) = l ++ List.replicate k 0 := by
  unfold resize
  rw [List.take_of_length_le (by omega)]
  congr 2
  omega

/-- Resizing a vector that ends in `k` zeros to its own length. -/
theorem resize_self (l : List Int) : resize l l.length = l := by
  have := resize_add l 0
  simpa using this

/-- A vector compared with itself followed by zeros, in both orders. -/
theorem compare_append_zeros (a b : String) (k : Nat)
    (h : parseVersionParts b = parseVersionParts a ++ List.replicate k 0) :
    compareSemanticVersions a b = 0 ∧ compareSemanticVersions b a = 0 := by
  have hlen : (parseVersionParts b).length = (parseVersionParts a).length + k := by
    rw [h]; simp
  have hab : compareSemanticVersions a b = 0 := by
    rw [compareSemanticVersions_resize a b (parseVersionParts b).length (by omega) (le_refl _)]
    rw [resize_self]
    rw [hlen, resize_add, ← h]
    exact compareLoop_self _
  refine ⟨hab, ?_⟩
  rw [compareSemanticVersions_swap, hab]
  rfl

/-- A vector all of whose components are `0` is a run of zeros. -/
theorem eq_replicate_zero (l : List Int) (h : ∀ x ∈ l, x = 0) : l = List.replicate l.length 0 :=
  List.eq_replicate_iff.mpr ⟨rfl, h⟩

/-- A version string all of whose components have the leading-digit value `0` is parsed
to zeros only. -/
theorem parseVersionParts_all_zero (z : String)
    (h : ∀ part ∈ splitOnChar '.' z.toList, leadingDigitsValue part 0 = 0) :
    ∀ x ∈ parseVersionParts z, x = 0 := by
  have hr : componentsInRange z := by
    intro part hpart
    rw [h part hpart]
    decide
  rw [parseVersionParts_eq z hr]
  intro x hx
  simp only [List.map_map, List.mem_map, Function.comp_apply] at hx
  obtain ⟨part, hpart, rfl⟩ := hx
  have hmem : part ∈ splitOnChar '.' z.toList := by
    rcases splitOnChar_getlineParts '.' z.toList with hs | hs
    · rw [hs]; exact hpart
    · rw [hs]; exact List.mem_append_left _ hpart
  rw [h part hmem]
  rfl

/-- Claim C22: for every version string `a`, `compareSemanticVersions a a` is `0`. -/
theorem compareSemanticVersions_self (a : String) : compareSemanticVersions a a = 0 := by
  unfold compareSemanticVersions
  exact compareLoop_self _

/-- Claim C23: for every version string `a`, appending the component `.0` does not change
its order: `a` and `a ++ ".0"` compare equal in both orders; and the empty string
compares equal, in both orders, to every version string `z` whose parsed components are
all `0`. -/
theorem compareSemanticVersions_zero_padding (a z : String)
    (hz : ∀ x ∈ parseVersionParts z, x = 0) :
    compareSemanticVersions a (a ++ ".0") = 0 ∧ compareSemanticVersions (a ++ ".0") a = 0 ∧
      compareSemanticVersions "" z = 0 ∧ compareSemanticVersions z "" = 0 := by
  obtain ⟨k, hk⟩ := parseVersionParts_append_dot_zero a
  have h1 := compare_append_zeros a (a ++ ".0") k hk
  have hempty : parseVersionParts "" = [] := by decide
  have h2 := compare_append_zeros "" z (parseVersionParts z).length
    (by rw [hempty, List.nil_append]; exact eq_replicate_zero _ hz)
  exact ⟨h1.1, h1.2, h2.1, h2.2⟩

/-- The strings `1.2` and `1.2.0`, and the empty string against `0.0.0`. -/
theorem compareSemanticVersions_zero_padding_witness :
    compareSemanticVersions "1.2" "1.2.0" = 0 ∧ compareSemanticVersions "1.2.0" "1.2" = 0 ∧
      compareSemanticVersions "" "0.0.0" = 0 ∧ compareSemanticVersions "0.0.0" "" = 0 :=
  compareSemanticVersions_zero_padding "1.2" "0.0.0" (by decide)

/-- Claim C25 (the code at the failing input): the component `2147483648` is parsed to
the negative number `-2147483648`, not to the value of its digits, and the component
`4294967296` to `0`; the string `1.x.0` is parsed to `[1, 0, 0]`. -/
theorem parseVersionParts_overflow :
    parseVersionParts "2147483648" = [-2147483648] ∧
      leadingDigitsValue "2147483648".toList 0 = 2147483648 ∧
      parseVersionParts "1.4294967296" = [1, 0] ∧
      parseVersionParts "1.x.0" = [1, 0, 0] := by
  decide

/-- Claim C27: the comparison is a total preorder on version strings: for all `a`, `b`,
`c`, from `compare a b ≤ 0` and `compare b c ≤ 0` follows `compare a c ≤ 0`; swapping the
arguments negates the result, which is `-1`, `0` or `1`; and a package that is compatible
with the host version `a` is compatible with every host version `b` that compares at
least equal to `a`. -/
theorem compareSemanticVersions_preorder (a b c : String) :
    (compareSemanticVersions a b ≤ 0 → compareSemanticVersions b c ≤ 0 →
        compareSemanticVersions a c ≤ 0) ∧
      compareSemanticVersions a b = - compareSemanticVersions b a ∧
      (compareSemanticVersions a b = -1 ∨ compareSemanticVersions a b = 0 ∨
        compareSemanticVersions a b = 1) ∧
      ∀ (pkg : SceneCatalogPackage) (msg : String),
        (pkg.validateCompatibility a msg).1 = true → 0 ≤ compareSemanticVersions b a →
          (pkg.validateCompatibility b msg).1 = true := by
  refine ⟨compareSemanticVersions_trans a b c, compareSemanticVersions_swap a b, ?_, ?_⟩
  · unfold compareSemanticVersions
    exact compareLoop_range _ _
  · intro pkg msg hok hba
    unfold SceneCatalogPackage.validateCompatibility at hok ⊢
    by_cases hm : pkg.obsMinVersion = ""
    · simp [hm]
    · by_cases hc : compareSemanticVersions a pkg.obsMinVersion < 0
      · simp [hm, hc] at hok
      · have h1 : compareSemanticVersions pkg.obsMinVersion a ≤ 0 := by
          rw [compareSemanticVersions_swap]; omega
        have h2 : compareSemanticVersions a b ≤ 0 := by
          rw [compareSemanticVersions_swap]; omega
        have h3 := compareSemanticVersions_trans _ _ _ h1 h2
        have h4 : ¬ compareSemanticVersions b pkg.obsMinVersion < 0 := by
          rw [compareSemanticVersions_swap]; omega
        simp [hm, h4]

/-- The versions `1.2`, `1.10` and `2.0`, and a package that asks for host version
`31.0.0` checked against the host versions `31.0.0` and `31.1`. -/
theorem compareSemanticVersions_preorder_witness :
    compareSemanticVersions "1.2" "1.10" ≤ 0 ∧ compareSemanticVersions "1.10" "2.0" ≤ 0 ∧
      compareSemanticVersions "1.2" "2.0" ≤ 0 ∧
      (newerHostPackage.validateCompatibility "31.0.0" "").1 = true ∧
      0 ≤ compareSemanticVersions "31.1" "31.0.0" ∧
      (newerHostPackage.validateCompatibility "31.1" "").1 = true :=
  ⟨by decide, by decide,
    (compareSemanticVersions_preorder "1.2" "1.10" "2.0").1 (by decide) (by decide),
    by decide, by decide,
    (compareSemanticVersions_preorder "31.0.0" "31.1" "").2.2.2 newerHostPackage ""
      (by decide) (by decide)⟩

/-! ## The comparator of the update check -/

/-- Nothing is dropped from a list none of whose members has the property. -/
theorem dropWhile_of_forall_false (p : Char → Bool) (l : List Char) (h : ∀ c ∈ l, p c = false) :
    l.dropWhile p = l := by
  cases l with
  | nil => rfl
  | cons c cs => simp [List.dropWhile, h c (List.mem_cons_self _ _)]

/-- A decimal digit is not white space. -/
theorem isSpace_of_isDigit (ch : Char) (h : isDigit ch = true) : isSpace ch = false := by
  unfold isDigit at h
  unfold isSpace
  simp only [Bool.and_eq_true, decide_eq_true_eq] at h
  simp only [Bool.or_eq_false_iff, decide_eq_false_iff_not, Bool.and_eq_false_imp,
    decide_eq_true_eq]
  omega

/-- A run of digits is left as it is by `trimmed`. -/
theorem trimmed_of_digits (part : List Char) (h : ∀ ch ∈ part, isDigit ch = true) :
    trimmed part = part := by
  unfold trimmed
  rw [dropWhile_of_forall_false _ _ (fun c hc => isSpace_of_isDigit c (h c hc)),
    dropWhile_of_forall_false _ _
      (fun c hc => isSpace_of_isDigit c (h c (List.mem_reverse.mp hc))),
    List.reverse_reverse]

/-- A decimal digit is no sign. -/
theorem not_sign_of_isDigit (ch : Char) (h : isDigit ch = true) : ch ≠ '-' ∧ ch ≠ '+' := by
  constructor
  · rintro rfl
    exact absurd h (by decide)
  · rintro rfl
    exact absurd h (by decide)

/-- A non-empty run of digits with a value in the range of `int` is converted to that
value by `toInt`. -/
theorem toInt_of_digits (part : List Char) (hne : part ≠ [])
    (hd : ∀ ch ∈ part, isDigit ch = true) (hr : leadingDigitsValue part 0 < 2147483648) :
    toInt (String.mk part) = (leadingDigitsValue part 0 : Int) := by
  unfold toInt
  have ht : trimmed (String.mk part).toList = part := trimmed_of_digits part hd
  simp only [ht]
  cases part with
  | nil => exact absurd rfl hne
  | cons c cs =>
    obtain ⟨h1, h2⟩ := not_sign_of_isDigit c (hd c (List.mem_cons_self _ _))
    have hall : (c :: cs).all isDigit = true := List.all_eq_true.mpr hd
    simp only [List.head?_cons, Option.some.injEq, h1, h2, or_self, ↓reduceIte, hall,
      reduceCtorEq, Bool.true_eq_false]
    have : -2147483648 ≤ (leadingDigitsValue (c :: cs) 0 : Int) ∧
        (leadingDigitsValue (c :: cs) 0 : Int) ≤ 2147483647 := by omega
    rw [if_pos this]

/-- The index loop of `compareVersions_` is the comparison loop over the values of the
parts from the index on, resized to the number of iterations to go. -/
theorem compareVersionsLoop_eq (leftParts rightParts : List String) (steps i : Nat) :
    compareVersionsLoop leftParts rightParts steps i =
      compareLoop (resize ((leftParts.drop i).map toInt) steps)
        (resize ((rightParts.drop i).map toInt) steps) := by
  induction steps generalizing i with
  | zero =>
    unfold compareVersionsLoop resize
    simp [compareLoop]
  | succ n ih =>
    have hhead : ∀ (l : List String),
        ((l.drop i).map toInt).headD 0 = if h : i < l.length then toInt l[i] else 0 := by
      intro l
      by_cases h : i < l.length
      · rw [dif_pos h, List.drop_eq_getElem_cons h]
        rfl
      · rw [dif_neg h, List.drop_eq_nil_of_le (by omega)]
        rfl
    have htail : ∀ (l : List String),
        ((l.drop i).map toInt).tail = (l.drop (i + 1)).map toInt := by
      intro l
      rw [← List.map_tail, List.tail_drop]
    rw [resize_succ, resize_succ, hhead, hhead, htail, htail]
    unfold compareVersionsLoop compareLoop
    simp only [← ih]
    split_ifs <;> first | rfl | omega

/-- For digit components in range, the parts read by `getline` are the components. -/
theorem getlineParts_of_digitComponents (version : String) (h : digitComponents version) :
    getlineParts '.' version.toList = splitOnChar '.' version.toList := by
  rcases splitOnChar_getlineParts '.' version.toList with hs | hs
  · exact hs.symm
  · have hmem : ([] : List Char) ∈ splitOnChar '.' version.toList := by
      rw [hs]; simp
    exact absurd rfl (h [] hmem).1

/-- For digit components in range, the values that `compareVersions_` compares are the
vector of `parseVersionParts`. -/
theorem splitSkipEmptyParts_toInt (version : String) (h : digitComponents version) :
    (splitSkipEmptyParts '.' version).map toInt = parseVersionParts version := by
  unfold splitSkipEmptyParts parseVersionParts
  rw [getlineParts_of_digitComponents version h]
  have hf : (splitOnChar '.' version.toList).filter (fun part => part ≠ []) =
      splitOnChar '.' version.toList := by
    apply List.filter_eq_self.mpr
    intro part hpart
    simpa using (h part hpart).1
  rw [hf, List.map_map]
  apply List.map_congr_left
  intro part hpart
  obtain ⟨hne, hd, hr⟩ := h part hpart
  simp only [Function.comp_apply]
  rw [toInt_of_digits part hne hd hr, parsePart_eq part hr]

/-- Claim C28: for every pair of version strings whose dot-separated components are all
non-empty runs of decimal digits with a value in the range of `int`, the comparator of
the update check, `compareVersions_`, returns what `compareSemanticVersions` returns. -/
theorem compareVersions_eq_compareSemanticVersions (a b : String) (ha : digitComponents a)
    (hb : digitComponents b) : compareVersions_ a b = compareSemanticVersions a b := by
  unfold compareVersions_ compareSemanticVersions
  simp only
  rw [compareVersionsLoop_eq, List.drop_zero, List.drop_zero, splitSkipEmptyParts_toInt a ha,
    splitSkipEmptyParts_toInt b hb]
  have hla : (splitSkipEmptyParts '.' a).length = (parseVersionParts a).length := by
    rw [← splitSkipEmptyParts_toInt a ha, List.length_map]
  have hlb : (splitSkipEmptyParts '.' b).length = (parseVersionParts b).length := by
    rw [← splitSkipEmptyParts_toInt b hb, List.length_map]
  rw [hla, hlb]

/-- The installed version `1.9.0` against the catalog version `1.10.0`. -/
theorem compareVersions_eq_compareSemanticVersions_witness :
    compareVersions_ "1.9.0" "1.10.0" = compareSemanticVersions "1.9.0" "1.10.0" ∧
      compareVersions_ "1.9.0" "1.10.0" = -1 :=
  ⟨compareVersions_eq_compareSemanticVersions "1.9.0" "1.10.0"
      (by unfold digitComponents; decide) (by unfold digitComponents; decide),
    by decide⟩

/-! ## The digest -/

/-- A round keeps the number of working variables. -/
theorem Sha256.round_length (s : List Nat) (kw : Nat × Nat) : (Sha256.round s kw).length = s.length := by
  unfold Sha256.round
  split <;> simp

/-- The rounds keep the number of working variables. -/
theorem Sha256.foldl_round_length (l : List (Nat × Nat)) (s : List Nat) :
    (l.foldl Sha256.round s).length = s.length := by
  induction l generalizing s with
  | nil => rfl
  | cons kw l ih => simp [List.foldl, ih, Sha256.round_length]

/-- The compression keeps the number of words of the hash value. -/
theorem Sha256.compress_length (h block : List Nat) : (Sha256.compress h block).length = h.length := by
  simp [Sha256.compress, Sha256.foldl_round_length]

/-- The digest has eight words. -/
theorem Sha256.digestWords_length (msg : List Nat) : (Sha256.digestWords msg).length = 8 := by
  unfold Sha256.digestWords
  generalize Sha256.blocks _ _ = bs
  have : ∀ (bs : List (List Nat)) (h : List Nat), (bs.foldl Sha256.compress h).length = h.length := by
    intro bs
    induction bs with
    | nil => intro h; rfl
    | cons b bs ih => intro h; simp [List.foldl, ih, Sha256.compress_length]
  rw [this]; rfl

/-- The hexadecimal digest has 64 characters. -/
theorem sha256Hex_length (data : Bytes) : (sha256Hex data).length = 64 := by
  have h8 := Sha256.digestWords_length (data.map UInt8.toNat)
  unfold sha256Hex
  simp only [String.length]
  rw [List.length_flatten]
  have : ∀ l : List Nat, ((l.map Sha256.hexWord).map List.length).sum = 8 * l.length := by
    intro l
    induction l with
    | nil => rfl
    | cons w l ih =>
      have hw : (Sha256.hexWord w).length = 8 := by simp [Sha256.hexWord]
      rw [List.map_cons, List.map_cons, List.sum_cons, ih, hw, List.length_cons]
      omega
  rw [this, h8]

/-- The hexadecimal digest is not empty. -/
theorem sha256Hex_ne_empty (data : Bytes) : sha256Hex data ≠ "" := by
  intro h
  have := sha256Hex_length data
  rw [h] at this
  simp at this

/-! ## Integrity checks -/

/-- The digest of the empty byte sequence. -/
theorem sha256Hex_nil :
    sha256Hex [] = "e3b0c44298fc1c149afbf4c8996fb92427ae41e4649b934ca495991b7852b855" := by
  decide

/-- The digest of the example download. -/
theorem sha256Hex_examplePayload : sha256Hex examplePayload = payloadDigest := by decide

/-- No digest equals the empty string, whatever the case. -/
theorem equalsCaseInsensitive_ne_empty (data : Bytes) :
    equalsCaseInsensitive (sha256Hex data) "" = false := by
  have h := sha256Hex_length data
  unfold equalsCaseInsensitive
  rw [decide_eq_false_iff_not]
  intro heq
  have := congrArg List.length heq
  simp at this
  rw [this] at h
  simp at h

/-- The expected signature is never empty. -/
theorem signature_prefix_ne_empty (h : String) : "sha256:" ++ h ≠ "" := by
  intro heq
  have := congrArg String.length heq
  simp [String.length_append] at this
  have h7 : ("sha256:" : String).length = 7 := by decide
  omega

/-- The signature check succeeds exactly for the expected signature. -/
theorem verifyPackageSignature_ok_iff (h s msg : String) :
    (verifyPackageSignature_ h s msg).1 = true ↔ s = "sha256:" ++ h := by
  unfold verifyPackageSignature_
  by_cases hs : s = ""
  · subst hs
    simp [Ne.symm (signature_prefix_ne_empty h)]
  · by_cases hm : s = "sha256:" ++ h
    · simp [hm, signature_prefix_ne_empty h]
    · simp [hs, hm]

/-- Claim C5: on a readable file the strict hash check succeeds exactly when the expected
hash is not empty and equals the SHA-256 hex digest of the file's bytes up to the case
of the letters; an empty expected hash is rejected with the missing-expected-hash
error for every file system, fault and path. -/
theorem verifyPackageHash_strict (fs : Node) (packagePath : Path) (bytes : Bytes)
    (expected msg : String) (hfile : fs.get packagePath = some (.file bytes)) :
    ((verifyPackageHash_ fs none packagePath expected msg).1 = true ↔
        expected ≠ "" ∧ equalsCaseInsensitive (sha256Hex bytes) expected = true) ∧
      (∀ (fs' : Node) (fault : Option ReadFault) (p : Path),
        verifyPackageHash_ fs' fault p "" msg =
          (false, "Missing expected SHA256 hash for package.")) := by
  constructor
  · unfold verifyPackageHash_
    by_cases he : expected = ""
    · simp [he]
    · simp only [he, ↓reduceIte, fsOpenRead, hfile]
      cases hc : equalsCaseInsensitive (sha256Hex bytes) expected <;> simp [he]
  · intro fs' fault p
    simp [verifyPackageHash_]

/-- The strict hash check at the temporary file of `exampleDownloadedFs` with the digest
of its bytes in capital letters. -/
theorem verifyPackageHash_strict_witness :
    exampleDownloadedFs.get ["tmp", "obs-plugin-packages", "demo-1.0.pkg"] =
        some (.file examplePayload) ∧
      (((verifyPackageHash_ exampleDownloadedFs none ["tmp", "obs-plugin-packages", "demo-1.0.pkg"]
          payloadDigestUpper "").1 = true ↔
        payloadDigestUpper ≠ "" ∧ equalsCaseInsensitive (sha256Hex examplePayload) payloadDigestUpper = true) ∧
      (∀ (fs' : Node) (fault : Option ReadFault) (p : Path),
        verifyPackageHash_ fs' fault p "" "" =
          (false, "Missing expected SHA256 hash for package."))) :=
  ⟨rfl, verifyPackageHash_strict exampleDownloadedFs
    ["tmp", "obs-plugin-packages", "demo-1.0.pkg"] examplePayload payloadDigestUpper "" rfl⟩

/-- Claim C6: the signature check succeeds exactly when the signature is the text
`sha256:` followed by the hash; an empty signature gives the missing-signature error
and every other signature that does not match gives the verification error. -/
theorem verifyPackageSignature_iff (h s msg : String) :
    ((verifyPackageSignature_ h s msg).1 = true ↔ s = "sha256:" ++ h) ∧
      (s = "" → verifyPackageSignature_ h s msg = (false, "Missing package signature.")) ∧
      (s ≠ "" → s ≠ "sha256:" ++ h →
        verifyPackageSignature_ h s msg = (false, "Package signature verification failed.")) := by
  refine ⟨verifyPackageSignature_ok_iff h s msg, ?_, ?_⟩
  · intro hs; simp [verifyPackageSignature_, hs]
  · intro hs hm; simp [verifyPackageSignature_, hs, hm]

/-- The signature check at an empty signature and at a signature in the wrong case. -/
theorem verifyPackageSignature_iff_witness :
    verifyPackageSignature_ "ab" "" "" = (false, "Missing package signature.") ∧
      verifyPackageSignature_ "ab" "sha256:AB" "" =
        (false, "Package signature verification failed.") :=
  ⟨(verifyPackageSignature_iff "ab" "" "").2.1 rfl,
    (verifyPackageSignature_iff "ab" "sha256:AB" "").2.2 (by decide) (by decide)⟩

/-- Claim C7 (counterexample): the request gives the digest of the downloaded bytes
in capital letters and the signature `sha256:` followed by the computed
lowercase digest; the hash matches up to case, and the call returns the
signature-verification error. -/
theorem verifyDownload_computed_digest_counterexample :
    exampleEnv.fetch upperCaseRequest.packageUrl none = some examplePayload ∧
      equalsCaseInsensitive upperCaseRequest.sha256 (sha256Hex examplePayload) = true ∧
      upperCaseRequest.signature = "sha256:" ++ sha256Hex examplePayload ∧
      (downloadAndInstallPackage exampleEnv exampleFs upperCaseRequest exampleSession "").1 =
        .returned false "Package signature verification failed." :=
  ⟨rfl, by decide, by decide, by rfl⟩

/-- Claim C7 (amended): the signature is checked against the `sha256` string of the
request as given. When the temporary file holds the downloaded bytes and the request's
`sha256` equals their digest up to case, the hash check passes, and both checks pass
exactly when the signature is `sha256:` followed by the request's own `sha256` string. -/
theorem verifyDownload_iff (env : Environment) (fs : Node) (metadata : PluginPackageMetadata)
    (msg : String) (bytes : Bytes)
    (hfile : fs.get (tempPath env metadata) = some (.file bytes))
    (hfault : env.readTempFault = none)
    (hhash : equalsCaseInsensitive (sha256Hex bytes) metadata.sha256 = true) :
    (verifyPackageHash_ fs env.readTempFault (tempPath env metadata) metadata.sha256 msg).1 = true ∧
      ((verifyDownload env fs metadata msg).1 = true ↔
        metadata.signature = "sha256:" ++ metadata.sha256) := by
  have hne : metadata.sha256 ≠ "" := by
    intro h0
    rw [h0, equalsCaseInsensitive_ne_empty] at hhash
    exact absurd hhash (by decide)
  have hh : verifyPackageHash_ fs env.readTempFault (tempPath env metadata) metadata.sha256 msg
      = (true, msg) := by
    simp [verifyPackageHash_, hne, hfault, fsOpenRead, hfile, hhash]
  refine ⟨by rw [hh], ?_⟩
  unfold verifyDownload
  rw [hh]
  exact verifyPackageSignature_ok_iff metadata.sha256 metadata.signature msg

/-- The two checks on the download for the request with the digest in capital
letters: the signature with the lowercase digest is not the one that passes. -/
theorem verifyDownload_iff_witness :
    exampleDownloadedFs.get (tempPath exampleEnv upperCaseRequest) =
        some (.file examplePayload) ∧
      exampleEnv.readTempFault = none ∧
      equalsCaseInsensitive (sha256Hex examplePayload) upperCaseRequest.sha256 = true ∧
      (verifyPackageHash_ exampleDownloadedFs exampleEnv.readTempFault
          (tempPath exampleEnv upperCaseRequest) upperCaseRequest.sha256 "").1 = true ∧
      ((verifyDownload exampleEnv exampleDownloadedFs upperCaseRequest "").1 = true ↔
        upperCaseRequest.signature = "sha256:" ++ upperCaseRequest.sha256) :=
  ⟨by rfl, rfl, by decide,
    verifyDownload_iff exampleEnv exampleDownloadedFs upperCaseRequest "" examplePayload (by rfl) rfl
      (by decide)⟩

/-! ## Resource validation -/

/-- Two strings have the same lowercase form when their characters do. -/
theorem toLowerAscii_eq_iff (a b : String) :
    toLowerAscii a = toLowerAscii b ↔ a.toList.map Char.toLower = b.toList.map Char.toLower := by
  unfold toLowerAscii
  constructor
  · intro h; exact congrArg String.data h
  · intro h; rw [h]

/-- The lowercase form has the length of the string. -/
theorem toLowerAscii_length (s : String) : (toLowerAscii s).length = s.length := by
  show (List.map Char.toLower s.toList).length = s.data.length
  rw [List.length_map]; rfl

/-- The lowercase form of a digest is not empty. -/
theorem toLowerAscii_sha256Hex_ne_empty (data : Bytes) : toLowerAscii (sha256Hex data) ≠ "" := by
  intro h
  have h1 := congrArg String.length h
  rw [toLowerAscii_length, sha256Hex_length] at h1
  exact absurd h1 (by decide)

/-- The loop body of `validateResources` reports the error of the first failing check in
the order path, existence, size, hash. -/
theorem validateResource_eq_firstFailingCheck (readFault : Path → Option ReadFault) (fs : Node)
    (rootPath : Path) (resource : SceneCatalogResource) :
    validateResource readFault fs rootPath resource =
      firstFailingCheck readFault fs rootPath resource := by
  unfold validateResource firstFailingCheck resourceChecks pathCheck existenceCheck sizeCheck
    hashCheck hashCheckError readableBytes resourceFile fsExists fsFileSize computeSha256 fsOpenRead
  by_cases hp : resource.path = ""
  · simp [hp]
  · cases hget : fs.get (pathAppend rootPath resource.path) with
    | none => simp [hp, List.find?, hget]
    | some n =>
      cases n with
      | dir es =>
        by_cases hs : resource.size = 0 <;> by_cases hh : resource.sha256 = "" <;>
          cases hf : readFault (pathAppend rootPath resource.path) <;>
          simp [hp, List.find?, hs, hh, Nat.pos_iff_ne_zero, hget, hf]
      | file bytes =>
        cases hf : readFault (pathAppend rootPath resource.path) with
        | none =>
          by_cases hs : resource.size = 0 <;> by_cases hh : resource.sha256 = "" <;>
            by_cases hl : bytes.length = resource.size <;>
            by_cases hd : (sha256Hex bytes).data.map Char.toLower = resource.sha256.data.map Char.toLower <;>
            simp [hp, List.find?, hs, hh, hl, hd, Nat.pos_iff_ne_zero, toLowerAscii_eq_iff,
              toLowerAscii_sha256Hex_ne_empty, hget, hf]
        | some f =>
          cases f <;>
            by_cases hs : resource.size = 0 <;> by_cases hh : resource.sha256 = "" <;>
            by_cases hl : bytes.length = resource.size <;>
            simp [hp, List.find?, hs, hh, hl, Nat.pos_iff_ne_zero, hget, hf]

/-- All four checks of a resource pass exactly under the four conditions spelt out. -/
theorem firstFailingCheck_eq_none_iff (readFault : Path → Option ReadFault) (fs : Node) (rootPath : Path)
    (r : SceneCatalogResource) :
    firstFailingCheck readFault fs rootPath r = none ↔
      r.path ≠ "" ∧ fsExists fs (pathAppend rootPath r.path) = true ∧
        (r.size = 0 ∨ fsFileSize fs (pathAppend rootPath r.path) = some r.size) ∧
        (r.sha256 = "" ∨ ∃ bytes, readFault (pathAppend rootPath r.path) = none ∧
          fs.get (pathAppend rootPath r.path) = some (.file bytes) ∧
          (sha256Hex bytes).toList.map Char.toLower = r.sha256.toList.map Char.toLower) := by
  unfold firstFailingCheck resourceChecks pathCheck existenceCheck sizeCheck hashCheck
    readableBytes resourceFile fsExists fsFileSize
  by_cases hp : r.path = ""
  · simp [hp, List.find?]
  · cases hget : fs.get (pathAppend rootPath r.path) with
    | none => simp [hp, List.find?, hget]
    | some n =>
      cases n with
      | dir es =>
        by_cases hs : r.size = 0 <;> by_cases hh : r.sha256 = "" <;>
          cases hf : readFault (pathAppend rootPath r.path) <;>
          simp [hp, List.find?, hs, hh, hget, hf]
      | file bytes =>
        cases hf : readFault (pathAppend rootPath r.path) <;>
          by_cases hs : r.size = 0 <;> by_cases hh : r.sha256 = "" <;>
          by_cases hl : bytes.length = r.size <;>
          by_cases hd : (sha256Hex bytes).data.map Char.toLower = r.sha256.data.map Char.toLower <;>
          simp [hp, List.find?, hs, hh, hl, hd, hget, hf]

/-- The loop succeeds exactly when every resource passes all four checks. -/
theorem validateResourcesLoop_ok_iff (readFault : Path → Option ReadFault) (fs : Node) (rootPath : Path)
    (resources : List SceneCatalogResource) (msg : String) :
    (validateResourcesLoop readFault fs rootPath resources msg).1 = true ↔
      ∀ r ∈ resources, firstFailingCheck readFault fs rootPath r = none := by
  induction resources with
  | nil => simp [validateResourcesLoop]
  | cons r rest ih =>
    unfold validateResourcesLoop
    rw [validateResource_eq_firstFailingCheck]
    cases hr : firstFailingCheck readFault fs rootPath r with
    | none => simp [ih, hr]
    | some e => simp [hr]

/-- After resources that pass, a failing resource decides the result, whatever
follows it. -/
theorem validateResourcesLoop_append_failure (readFault : Path → Option ReadFault) (fs : Node) (rootPath : Path)
    (pre post : List SceneCatalogResource) (r : SceneCatalogResource) (msg e : String)
    (hpre : ∀ x ∈ pre, firstFailingCheck readFault fs rootPath x = none)
    (hr : firstFailingCheck readFault fs rootPath r = some e) :
    validateResourcesLoop readFault fs rootPath (pre ++ r :: post) msg = (false, e) := by
  induction pre with
  | nil =>
    simp only [List.nil_append]
    unfold validateResourcesLoop
    rw [validateResource_eq_firstFailingCheck, hr]
  | cons x pre ih =>
    simp only [List.cons_append]
    unfold validateResourcesLoop
    rw [validateResource_eq_firstFailingCheck, hpre x (List.mem_cons_self _ _)]
    exact ih (fun y hy => hpre y (List.mem_cons_of_mem _ hy))

/-- A failing loop has a first failing resource, and reports its first failing
check. -/
theorem validateResourcesLoop_failure_split (readFault : Path → Option ReadFault) (fs : Node) (rootPath : Path)
    (resources : List SceneCatalogResource) (msg : String)
    (hfail : (validateResourcesLoop readFault fs rootPath resources msg).1 = false) :
    ∃ pre r post, resources = pre ++ r :: post ∧
      (∀ x ∈ pre, firstFailingCheck readFault fs rootPath x = none) ∧
      firstFailingCheck readFault fs rootPath r =
        some (validateResourcesLoop readFault fs rootPath resources msg).2 := by
  induction resources with
  | nil => simp [validateResourcesLoop] at hfail
  | cons r rest ih =>
    unfold validateResourcesLoop at hfail ⊢
    rw [validateResource_eq_firstFailingCheck] at hfail ⊢
    cases hr : firstFailingCheck readFault fs rootPath r with
    | some e =>
      exact ⟨[], r, rest, rfl, by simp, by simp [hr]⟩
    | none =>
      rw [hr] at hfail
      simp only at hfail ⊢
      obtain ⟨pre, r', post, hsplit, hpre, hr'⟩ := ih hfail
      refine ⟨r :: pre, r', post, by rw [hsplit]; rfl, ?_, hr'⟩
      intro x hx
      rcases List.mem_cons.mp hx with rfl | hx
      · exact hr
      · exact hpre x hx

/-- A resource that passes the path and existence checks and fails the size check
has the size mismatch as first failure. -/
theorem firstFailingCheck_size (readFault : Path → Option ReadFault) (fs : Node)
    (rootPath : Path) (r : SceneCatalogResource) (hpath : pathCheck r = true)
    (hexists : existenceCheck fs rootPath r = true) (hsize : sizeCheck fs rootPath r = false) :
    firstFailingCheck readFault fs rootPath r = some ("Resource size mismatch: " ++ r.path) := by
  simp [firstFailingCheck, resourceChecks, List.find?, hpath, hexists, hsize]

/-- Claim C8: `validateResources` returns success exactly when every resource has a
non-empty path, its file `rootPath / path` exists, its declared size is `0` or is the
actual size of the file, and its `sha256` is empty or equals the digest of the file's
bytes up to the case of the letters (the file being a regular file that can be read). -/
theorem validateResources_ok_iff (pkg : SceneCatalogPackage)
    (readFault : Path → Option ReadFault) (fs : Node) (rootPath : Path)
    (msg : String) :
    (pkg.validateResources readFault fs rootPath msg).1 = true ↔
      ∀ r ∈ pkg.resources,
        r.path ≠ "" ∧ fsExists fs (pathAppend rootPath r.path) = true ∧
          (r.size = 0 ∨ fsFileSize fs (pathAppend rootPath r.path) = some r.size) ∧
          (r.sha256 = "" ∨ ∃ bytes, readFault (pathAppend rootPath r.path) = none ∧
          fs.get (pathAppend rootPath r.path) = some (.file bytes) ∧
            (sha256Hex bytes).toList.map Char.toLower = r.sha256.toList.map Char.toLower) := by
  unfold SceneCatalogPackage.validateResources
  rw [validateResourcesLoop_ok_iff]
  constructor
  · intro h r hr
    exact (firstFailingCheck_eq_none_iff readFault fs rootPath r).mp (h r hr)
  · intro h r hr
    exact (firstFailingCheck_eq_none_iff readFault fs rootPath r).mpr (h r hr)

/-- The package `matchingPackage`: its resource declares no size and gives the digest of
its file in capital letters, and the validation succeeds. -/
theorem validateResources_ok_iff_witness :
    (matchingPackage.validateResources (fun _ => none) exampleSceneFs ["scenes"] "").1 = true ∧
      ∀ r ∈ matchingPackage.resources,
        r.path ≠ "" ∧ fsExists exampleSceneFs (pathAppend ["scenes"] r.path) = true ∧
          (r.size = 0 ∨ fsFileSize exampleSceneFs (pathAppend ["scenes"] r.path) = some r.size) ∧
          (r.sha256 = "" ∨ ∃ bytes, (fun _ => none : Path → Option ReadFault)
              (pathAppend ["scenes"] r.path) = none ∧
            exampleSceneFs.get (pathAppend ["scenes"] r.path) = some (.file bytes) ∧
            (sha256Hex bytes).toList.map Char.toLower = r.sha256.toList.map Char.toLower) :=
  ⟨by rfl,
    (validateResources_ok_iff matchingPackage (fun _ => none) exampleSceneFs ["scenes"] "").mp
      (by rfl)⟩

/-- Claim C9: when `validateResources` fails, the resources split into those before the
failing one, which pass all four checks, the failing one, whose first failing check in
the order path, existence, size, hash gives the reported error, and the rest, which may
be replaced by any other resources without changing the result; a resource that passes
the path and existence checks and fails the size check reports the size mismatch,
whatever its hash. -/
theorem validateResources_reports_first_failure (pkg : SceneCatalogPackage)
    (readFault : Path → Option ReadFault) (fs : Node)
    (rootPath : Path) (msg : String) :
    ((pkg.validateResources readFault fs rootPath msg).1 = false →
      ∃ pre r post, pkg.resources = pre ++ r :: post ∧
        (∀ x ∈ pre, firstFailingCheck readFault fs rootPath x = none) ∧
        firstFailingCheck readFault fs rootPath r =
          some (pkg.validateResources readFault fs rootPath msg).2 ∧
        ∀ (other : SceneCatalogPackage) (post' : List SceneCatalogResource) (msg' : String),
          other.resources = pre ++ r :: post' →
          other.validateResources readFault fs rootPath msg' =
            (false, (pkg.validateResources readFault fs rootPath msg).2)) ∧
      (∀ (pre post : List SceneCatalogResource) (r : SceneCatalogResource),
        pkg.resources = pre ++ r :: post →
        (∀ x ∈ pre, firstFailingCheck readFault fs rootPath x = none) →
        pathCheck r = true → existenceCheck fs rootPath r = true →
        sizeCheck fs rootPath r = false →
        pkg.validateResources readFault fs rootPath msg =
          (false, "Resource size mismatch: " ++ r.path)) := by
  constructor
  · intro hfail
    unfold SceneCatalogPackage.validateResources at hfail ⊢
    obtain ⟨pre, r, post, hsplit, hpre, hr⟩ :=
      validateResourcesLoop_failure_split readFault fs rootPath pkg.resources msg hfail
    refine ⟨pre, r, post, hsplit, hpre, hr, ?_⟩
    intro other post' msg' hother
    rw [hother]
    exact validateResourcesLoop_append_failure readFault fs rootPath pre post' r msg' _ hpre hr
  · intro pre post r hsplit hpre hpath hexists hsize
    unfold SceneCatalogPackage.validateResources
    rw [hsplit]
    exact validateResourcesLoop_append_failure readFault fs rootPath pre post r msg _ hpre
      (firstFailingCheck_size readFault fs rootPath r hpath hexists hsize)

/-- The package `examplePackage`: its second resource has a wrong size and a wrong hash,
and the size mismatch is what is reported. -/
theorem validateResources_reports_first_failure_witness :
    (examplePackage.validateResources (fun _ => none) exampleSceneFs ["scenes"] "").1 = false ∧
      examplePackage.validateResources (fun _ => none) exampleSceneFs ["scenes"] "" =
        (false, "Resource size mismatch: b.bin") :=
  ⟨by rfl,
    (validateResources_reports_first_failure examplePackage (fun _ => none) exampleSceneFs
      ["scenes"] "").2 [exampleResourceA] [exampleResourceC] exampleResourceB rfl
      (by intro x hx; rw [List.mem_singleton.mp hx]; rfl) (by decide) (by rfl) (by rfl)⟩

/-! ## Manifest loading -/

/-- Claim C10: when `LoadFromJson` reports success, the manifest it returns has the
supported format version, a non-empty `id` and `name`, and as collection payload the
serialised `collection` object of the parsed document; it is the fully populated value
built from that document. -/
theorem LoadFromJson_success_valid (lib : ObsDataLibrary) (json msg : String)
    (out : SceneCatalogPackage) (msg' : String)
    (h : SceneCatalogPackage.LoadFromJson lib json msg = (true, out, msg')) :
    out.formatVersion = kSupportedFormatVersion ∧ out.id ≠ "" ∧ out.name ≠ "" ∧
      ∃ data collection, lib.obs_data_create_from_json json = some data ∧
        obs_data_get_obj data "collection" = some collection ∧
        out.collectionJson = lib.obs_data_get_json collection ∧
        out = manifestBody lib data collection (manifestHeader data kSupportedFormatVersion) := by
  unfold SceneCatalogPackage.LoadFromJson at h
  cases hdata : lib.obs_data_create_from_json json with
  | none => rw [hdata] at h; simp at h
  | some data =>
    rw [hdata] at h
    simp only at h
    by_cases hfv : (if wrapInt32 (obs_data_get_int data "format_version") = 0 then
        kSupportedFormatVersion else wrapInt32 (obs_data_get_int data "format_version"))
        = kSupportedFormatVersion
    · rw [hfv] at h
      cases hcoll : obs_data_get_obj data "collection" with
      | none => rw [hcoll] at h; simp at h
      | some coll =>
        rw [hcoll] at h
        simp only [ne_eq, not_true_eq_false, ↓reduceIte] at h
        split at h
        · simp at h
        · rename_i hid
          simp only [Prod.mk.injEq, true_and] at h
          obtain ⟨rfl, -⟩ := h
          push_neg at hid
          exact ⟨rfl, hid.1, hid.2, data, coll, rfl, hcoll, rfl, rfl⟩
    · rw [if_pos hfv] at h
      simp at h

/-- The manifest loaded from `exampleManifestText` by `exampleLibrary`. -/
theorem LoadFromJson_success_valid_witness :
    SceneCatalogPackage.LoadFromJson exampleLibrary exampleManifestText "" =
        (true, exampleManifest, "") ∧
      exampleManifest.formatVersion = kSupportedFormatVersion ∧ exampleManifest.id ≠ "" ∧
      exampleManifest.name ≠ "" ∧
      ∃ data collection, exampleLibrary.obs_data_create_from_json exampleManifestText = some data ∧
        obs_data_get_obj data "collection" = some collection ∧
        exampleManifest.collectionJson = exampleLibrary.obs_data_get_json collection ∧
        exampleManifest =
          manifestBody exampleLibrary data collection (manifestHeader data kSupportedFormatVersion) :=
  ⟨by rfl, LoadFromJson_success_valid exampleLibrary exampleManifestText "" exampleManifest ""
    (by rfl)⟩

/-- On a document whose format version is not accepted, loading fails with the
unsupported-format-version error and leaves the default manifest. -/
theorem LoadFromJson_of_rejected (lib : ObsDataLibrary) (json msg : String) (data : ObsData)
    (hdata : lib.obs_data_create_from_json json = some data)
    (hrej : ¬ formatVersionAccepted data) :
    SceneCatalogPackage.LoadFromJson lib json msg =
      (false, {}, "Unsupported scene package format version.") := by
  unfold formatVersionAccepted at hrej
  push_neg at hrej
  unfold SceneCatalogPackage.LoadFromJson
  rw [hdata]
  simp only [hrej.1, ↓reduceIte, ne_eq, hrej.2, not_false_eq_true]

/-- On a document whose format version is accepted, the result of loading is decided by
the collection and then by `id` and `name`. -/
theorem LoadFromJson_of_accepted (lib : ObsDataLibrary) (json msg : String) (data : ObsData)
    (hdata : lib.obs_data_create_from_json json = some data)
    (hacc : formatVersionAccepted data) :
    SceneCatalogPackage.LoadFromJson lib json msg =
      match obs_data_get_obj data "collection" with
      | none =>
        (false, manifestHeader data kSupportedFormatVersion,
          "Scene package is missing a collection payload.")
      | some collection =>
        if obs_data_get_string data "id" = "" ∨ obs_data_get_string data "name" = "" then
          (false, manifestBody lib data collection (manifestHeader data kSupportedFormatVersion),
            "Scene package is missing required metadata fields.")
        else
          (true, manifestBody lib data collection (manifestHeader data kSupportedFormatVersion),
            msg) := by
  have hfv : (if wrapInt32 (obs_data_get_int data "format_version") = 0 then
      kSupportedFormatVersion else wrapInt32 (obs_data_get_int data "format_version"))
      = kSupportedFormatVersion := by
    rcases hacc with h | h
    · rw [if_pos h]
    · by_cases h0 : wrapInt32 (obs_data_get_int data "format_version") = 0
      · rw [if_pos h0]
      · rw [if_neg h0, h]
  unfold SceneCatalogPackage.LoadFromJson
  rw [hdata]
  simp only [hfv, ne_eq, not_true_eq_false, ↓reduceIte]
  cases obs_data_get_obj data "collection" with
  | none => rfl
  | some collection => rfl

/-- A missing field is read as `0` by `obs_data_get_int`. -/
theorem obs_data_get_int_of_missing (data : ObsData) (name : String)
    (h : obsDataItem name data = none) : obs_data_get_int data name = 0 := by
  simp [obs_data_get_int, h]

/-- A number field is read as its value by `obs_data_get_int`. -/
theorem obs_data_get_int_of_number (data : ObsData) (name : String) (v : Int)
    (h : obsDataItem name data = some (.number v)) : obs_data_get_int data name = v := by
  simp [obs_data_get_int, h]

/-- A missing field is read as the empty string by `obs_data_get_string`. -/
theorem obs_data_get_string_of_missing (data : ObsData) (name : String)
    (h : obsDataItem name data = none) : obs_data_get_string data name = "" := by
  simp [obs_data_get_string, h]

/-- A string field is read as its value by `obs_data_get_string`. -/
theorem obs_data_get_string_of_string (data : ObsData) (name : String) (s : String)
    (h : obsDataItem name data = some (.string s)) : obs_data_get_string data name = s := by
  simp [obs_data_get_string, h]

/-- A format version in the range of `int` other than `0` and the supported version is
not accepted. -/
theorem not_formatVersionAccepted_of_range (data : ObsData) (v : Int)
    (hv : obsDataItem "format_version" data = some (.number v))
    (h0 : v ≠ 0) (h1 : v ≠ kSupportedFormatVersion)
    (hlo : -2147483648 ≤ v) (hhi : v < 2147483648) : ¬ formatVersionAccepted data := by
  unfold formatVersionAccepted
  rw [obs_data_get_int_of_number data _ v hv]
  unfold kSupportedFormatVersion at h1 ⊢
  unfold wrapInt32
  omega

/-- For a document whose `format_version` is an integer in the range of `int` other than
`0` and the supported version, loading fails with the unsupported-format-version
error, whatever the other fields. -/
theorem LoadFromJson_unsupported_in_range (lib : ObsDataLibrary) (json msg : String)
    (data : ObsData) (v : Int)
    (hdata : lib.obs_data_create_from_json json = some data)
    (hv : obsDataItem "format_version" data = some (.number v))
    (h0 : v ≠ 0) (h1 : v ≠ kSupportedFormatVersion)
    (hlo : -2147483648 ≤ v) (hhi : v < 2147483648) :
    SceneCatalogPackage.LoadFromJson lib json msg =
      (false, {}, "Unsupported scene package format version.") :=
  LoadFromJson_of_rejected lib json msg data hdata
    (not_formatVersionAccepted_of_range data v hv h0 h1 hlo hhi)

/-- The document with format version `2` is refused. -/
theorem LoadFromJson_unsupported_in_range_witness :
    SceneCatalogPackage.LoadFromJson (libraryOf versionTwoDocument) "" "" =
      (false, {}, "Unsupported scene package format version.") :=
  LoadFromJson_unsupported_in_range (libraryOf versionTwoDocument) "" "" versionTwoDocument 2
    rfl rfl (by decide) (by decide) (by decide) (by decide)

/-- Claim C11 (the code at the failing input): the document has the format version
`4294967297`, an integer other than `0` and `1`; the cast to `int` makes it `1`, and
loading succeeds with the format version `1` instead of failing with the
unsupported-format-version error. -/
theorem LoadFromJson_wide_version_accepted :
    obsDataItem "format_version" wideVersionDocument = some (.number 4294967297) ∧
      (SceneCatalogPackage.LoadFromJson (libraryOf wideVersionDocument) "" "").1 = true ∧
      (SceneCatalogPackage.LoadFromJson (libraryOf wideVersionDocument) "" "").2.1.formatVersion
        = 1 :=
  ⟨by rfl, by rfl, by rfl⟩

/-- Claim C12: for a parsed document with an accepted format version and a collection
object, loading fails with the missing-required-metadata error whenever `id` is read
as empty (missing or empty) or `name` is, whatever the other fields. -/
theorem LoadFromJson_missing_metadata (lib : ObsDataLibrary) (json msg : String)
    (data collection : ObsData)
    (hdata : lib.obs_data_create_from_json json = some data)
    (hacc : formatVersionAccepted data)
    (hcoll : obs_data_get_obj data "collection" = some collection)
    (hmeta : obs_data_get_string data "id" = "" ∨ obs_data_get_string data "name" = "") :
    (SceneCatalogPackage.LoadFromJson lib json msg).1 = false ∧
      (SceneCatalogPackage.LoadFromJson lib json msg).2.2 =
        "Scene package is missing required metadata fields." := by
  rw [LoadFromJson_of_accepted lib json msg data hdata hacc, hcoll]
  simp only [hmeta, ↓reduceIte, and_self]

/-- The document without `id` is refused for its metadata. -/
theorem LoadFromJson_missing_metadata_witness :
    obsDataItem "id" namelessDocument = none ∧
      (SceneCatalogPackage.LoadFromJson (libraryOf namelessDocument) "" "").1 = false ∧
      (SceneCatalogPackage.LoadFromJson (libraryOf namelessDocument) "" "").2.2 =
        "Scene package is missing required metadata fields." :=
  ⟨rfl, LoadFromJson_missing_metadata (libraryOf namelessDocument) "" "" namelessDocument []
    rfl (Or.inr (by decide)) rfl (Or.inl (obs_data_get_string_of_missing _ _ rfl))⟩

/-- Claim C13: for a parsed document with an accepted format version and no collection
object, loading fails with the missing-collection-payload error, whatever `id`, `name`
and the other fields are. -/
theorem LoadFromJson_missing_collection (lib : ObsDataLibrary) (json msg : String)
    (data : ObsData)
    (hdata : lib.obs_data_create_from_json json = some data)
    (hacc : formatVersionAccepted data)
    (hcoll : obs_data_get_obj data "collection" = none) :
    (SceneCatalogPackage.LoadFromJson lib json msg).1 = false ∧
      (SceneCatalogPackage.LoadFromJson lib json msg).2.2 =
        "Scene package is missing a collection payload." := by
  rw [LoadFromJson_of_accepted lib json msg data hdata hacc, hcoll]
  exact ⟨rfl, rfl⟩

/-- The document with `id` and `name` and without a collection is refused for its
collection. -/
theorem LoadFromJson_missing_collection_witness :
    obs_data_get_string collectionlessDocument "id" = "pack" ∧
      obs_data_get_string collectionlessDocument "name" = "Pack" ∧
      (SceneCatalogPackage.LoadFromJson (libraryOf collectionlessDocument) "" "").1 = false ∧
      (SceneCatalogPackage.LoadFromJson (libraryOf collectionlessDocument) "" "").2.2 =
        "Scene package is missing a collection payload." :=
  ⟨rfl, rfl, LoadFromJson_missing_collection (libraryOf collectionlessDocument) "" ""
    collectionlessDocument rfl (Or.inr (by decide)) rfl⟩

/-- Claim C14: for a parsed document without a `format_version` field or with the
format version `0`, with a collection object and non-empty `id` and `name`, loading
succeeds and the format version of the manifest is the supported version. -/
theorem LoadFromJson_default_version (lib : ObsDataLibrary) (json msg : String)
    (data collection : ObsData)
    (hdata : lib.obs_data_create_from_json json = some data)
    (hfv : obsDataItem "format_version" data = none ∨
      obsDataItem "format_version" data = some (.number 0))
    (hcoll : obs_data_get_obj data "collection" = some collection)
    (hid : obs_data_get_string data "id" ≠ "") (hname : obs_data_get_string data "name" ≠ "") :
    SceneCatalogPackage.LoadFromJson lib json msg =
        (true, manifestBody lib data collection (manifestHeader data kSupportedFormatVersion),
          msg) ∧
      (SceneCatalogPackage.LoadFromJson lib json msg).2.1.formatVersion =
        kSupportedFormatVersion := by
  have hacc : formatVersionAccepted data := by
    left
    rcases hfv with h | h
    · rw [obs_data_get_int_of_missing data _ h]; rfl
    · rw [obs_data_get_int_of_number data _ 0 h]; rfl
  rw [LoadFromJson_of_accepted lib json msg data hdata hacc, hcoll]
  simp only [hid, hname, or_self, ↓reduceIte, true_and]
  rfl

/-- The document without `format_version` is loaded with the supported version. -/
theorem LoadFromJson_default_version_witness :
    obsDataItem "format_version" unversionedDocument = none ∧
      (SceneCatalogPackage.LoadFromJson (libraryOf unversionedDocument) "" "").1 = true ∧
      (SceneCatalogPackage.LoadFromJson (libraryOf unversionedDocument) "" "").2.1.formatVersion =
        kSupportedFormatVersion :=
  ⟨rfl, by
    have h := LoadFromJson_default_version (libraryOf unversionedDocument) "" ""
      unversionedDocument [] rfl (Or.inl rfl) rfl (by decide) (by decide)
    exact ⟨by rw [h.1], h.2⟩⟩

/-- Claim C15 (counterexample): the document has `id`, `name` and `version` and no
collection; loading reports failure and the output manifest holds the `id`, `name` and
`version` of the document, which the default-constructed manifest does not. -/
theorem LoadFromJson_failure_partial_counterexample :
    (SceneCatalogPackage.LoadFromJson (libraryOf collectionlessDocument) "" "").1 = false ∧
      (SceneCatalogPackage.LoadFromJson (libraryOf collectionlessDocument) "" "").2.1.id = "pack" ∧
      (SceneCatalogPackage.LoadFromJson (libraryOf collectionlessDocument) "" "").2.1.version
        = "1.2" ∧
      ({} : SceneCatalogPackage).id = "" ∧
      (SceneCatalogPackage.LoadFromJson (libraryOf collectionlessDocument) "" "").2.1 ≠ {} := by
  refine ⟨by rfl, by rfl, by rfl, by rfl, ?_⟩
  intro h
  have hid := congrArg SceneCatalogPackage.id h
  exact absurd hid (by decide)

/-- Claim C15 (amended): when `LoadFromJson` reports failure, the output manifest is the
default-constructed one for invalid JSON and for an unsupported format version; for a
missing collection it holds the scalar fields and the preview read from the document,
and for missing `id` or `name` it holds every field read from the document. -/
theorem LoadFromJson_failure_output (lib : ObsDataLibrary) (json msg : String)
    (out : SceneCatalogPackage) (err : String)
    (h : SceneCatalogPackage.LoadFromJson lib json msg = (false, out, err)) :
    (lib.obs_data_create_from_json json = none ∧
        err = "Invalid scene package manifest JSON." ∧ out = {}) ∨
      (∃ data, lib.obs_data_create_from_json json = some data ∧ ¬ formatVersionAccepted data ∧
        err = "Unsupported scene package format version." ∧ out = {}) ∨
      (∃ data, lib.obs_data_create_from_json json = some data ∧ formatVersionAccepted data ∧
        obs_data_get_obj data "collection" = none ∧
        err = "Scene package is missing a collection payload." ∧
        out = manifestHeader data kSupportedFormatVersion) ∨
      (∃ data collection, lib.obs_data_create_from_json json = some data ∧
        formatVersionAccepted data ∧ obs_data_get_obj data "collection" = some collection ∧
        (obs_data_get_string data "id" = "" ∨ obs_data_get_string data "name" = "") ∧
        err = "Scene package is missing required metadata fields." ∧
        out = manifestBody lib data collection (manifestHeader data kSupportedFormatVersion)) := by
  cases hdata : lib.obs_data_create_from_json json with
  | none =>
    left
    unfold SceneCatalogPackage.LoadFromJson at h
    rw [hdata] at h
    simp only [Prod.mk.injEq, true_and] at h
    exact ⟨rfl, h.2.symm, h.1.symm⟩
  | some data =>
    right
    by_cases hacc : formatVersionAccepted data
    · right
      rw [LoadFromJson_of_accepted lib json msg data hdata hacc] at h
      cases hcoll : obs_data_get_obj data "collection" with
      | none =>
        left
        rw [hcoll] at h
        simp only [Prod.mk.injEq, true_and] at h
        exact ⟨data, rfl, hacc, hcoll, h.2.symm, h.1.symm⟩
      | some collection =>
        right
        rw [hcoll] at h
        simp only at h
        by_cases hmeta : obs_data_get_string data "id" = "" ∨ obs_data_get_string data "name" = ""
        · rw [if_pos hmeta] at h
          simp only [Prod.mk.injEq, true_and] at h
          exact ⟨data, collection, rfl, hacc, hcoll, hmeta, h.2.symm, h.1.symm⟩
        · rw [if_neg hmeta] at h
          simp at h
    · left
      rw [LoadFromJson_of_rejected lib json msg data hdata hacc] at h
      simp only [Prod.mk.injEq, true_and] at h
      exact ⟨data, rfl, hacc, h.2.symm, h.1.symm⟩

/-- The document with format version `2` leaves the default manifest. -/
theorem LoadFromJson_failure_output_witness :
    SceneCatalogPackage.LoadFromJson (libraryOf versionTwoDocument) "" "" =
        (false, {}, "Unsupported scene package format version.") ∧
      (((libraryOf versionTwoDocument).obs_data_create_from_json "" = none ∧
          "Unsupported scene package format version." = "Invalid scene package manifest JSON." ∧
          ({} : SceneCatalogPackage) = {}) ∨
        (∃ data, (libraryOf versionTwoDocument).obs_data_create_from_json "" = some data ∧
          ¬ formatVersionAccepted data ∧
          "Unsupported scene package format version." =
            "Unsupported scene package format version." ∧ ({} : SceneCatalogPackage) = {}) ∨
        (∃ data, (libraryOf versionTwoDocument).obs_data_create_from_json "" = some data ∧
          formatVersionAccepted data ∧ obs_data_get_obj data "collection" = none ∧
          "Unsupported scene package format version." =
            "Scene package is missing a collection payload." ∧
          ({} : SceneCatalogPackage) = manifestHeader data kSupportedFormatVersion) ∨
        (∃ data collection, (libraryOf versionTwoDocument).obs_data_create_from_json "" = some data ∧
          formatVersionAccepted data ∧ obs_data_get_obj data "collection" = some collection ∧
          (obs_data_get_string data "id" = "" ∨ obs_data_get_string data "name" = "") ∧
          "Unsupported scene package format version." =
            "Scene package is missing required metadata fields." ∧
          ({} : SceneCatalogPackage) =
            manifestBody (libraryOf versionTwoDocument) data collection
              (manifestHeader data kSupportedFormatVersion))) :=
  ⟨by rfl, LoadFromJson_failure_output (libraryOf versionTwoDocument) "" "" {}
    "Unsupported scene package format version." (by rfl)⟩

/-- Claim C24 (counterexample): the document has no `asset_root_token` field; it is
loaded, and the `assetRootToken` of the manifest is the default `$\x7bscene_assets\x7d`, not
the empty string. -/
theorem LoadFromJson_asset_token_counterexample :
    obsDataItem "asset_root_token" unversionedDocument = none ∧
      (SceneCatalogPackage.LoadFromJson (libraryOf unversionedDocument) "" "").1 = true ∧
      (SceneCatalogPackage.LoadFromJson (libraryOf unversionedDocument) "" "").2.1.assetRootToken =
        "$\x7bscene_assets\x7d" ∧
      (SceneCatalogPackage.LoadFromJson (libraryOf unversionedDocument) "" "").2.1.assetRootToken ≠
        "" := by
  refine ⟨by rfl, by rfl, by rfl, ?_⟩
  have h : (SceneCatalogPackage.LoadFromJson (libraryOf unversionedDocument) "" "").2.1.assetRootToken =
      "$\x7bscene_assets\x7d" := by rfl
  rw [h]
  decide

/-- Claim C24 (amended): in a manifest loaded by `LoadFromJson`, each of `id`, `name`,
`version`, `obsMinVersion` and `description` is what `obs_data_get_string` reads from
the document for `id`, `name`, `version`, `obs_min_version` and `description` (the string
value of a present field, the empty string for a missing one), and `assetRootToken` is
the value of `asset_root_token` when that is present and not empty, and the default
`$\x7bscene_assets\x7d` otherwise. -/
theorem LoadFromJson_scalar_fields (lib : ObsDataLibrary) (json msg : String) (data : ObsData)
    (out : SceneCatalogPackage) (err : String)
    (hdata : lib.obs_data_create_from_json json = some data)
    (h : SceneCatalogPackage.LoadFromJson lib json msg = (true, out, err)) :
    out.id = obs_data_get_string data "id" ∧
      out.name = obs_data_get_string data "name" ∧
      out.version = obs_data_get_string data "version" ∧
      out.obsMinVersion = obs_data_get_string data "obs_min_version" ∧
      out.description = obs_data_get_string data "description" ∧
      out.assetRootToken =
        (if obs_data_get_string data "asset_root_token" ≠ "" then
          obs_data_get_string data "asset_root_token"
        else "$\x7bscene_assets\x7d") ∧
      (∀ name, obsDataItem name data = none → obs_data_get_string data name = "") ∧
      (∀ name s, obsDataItem name data = some (.string s) → obs_data_get_string data name = s) := by
  have hout : ∃ collection,
      out = manifestBody lib data collection (manifestHeader data kSupportedFormatVersion) := by
    by_cases hacc : formatVersionAccepted data
    · rw [LoadFromJson_of_accepted lib json msg data hdata hacc] at h
      cases hcoll : obs_data_get_obj data "collection" with
      | none =>
        rw [hcoll] at h
        simp at h
      | some collection =>
        rw [hcoll] at h
        simp only at h
        split_ifs at h
        · simp at h
        · simp only [Prod.mk.injEq, true_and] at h
          exact ⟨collection, h.1.symm⟩
    · rw [LoadFromJson_of_rejected lib json msg data hdata hacc] at h
      simp at h
  obtain ⟨collection, rfl⟩ := hout
  exact ⟨rfl, rfl, rfl, rfl, rfl, rfl, fun name hn => obs_data_get_string_of_missing data name hn,
    fun name s hn => obs_data_get_string_of_string data name s hn⟩

/-- The manifest loaded from `exampleManifestText`. -/
theorem LoadFromJson_scalar_fields_witness :
    SceneCatalogPackage.LoadFromJson exampleLibrary exampleManifestText "" =
        (true, exampleManifest, "") ∧
      exampleManifest.id = "pack" ∧ exampleManifest.description = "" ∧
      exampleManifest.assetRootToken = "$\x7bscene_assets\x7d" := by
  have h := LoadFromJson_scalar_fields exampleLibrary exampleManifestText ""
    [("id", .string "pack"), ("name", .string "Pack"), ("version", .string "1.2"),
      ("collection", .object [])] exampleManifest "" (by rfl) (by rfl)
  exact ⟨by rfl, h.1, h.2.2.2.2.1, h.2.2.2.2.2.1⟩

/-! ## Host compatibility -/

/-- Claim C16: `validateCompatibility` succeeds exactly when the minimum version of the
manifest is empty or `compareSemanticVersions` of the current host version and the
minimum version is at least `0`; so it succeeds for an empty minimum version, and for
a non-empty one it succeeds if and only if the comparison is at least `0`. -/
theorem validateCompatibility_ok_iff (pkg : SceneCatalogPackage) (currentVersion msg : String) :
    ((pkg.validateCompatibility currentVersion msg).1 = true ↔
        (pkg.obsMinVersion = "" ∨ 0 ≤ compareSemanticVersions currentVersion pkg.obsMinVersion)) ∧
      ((pkg.validateCompatibility currentVersion msg).1 = true →
        (pkg.validateCompatibility currentVersion msg).2 = msg) := by
  unfold SceneCatalogPackage.validateCompatibility
  by_cases hm : pkg.obsMinVersion = ""
  · simp [hm]
  · by_cases hc : compareSemanticVersions currentVersion pkg.obsMinVersion < 0
    · simp [hm, hc]
    · simp only [hm, hc, ↓reduceIte, false_or, true_iff, implies_true, and_true]
      omega

/-- Claim C17 (counterexample): a package that asks for host version `31.0.0` is checked
against the host version `30.1.2`; the check fails and the message it leaves does not
contain the text `31.0.0`. -/
theorem validateCompatibility_message_counterexample :
    newerHostPackage.obsMinVersion = "31.0.0" ∧
      (newerHostPackage.validateCompatibility "30.1.2" "").1 = false ∧
      (newerHostPackage.validateCompatibility "30.1.2" "").2 =
        "Scene package requires a newer OBS version." ∧
      ¬ (newerHostPackage.obsMinVersion.toList <:+:
        (newerHostPackage.validateCompatibility "30.1.2" "").2.toList) := by
  refine ⟨rfl, by decide, by decide, ?_⟩
  have h : (newerHostPackage.validateCompatibility "30.1.2" "").2 =
      "Scene package requires a newer OBS version." := by decide
  rw [h]
  decide

/-- Claim C17 (amended): whenever `validateCompatibility` fails, the message it leaves is
the fixed text `Scene package requires a newer OBS version.`, whatever the minimum
version of the manifest and the host version are. -/
theorem validateCompatibility_failure_message (pkg : SceneCatalogPackage)
    (currentVersion msg : String)
    (h : (pkg.validateCompatibility currentVersion msg).1 = false) :
    (pkg.validateCompatibility currentVersion msg).2 =
      "Scene package requires a newer OBS version." := by
  unfold SceneCatalogPackage.validateCompatibility at h ⊢
  by_cases hm : pkg.obsMinVersion = ""
  · simp [hm] at h
  · by_cases hc : compareSemanticVersions currentVersion pkg.obsMinVersion < 0
    · simp [hm, hc]
    · simp [hm, hc] at h

/-- The check of `newerHostPackage` against the host version `30.1.2`. -/
theorem validateCompatibility_failure_message_witness :
    (newerHostPackage.validateCompatibility "30.1.2" "").1 = false ∧
      (newerHostPackage.validateCompatibility "30.1.2" "").2 =
        "Scene package requires a newer OBS version." :=
  ⟨by decide, validateCompatibility_failure_message newerHostPackage "30.1.2" "" (by decide)⟩

/-! ## The file system -/

/-- Looking up the name just bound. -/
theorem lookupEntry_putEntry_self (name : String) (v : Node) (es : List (String × Node)) :
    lookupEntry name (putEntry name v es) = some v := by
  induction es with
  | nil => simp [putEntry, lookupEntry]
  | cons e es ih =>
    obtain ⟨k, w⟩ := e
    by_cases hk : k = name
    · simp [putEntry, lookupEntry, hk]
    · simp [putEntry, lookupEntry, hk, ih]

/-- Binding a name leaves the other names as they are. -/
theorem lookupEntry_putEntry_ne (name k : String) (v : Node) (es : List (String × Node))
    (hne : k ≠ name) : lookupEntry k (putEntry name v es) = lookupEntry k es := by
  induction es with
  | nil => simp [putEntry, lookupEntry, Ne.symm hne]
  | cons e es ih =>
    obtain ⟨k', w⟩ := e
    by_cases hk : k' = name
    · subst hk
      simp [putEntry, lookupEntry, Ne.symm hne]
    · by_cases hk2 : k' = k
      · subst hk2
        simp [putEntry, lookupEntry, hk]
      · simp [putEntry, lookupEntry, hk, hk2, ih]

/-- Looking up the name just erased. -/
theorem lookupEntry_eraseEntry_self (name : String) (es : List (String × Node)) :
    lookupEntry name (eraseEntry name es) = none := by
  induction es with
  | nil => simp [eraseEntry, lookupEntry]
  | cons e es ih =>
    obtain ⟨k, w⟩ := e
    by_cases hk : k = name
    · simp [eraseEntry, hk, ih]
    · simp [eraseEntry, lookupEntry, hk, ih]

/-- Erasing a name leaves the other names as they are. -/
theorem lookupEntry_eraseEntry_ne (name k : String) (es : List (String × Node))
    (hne : k ≠ name) : lookupEntry k (eraseEntry name es) = lookupEntry k es := by
  induction es with
  | nil => simp [eraseEntry, lookupEntry]
  | cons e es ih =>
    obtain ⟨k', w⟩ := e
    by_cases hk : k' = name
    · subst hk
      simp [eraseEntry, lookupEntry, Ne.symm hne, ih]
    · by_cases hk2 : k' = k
      · subst hk2
        simp [eraseEntry, lookupEntry, hk]
      · simp [eraseEntry, lookupEntry, hk, hk2, ih]

/-- Binding a name to the node it has changes nothing. -/
theorem putEntry_of_lookupEntry (name : String) (v : Node) (es : List (String × Node))
    (h : lookupEntry name es = some v) : putEntry name v es = es := by
  induction es with
  | nil => simp [lookupEntry] at h
  | cons e es ih =>
    obtain ⟨k, w⟩ := e
    by_cases hk : k = name
    · simp [lookupEntry, hk] at h
      simp [putEntry, hk, h]
    · simp [lookupEntry, hk] at h
      simp [putEntry, hk, ih h]

/-- The node at the empty path is the tree itself. -/
theorem Node.get_nil (t : Node) : t.get [] = some t := by
  cases t <;> rfl

/-- The node at a path below a directory. -/
theorem Node.get_dir_cons (es : List (String × Node)) (name : String) (rest : Path) :
    (Node.dir es).get (name :: rest) = (lookupEntry name es).bind (fun c => c.get rest) := by
  simp only [Node.get]
  cases lookupEntry name es <;> rfl

/-- There is nothing below a regular file. -/
theorem Node.get_file_cons (b : Bytes) (name : String) (rest : Path) :
    (Node.file b).get (name :: rest) = none := rfl

/-- The node at a concatenated path is found in two steps. -/
theorem Node.get_append (t : Node) (p q : Path) :
    t.get (p ++ q) = (t.get p).bind (fun n => n.get q) := by
  induction p generalizing t with
  | nil => simp [Node.get_nil]
  | cons name rest ih =>
    cases t with
    | file b => simp [Node.get_file_cons]
    | dir es =>
      simp only [List.cons_append, Node.get_dir_cons]
      cases lookupEntry name es with
      | none => rfl
      | some c => simp [ih]

/-- After a replacement the node at the path is the new one. -/
theorem Node.get_set_self (t t' : Node) (p : Path) (v : Option Node)
    (h : t.set p v = some t') : t'.get p = v := by
  induction p generalizing t t' with
  | nil =>
    simp only [Node.set] at h
    rw [h, Node.get_nil]
  | cons name rest ih =>
    cases t with
    | file b => simp [Node.set] at h
    | dir es =>
      cases rest with
      | nil =>
        cases v with
        | none =>
          simp only [Node.set, Option.some.injEq] at h
          subst h
          simp [Node.get_dir_cons, lookupEntry_eraseEntry_self]
        | some n =>
          simp only [Node.set, Option.some.injEq] at h
          subst h
          simp [Node.get_dir_cons, lookupEntry_putEntry_self, Node.get_nil]
      | cons r rest =>
        simp only [Node.set] at h
        cases hl : lookupEntry name es with
        | none => simp [hl] at h
        | some child =>
          simp only [hl] at h
          cases hc : child.set (r :: rest) v with
          | none => simp [hc] at h
          | some c =>
            simp only [hc, Option.some.injEq] at h
            subst h
            simp [Node.get_dir_cons, lookupEntry_putEntry_self, ih child c hc]

/-- A replacement leaves the paths that are neither above nor below it as they are. -/
theorem Node.get_set_disjoint (t t' : Node) (p q : Path) (v : Option Node)
    (h : t.set p v = some t') (hpq : ¬ p <+: q) (hqp : ¬ q <+: p) : t'.get q = t.get q := by
  induction p generalizing t t' q with
  | nil => exact absurd (List.nil_prefix) hpq
  | cons name rest ih =>
    cases q with
    | nil => exact absurd (List.nil_prefix) hqp
    | cons k qs =>
      cases t with
      | file b => simp [Node.set] at h
      | dir es =>
        by_cases hk : k = name
        · subst hk
          have hpq' : ¬ rest <+: qs := fun hh => hpq ((List.prefix_cons_inj k).mpr hh)
          have hqp' : ¬ qs <+: rest := fun hh => hqp ((List.prefix_cons_inj k).mpr hh)
          cases rest with
          | nil => exact absurd (List.nil_prefix) hpq'
          | cons r rest =>
            simp only [Node.set] at h
            cases hl : lookupEntry k es with
            | none => simp [hl] at h
            | some child =>
              simp only [hl] at h
              cases hc : child.set (r :: rest) v with
              | none => simp [hc] at h
              | some c =>
                simp only [hc, Option.some.injEq] at h
                subst h
                simp [Node.get_dir_cons, lookupEntry_putEntry_self, hl, ih child c qs hc hpq' hqp']
        · cases rest with
          | nil =>
            cases v with
            | none =>
              simp only [Node.set, Option.some.injEq] at h
              subst h
              simp [Node.get_dir_cons, lookupEntry_eraseEntry_ne _ _ _ hk]
            | some n =>
              simp only [Node.set, Option.some.injEq] at h
              subst h
              simp [Node.get_dir_cons, lookupEntry_putEntry_ne _ _ _ _ hk]
          | cons r rest =>
            simp only [Node.set] at h
            cases hl : lookupEntry name es with
            | none => simp [hl] at h
            | some child =>
              simp only [hl] at h
              cases hc : child.set (r :: rest) v with
              | none => simp [hc] at h
              | some c =>
                simp only [hc, Option.some.injEq] at h
                subst h
                simp [Node.get_dir_cons, lookupEntry_putEntry_ne _ _ _ _ hk]

/-- There is nothing below an empty directory. -/
theorem Node.get_empty_dir_cons (k : String) (r : Path) : (Node.dir []).get (k :: r) = none := by
  simp [Node.get_dir_cons, lookupEntry]

/-- Creating the directories along a path leaves every path that is not on it
as it is. -/
theorem Node.mkdirs_get_other (t t' : Node) (p q : Path)
    (h : t.mkdirs p = some t') (hq : ¬ q <+: p) : t'.get q = t.get q := by
  induction p generalizing t t' q with
  | nil =>
    cases t with
    | file b => simp [Node.mkdirs] at h
    | dir es =>
      simp only [Node.mkdirs, Option.some.injEq] at h
      rw [h]
  | cons name rest ih =>
    cases t with
    | file b => simp [Node.mkdirs] at h
    | dir es =>
      cases q with
      | nil => exact absurd (List.nil_prefix) hq
      | cons k qs =>
        simp only [Node.mkdirs] at h
        by_cases hk : k = name
        · subst hk
          have hq' : ¬ qs <+: rest := fun hh => hq ((List.prefix_cons_inj k).mpr hh)
          cases hl : lookupEntry k es with
          | some child =>
            simp only [hl] at h
            cases hc : child.mkdirs rest with
            | none => simp [hc] at h
            | some c =>
              simp only [hc, Option.some.injEq] at h
              subst h
              simp [Node.get_dir_cons, lookupEntry_putEntry_self, hl, ih child c qs hc hq']
          | none =>
            simp only [hl] at h
            cases hc : (Node.dir []).mkdirs rest with
            | none => simp [hc] at h
            | some c =>
              simp only [hc, Option.some.injEq] at h
              subst h
              have hqs : (Node.dir []).get qs = none := by
                cases qs with
                | nil => exact absurd (List.nil_prefix) hq'
                | cons k' r => exact Node.get_empty_dir_cons k' r
              simp [Node.get_dir_cons, lookupEntry_putEntry_self, hl, ih (Node.dir []) c qs hc hq', hqs]
        · cases hm : (match lookupEntry name es with
              | some child => child.mkdirs rest
              | none => (Node.dir []).mkdirs rest) with
          | none => simp [hm] at h
          | some c =>
            simp only [hm, Option.some.injEq] at h
            subst h
            simp [Node.get_dir_cons, lookupEntry_putEntry_ne _ _ _ _ hk]

/-- A directory created where nothing was is empty. -/
theorem Node.mkdirs_get_self_of_none (t t' : Node) (p : Path)
    (h : t.mkdirs p = some t') (hnone : t.get p = none) : t'.get p = some (Node.dir []) := by
  induction p generalizing t t' with
  | nil => simp [Node.get_nil] at hnone
  | cons name rest ih =>
    cases t with
    | file b => simp [Node.mkdirs] at h
    | dir es =>
      simp only [Node.mkdirs] at h
      rw [Node.get_dir_cons] at hnone
      cases hl : lookupEntry name es with
      | some child =>
        simp only [hl] at h
        simp only [hl, Option.some_bind] at hnone
        cases hc : child.mkdirs rest with
        | none => simp [hc] at h
        | some c =>
          simp only [hc, Option.some.injEq] at h
          subst h
          simp [Node.get_dir_cons, lookupEntry_putEntry_self, ih child c hc hnone]
      | none =>
        simp only [hl] at h
        cases hc : (Node.dir []).mkdirs rest with
        | none => simp [hc] at h
        | some c =>
          simp only [hc, Option.some.injEq] at h
          subst h
          cases rest with
          | nil =>
            simp only [Node.mkdirs, Option.some.injEq] at hc
            subst hc
            simp [Node.get_dir_cons, lookupEntry_putEntry_self, Node.get_nil]
          | cons k r =>
            simp [Node.get_dir_cons, lookupEntry_putEntry_self,
              ih (Node.dir []) c hc (Node.get_empty_dir_cons k r)]

/-! ### Names and paths -/

/-- A text without the separator is its only component. -/
theorem splitOnChar_of_not_mem (sep : Char) (l : List Char) (h : sep ∉ l) :
    splitOnChar sep l = [l] := by
  induction l with
  | nil => rfl
  | cons c cs ih =>
    have hc : c ≠ sep := fun hh => h (by simp [hh])
    have hcs : sep ∉ cs := fun hh => h (List.mem_cons_of_mem _ hh)
    simp [splitOnChar, hc, ih hcs]

/-- Appending a plain name goes one name down. -/
theorem pathAppend_plain (base : Path) (s : String) (h : isPlainName s = true) :
    pathAppend base s = base ++ [s] := by
  unfold isPlainName at h
  simp only [Bool.and_eq_true, decide_eq_true_eq] at h
  obtain ⟨⟨⟨hslash, h0⟩, h1⟩, h2⟩ := h
  unfold pathAppend
  rw [splitOnChar_of_not_mem _ _ hslash]
  have hhead : s.toList.head? ≠ some '/' := by
    intro hh
    cases hs : s.toList with
    | nil => rw [hs] at hh; simp at hh
    | cons c cs =>
      rw [hs] at hh hslash
      simp at hh
      exact hslash (by simp [hh])
  simp only [hhead, ↓reduceIte, List.foldl_cons, List.foldl_nil, pathStep]
  have e0 : s.data ≠ [] := fun hh => h0 (by cases s; simp_all)
  have e1 : s.data ≠ ['.'] := fun hh => h1 (by cases s; simp_all)
  have e2 : s.data ≠ ['.', '.'] := fun hh => h2 (by cases s; simp_all)
  simp only [String.toList, e0, e1, e2, or_self, ↓reduceIte]

/-- A text without `/` that has a character other than the dot is a plain name. -/
theorem isPlainName_of_mem (s : String) (c : Char) (hslash : '/' ∉ s.toList) (hc : c ∈ s.toList)
    (hdot : c ≠ '.') : isPlainName s = true := by
  unfold isPlainName
  simp only [Bool.and_eq_true, decide_eq_true_eq]
  refine ⟨⟨⟨hslash, ?_⟩, ?_⟩, ?_⟩
  · intro h; rw [h] at hc; simp at hc
  · intro h; rw [h] at hc; simp at hc; exact hdot hc
  · intro h; rw [h] at hc; simp at hc; exact hdot hc

/-- A plain name has no `/`. -/
theorem isPlainName_not_slash (s : String) (h : isPlainName s = true) : '/' ∉ s.toList := by
  unfold isPlainName at h
  simp only [Bool.and_eq_true, decide_eq_true_eq] at h
  exact h.1.1.1

/-- The temporary file name of a request without `/` in `id` and `version` is a
plain name. -/
theorem isPlainName_tempFileName (metadata : PluginPackageMetadata)
    (hid : '/' ∉ metadata.id.toList) (hver : '/' ∉ metadata.version.toList) :
    isPlainName (tempFileName metadata) = true := by
  apply isPlainName_of_mem _ 'k'
  · simp [tempFileName, String.toList, String.data_append] at hid hver ⊢
    exact ⟨hid, hver⟩
  · simp [tempFileName, String.toList, String.data_append]
  · decide

/-- The backup name of an `id` without `/` is a plain name. -/
theorem isPlainName_backupName (id timestamp : String)
    (hid : '/' ∉ id.toList) (hts : '/' ∉ timestamp.toList) :
    isPlainName (id ++ ".backup-" ++ timestamp) = true := by
  apply isPlainName_of_mem _ 'k'
  · simp [String.toList, String.data_append] at hid hts ⊢
    exact ⟨hid, hts⟩
  · simp [String.toList, String.data_append]
  · decide

/-- The backup name differs from the `id`. -/
theorem backupName_ne (id timestamp : String) : id ≠ id ++ ".backup-" ++ timestamp := by
  intro h
  have := congrArg String.length h
  simp [String.length_append] at this
  have h8 : (".backup-" : String).length = 8 := by decide
  omega

/-- The plugins root is two names below the settings location. -/
theorem pathAppend_obs_studio_plugins (base : Path) :
    pathAppend base "obs-studio/plugins" = base ++ ["obs-studio", "plugins"] := by
  simp [pathAppend, splitOnChar, pathStep]

/-- The temporary directory is one name below the temporary directory of the system. -/
theorem pathAppend_obs_plugin_packages (base : Path) :
    pathAppend base "obs-plugin-packages" = base ++ ["obs-plugin-packages"] := by
  simp [pathAppend, splitOnChar, pathStep]

/-! ### Prefix facts -/

/-- What is not above a path has no extension above it. -/
theorem not_prefix_append (root td l : Path) (h : ¬ root <+: td) : ¬ (root ++ l) <+: td :=
  fun hh => h (List.IsPrefix.trans (List.prefix_append root l) hh)

/-- A child of `root` is not above a child of `td` when `root` is not above `td`. -/
theorem not_prefix_concat_concat (root td : Path) (x y : String)
    (h1 : ¬ root <+: td) : ¬ (root ++ [x]) <+: (td ++ [y]) := by
  intro hh
  rcases List.prefix_concat_iff.mp (by simpa using hh) with heq | hp
  · have hlen : root.length = td.length := by
      have := congrArg List.length heq
      simpa using this
    have : root = td := (List.append_inj heq hlen).1
    exact h1 (this ▸ List.prefix_refl root)
  · exact not_prefix_append root td [x] h1 hp

/-- Two different children of a directory are not above one another. -/
theorem not_prefix_sibling (root : Path) (x y : String) (h : x ≠ y) :
    ¬ (root ++ [x]) <+: (root ++ [y]) := by
  intro hh
  rw [List.prefix_append_right_inj] at hh
  have hlen : [x].length = [y].length := rfl
  have := List.IsPrefix.eq_of_length hh hlen
  simp at this
  exact h this

/-- A longer path is not above a shorter one. -/
theorem not_prefix_longer (l : Path) (x y z : String) : ¬ (l ++ [x, y]) <+: (l ++ [z]) := by
  intro hh
  have := List.IsPrefix.length_le hh
  simp at this

/-- A child of a directory is not above what lies in another child. -/
theorem not_prefix_sibling_child (root : Path) (x y z : String) (h : x ≠ y) :
    ¬ (root ++ [x]) <+: (root ++ [y, z]) := by
  intro hh
  rw [List.prefix_append_right_inj] at hh
  obtain ⟨t, ht⟩ := hh
  simp at ht
  exact h ht.1

/-! ### The file-system calls -/

/-- The call `create_directories` leaves every path that is not on its path as it is. -/
theorem fsCreateDirectories_get_other (fault : Option String) (fs fs' : Node) (p q : Path)
    (h : fsCreateDirectories fault fs p = .ok fs') (hq : ¬ q <+: p) : fs'.get q = fs.get q := by
  unfold fsCreateDirectories at h
  cases fault with
  | some what => simp at h
  | none =>
    simp only at h
    cases hm : fs.mkdirs p with
    | none => simp [hm] at h
    | some t =>
      simp only [hm, Except.ok.injEq] at h
      subst h
      exact Node.mkdirs_get_other fs t p q hm hq

/-- Writing a file leaves the paths that are neither above nor below it as they are. -/
theorem fsWriteFile_get_other (fault : Bool) (fs fs' : Node) (p q : Path) (data : Bytes)
    (h : fsWriteFile fault fs p data = some fs') (hpq : ¬ p <+: q) (hqp : ¬ q <+: p) :
    fs'.get q = fs.get q := by
  unfold fsWriteFile at h
  cases fault with
  | true => simp at h
  | false =>
    simp only [Bool.false_eq_true, ↓reduceIte] at h
    cases p with
    | nil => simp at h
    | cons a r =>
      cases hg : fs.get (a :: r) with
      | none =>
        simp only [hg] at h
        exact Node.get_set_disjoint fs fs' (a :: r) q _ h hpq hqp
      | some n =>
        cases n with
        | dir es => simp [hg] at h
        | file b =>
          simp only [hg] at h
          exact Node.get_set_disjoint fs fs' (a :: r) q _ h hpq hqp

/-- A rename between two paths that are not above one another moves the node and
leaves the paths unrelated to both as they are. -/
theorem fsRename_spec (fault : Option String) (fs fs' : Node) (src dst : Path)
    (h : fsRename fault fs src dst = .ok fs') (h1 : ¬ src <+: dst) (h2 : ¬ dst <+: src) :
    ∃ n, fs.get src = some n ∧ fs'.get dst = some n ∧ fs'.get src = none ∧
      ∀ q, ¬ src <+: q → ¬ q <+: src → ¬ dst <+: q → ¬ q <+: dst → fs'.get q = fs.get q := by
  unfold fsRename at h
  cases fault with
  | some what => simp at h
  | none =>
    simp only at h
    cases hsrc : fs.get src with
    | none => simp [hsrc] at h
    | some n =>
      simp only [hsrc] at h
      have hne : src ≠ dst := fun hh => h1 (hh ▸ List.prefix_refl src)
      simp only [hne, ↓reduceIte, h1] at h
      cases ht : renameTargetError n (fs.get dst) with
      | some what => simp [ht] at h
      | none =>
        simp only [ht] at h
        cases hs1 : fs.set src none with
        | none => simp [hs1] at h
        | some fs1 =>
          simp only [hs1, Option.some_bind] at h
          cases hs2 : fs1.set dst (some n) with
          | none => simp [hs2] at h
          | some fs2 =>
            simp only [hs2, Except.ok.injEq] at h
            subst h
            refine ⟨n, rfl, Node.get_set_self fs1 fs2 dst _ hs2, ?_, ?_⟩
            · rw [Node.get_set_disjoint fs1 fs2 dst src _ hs2 h2 h1]
              exact Node.get_set_self fs fs1 src _ hs1
            · intro q q1 q2 q3 q4
              rw [Node.get_set_disjoint fs1 fs2 dst q _ hs2 q3 q4]
              exact Node.get_set_disjoint fs fs1 src q _ hs1 q1 q2

/-- The call `copy_file`, failed or not, leaves the paths unrelated to its
destination as they are. -/
theorem fsCopyFile_get_other (fault : Option CopyFault) (fs : Node) (src dst q : Path)
    (hdq : ¬ dst <+: q) (hqd : ¬ q <+: dst) :
    (fsCopyFile fault fs src dst).2.get q = fs.get q := by
  unfold fsCopyFile
  split
  · split
    · rfl
    · split
      · rfl
      · split
        · split
          · rename_i fs' hs
            exact Node.get_set_disjoint fs fs' dst q _ hs hdq hqd
          · rfl
        · split
          · rfl
          · rename_i f part hpart
            cases hs : fs.set dst (some (Node.file part)) with
            | none => simp
            | some fs' =>
              simp only [Option.getD_some]
              exact Node.get_set_disjoint fs fs' dst q _ hs hdq hqd
  · rfl

/-- Staging, failed or not, leaves the paths outside the plugin directory and
unrelated to the install path as they are. -/
theorem stagePayload_get_other (env : Environment) (fs : Node) (metadata : PluginPackageMetadata)
    (q : Path) (h1 : ¬ q <+: pluginDir env metadata)
    (h2 : ¬ installPath env metadata <+: q) (h3 : ¬ q <+: installPath env metadata) :
    (stagePayload env fs metadata).2.get q = fs.get q := by
  unfold stagePayload
  cases hc : fsCreateDirectories env.createPluginDirFault fs (pluginDir env metadata) with
  | error what => rfl
  | ok fs1 =>
    simp only
    rw [fsCopyFile_get_other _ _ _ _ _ h2 h3]
    exact fsCreateDirectories_get_other _ fs fs1 _ q hc h1

/-- A replacement below a directory is a replacement in one of its entries. -/
theorem Node.set_dir_cons (es : List (String × Node)) (a : String) (q : Path) (v : Option Node)
    (hq : q ≠ []) :
    (Node.dir es).set (a :: q) v =
      (lookupEntry a es).bind (fun child =>
        (child.set q v).map (fun c => Node.dir (putEntry a c es))) := by
  cases q with
  | nil => exact absurd rfl hq
  | cons r rest =>
    simp only [Node.set]
    cases lookupEntry a es with
    | none => rfl
    | some child =>
      cases hs : child.set (r :: rest) v <;> simp [hs]

/-- Adding an entry to a directory binds its name in the entries of the directory. -/
theorem Node.get_set_child (t t' : Node) (p : Path) (name : String) (n : Node)
    (es : List (String × Node)) (hget : t.get p = some (Node.dir es))
    (hset : t.set (p ++ [name]) (some n) = some t') :
    t'.get p = some (Node.dir (putEntry name n es)) := by
  induction p generalizing t t' with
  | nil =>
    rw [Node.get_nil] at hget
    cases Option.some.inj hget
    simp only [List.nil_append, Node.set, Option.some.injEq] at hset
    subst hset
    rw [Node.get_nil]
  | cons a rest ih =>
    cases t with
    | file b => simp [Node.get_file_cons] at hget
    | dir es0 =>
      rw [Node.get_dir_cons] at hget
      rw [List.cons_append, Node.set_dir_cons _ _ _ _ (by simp)] at hset
      cases hl : lookupEntry a es0 with
      | none => simp [hl] at hget
      | some child =>
        simp only [hl, Option.some_bind] at hget hset
        cases hc : child.set (rest ++ [name]) (some n) with
        | none => simp [hc] at hset
        | some c =>
          simp only [hc, Option.map_some', Option.some.injEq] at hset
          subst hset
          simp [Node.get_dir_cons, lookupEntry_putEntry_self, ih child c hget hc]

/-- After a successful write the file holds the data. -/
theorem fsWriteFile_get_self (fault : Bool) (fs fs' : Node) (p : Path) (data : Bytes)
    (h : fsWriteFile fault fs p data = some fs') : fs'.get p = some (Node.file data) := by
  unfold fsWriteFile at h
  cases fault with
  | true => simp at h
  | false =>
    simp only [Bool.false_eq_true, ↓reduceIte] at h
    cases p with
    | nil => simp at h
    | cons a r =>
      cases hg : fs.get (a :: r) with
      | none =>
        simp only [hg] at h
        exact Node.get_set_self fs fs' (a :: r) _ h
      | some n =>
        cases n with
        | dir es => simp [hg] at h
        | file b =>
          simp only [hg] at h
          exact Node.get_set_self fs fs' (a :: r) _ h

/-- The call `create_directories` on a path where nothing was leaves an empty
directory there. -/
theorem fsCreateDirectories_get_self_of_none (fault : Option String) (fs fs' : Node) (p : Path)
    (h : fsCreateDirectories fault fs p = .ok fs') (hnone : fs.get p = none) :
    fs'.get p = some (Node.dir []) := by
  unfold fsCreateDirectories at h
  cases fault with
  | some what => simp at h
  | none =>
    simp only at h
    cases hm : fs.mkdirs p with
    | none => simp [hm] at h
    | some t =>
      simp only [hm, Except.ok.injEq] at h
      subst h
      exact Node.mkdirs_get_self_of_none fs t p hm hnone

/-- A successful `copy_file` has read a regular file and put its bytes at the
destination. -/
theorem fsCopyFile_ok (fault : Option CopyFault) (fs fs' : Node) (src dst : Path)
    (h : fsCopyFile fault fs src dst = (.ok (), fs')) :
    ∃ bytes, fs.get src = some (Node.file bytes) ∧
      fs.set dst (some (Node.file bytes)) = some fs' := by
  unfold fsCopyFile at h
  split at h
  · rename_i bytes hsrc
    refine ⟨bytes, hsrc, ?_⟩
    split at h
    · simp at h
    · split at h
      · simp at h
      · split at h
        · split at h
          · rename_i fs'' hs
            simp only [Prod.mk.injEq, true_and] at h
            rw [hs, h]
          · simp at h
        · split at h <;> simp at h
  · simp at h

/-- A successful `remove_all` leaves nothing at its path and the unrelated paths as
they are. -/
theorem fsRemoveAll_spec (fault : Option String) (fs fs' : Node) (p : Path)
    (h : fsRemoveAll fault fs p = .ok fs') :
    fs'.get p = none ∧ ∀ q, ¬ p <+: q → ¬ q <+: p → fs'.get q = fs.get q := by
  unfold fsRemoveAll at h
  cases fault with
  | some what => simp at h
  | none =>
    simp only at h
    cases hg : fs.get p with
    | none =>
      simp only [hg, Except.ok.injEq] at h
      subst h
      exact ⟨hg, fun _ _ _ => rfl⟩
    | some n =>
      simp only [hg] at h
      cases hs : fs.set p none with
      | none => simp [hs] at h
      | some t =>
        simp only [hs, Except.ok.injEq] at h
        subst h
        exact ⟨Node.get_set_self fs t p _ hs, fun q h1 h2 => Node.get_set_disjoint fs t p q _ hs h1 h2⟩

/-! ## The install transaction -/

/-- The paths of a request with a plain layout. -/
theorem plainLayout_paths (env : Environment) (metadata : PluginPackageMetadata)
    (h : plainLayout env metadata) :
    pluginDir env metadata = pluginsRoot env ++ [metadata.id] ∧
      backupDir env metadata = pluginsRoot env ++ [metadata.id ++ ".backup-" ++ env.timestamp] ∧
      installPath env metadata = pluginsRoot env ++ [metadata.id, tempFileName metadata] ∧
      tempPath env metadata = tempDir env ++ [tempFileName metadata] := by
  obtain ⟨hid, hver, hts, -, -⟩ := h
  have hidslash := isPlainName_not_slash _ hid
  have hP : pluginDir env metadata = pluginsRoot env ++ [metadata.id] := pathAppend_plain _ _ hid
  refine ⟨hP, ?_, ?_, ?_⟩
  · exact pathAppend_plain _ _ (isPlainName_backupName _ _ hidslash hts)
  · unfold installPath
    rw [pathAppend_plain _ _ (isPlainName_tempFileName _ hidslash hver), hP]
    simp
  · exact pathAppend_plain _ _ (isPlainName_tempFileName _ hidslash hver)

/-- The download step (temporary directory, temporary file) leaves every location of
the plugins root as it was. -/
theorem download_get_plugins (env : Environment) (metadata : PluginPackageMetadata)
    (fs fs1 fs2 : Node) (data : Bytes) (h : plainLayout env metadata)
    (htmp : fsCreateDirectories env.createTempDirFault fs (tempDir env) = .ok fs1)
    (hwrite : fsWriteFile env.openTempFault fs1 (tempPath env metadata) data = some fs2)
    (x : String) : fs2.get (pluginsRoot env ++ [x]) = fs.get (pluginsRoot env ++ [x]) := by
  obtain ⟨-, -, -, hT⟩ := plainLayout_paths env metadata h
  obtain ⟨-, -, -, hrt, htr⟩ := h
  rw [hT] at hwrite
  rw [fsWriteFile_get_other _ fs1 fs2 _ _ data hwrite
    (not_prefix_concat_concat _ _ _ _ htr) (not_prefix_concat_concat _ _ _ _ hrt)]
  exact fsCreateDirectories_get_other _ fs fs1 _ _ htmp (not_prefix_append _ _ _ hrt)

/-- For a request with a plain layout, when the destination
directory existed before the call, the download is written and passes both checks, the
backup rename is done, staging fails with a file-system error and the rename of the
backup onto the destination succeeds, the call returns failure with the staging error,
the destination directory is the tree it was before the call, and no backup directory
is left. -/
theorem install_restores_destination (env : Environment) (fs : Node)
    (metadata : PluginPackageMetadata) (session : PortalSession) (msg msg' what : String)
    (data : Bytes) (fs1 fs2 fs3 fs4 fs5 : Node)
    (hplain : plainLayout env metadata)
    (hurl : metadata.packageUrl ≠ "")
    (hfetch : env.fetch metadata.packageUrl
      (if session.accessToken = "" then none else some session.accessToken) = some data)
    (htmp : fsCreateDirectories env.createTempDirFault fs (tempDir env) = .ok fs1)
    (hwrite : fsWriteFile env.openTempFault fs1 (tempPath env metadata) data = some fs2)
    (hverify : verifyDownload env fs2 metadata msg = (true, msg'))
    (hexists : fsExists fs (pluginDir env metadata) = true)
    (hbackup : fsRename env.backupRenameFault fs2 (pluginDir env metadata)
      (backupDir env metadata) = .ok fs3)
    (hstage : stagePayload env fs3 metadata = (.error what, fs4))
    (hrestore : fsRename env.restoreRenameFault fs4 (backupDir env metadata)
      (pluginDir env metadata) = .ok fs5) :
    downloadAndInstallPackage env fs metadata session msg =
        (.returned false ("Failed to install package: " ++ what), fs5) ∧
      fs5.get (pluginDir env metadata) = fs.get (pluginDir env metadata) ∧
      fs5.get (backupDir env metadata) = none := by
  obtain ⟨hP, hB, hI, -⟩ := plainLayout_paths env metadata hplain
  have hne := backupName_ne metadata.id env.timestamp
  have hPB : ¬ pluginDir env metadata <+: backupDir env metadata := by
    rw [hP, hB]; exact not_prefix_sibling _ _ _ hne
  have hBP : ¬ backupDir env metadata <+: pluginDir env metadata := by
    rw [hP, hB]; exact not_prefix_sibling _ _ _ (Ne.symm hne)
  have hBI : ¬ backupDir env metadata <+: installPath env metadata := by
    rw [hB, hI]; exact not_prefix_sibling_child _ _ _ _ (Ne.symm hne)
  have hIB : ¬ installPath env metadata <+: backupDir env metadata := by
    rw [hB, hI]; exact not_prefix_longer _ _ _ _
  -- the destination after the download step
  have h2P : fs2.get (pluginDir env metadata) = fs.get (pluginDir env metadata) := by
    rw [hP]; exact download_get_plugins env metadata fs fs1 fs2 data hplain htmp hwrite _
  have hex2 : fsExists fs2 (pluginDir env metadata) = true := by
    unfold fsExists at hexists ⊢; rw [h2P]; exact hexists
  -- the backup rename
  obtain ⟨n, hn, h3B, -, -⟩ := fsRename_spec _ fs2 fs3 _ _ hbackup hPB hBP
  -- staging leaves the backup alone
  have h4B : fs4.get (backupDir env metadata) = some n := by
    have := stagePayload_get_other env fs3 metadata (backupDir env metadata) hBP hIB hBI
    rw [hstage] at this
    rw [this, h3B]
  have hex4 : fsExists fs4 (backupDir env metadata) = true := by
    unfold fsExists; rw [h4B]; rfl
  -- the restore rename
  obtain ⟨n', hn', h5P, h5B, -⟩ := fsRename_spec _ fs4 fs5 _ _ hrestore hBP hPB
  have hnn : n' = n := by
    rw [h4B] at hn'
    exact (Option.some.inj hn').symm
  refine ⟨?_, ?_, h5B⟩
  · unfold downloadAndInstallPackage
    simp only [hurl, ↓reduceIte, hfetch, htmp, hwrite, hverify]
    unfold installVerified
    simp only [hex2, ↓reduceIte, hbackup, hstage, hex4, hrestore]
  · rw [h5P, hnn, ← hn, h2P]

/-- A path unrelated to `td` is not above a child of `td`. -/
theorem not_prefix_concat (root td : Path) (y : String) (h1 : ¬ root <+: td)
    (h2 : ¬ td <+: root) : ¬ root <+: (td ++ [y]) := by
  intro hh
  rcases List.prefix_concat_iff.mp (by simpa using hh) with heq | hp
  · exact h2 (heq ▸ List.prefix_append td [y])
  · exact h1 hp

/-- For a request with a plain layout whose download is written and fails the hash check
or the signature check, the call returns that failure and the whole tree under the
plugins root, the destination directory included, is the one before the call. -/
theorem failed_check_leaves_plugins_root (env : Environment) (fs : Node)
    (metadata : PluginPackageMetadata) (session : PortalSession) (msg msg' : String)
    (data : Bytes) (fs1 fs2 : Node)
    (hplain : plainLayout env metadata)
    (hurl : metadata.packageUrl ≠ "")
    (hfetch : env.fetch metadata.packageUrl
      (if session.accessToken = "" then none else some session.accessToken) = some data)
    (htmp : fsCreateDirectories env.createTempDirFault fs (tempDir env) = .ok fs1)
    (hwrite : fsWriteFile env.openTempFault fs1 (tempPath env metadata) data = some fs2)
    (hverify : verifyDownload env fs2 metadata msg = (false, msg')) :
    downloadAndInstallPackage env fs metadata session msg = (.returned false msg', fs2) ∧
      fs2.get (pluginsRoot env) = fs.get (pluginsRoot env) := by
  obtain ⟨-, -, -, hT⟩ := plainLayout_paths env metadata hplain
  obtain ⟨-, -, -, hrt, htr⟩ := hplain
  constructor
  · unfold downloadAndInstallPackage
    simp only [hurl, ↓reduceIte, hfetch, htmp, hwrite, hverify]
  · rw [hT] at hwrite
    rw [fsWriteFile_get_other _ fs1 fs2 _ _ data hwrite
      (not_prefix_append _ _ _ htr) (not_prefix_concat _ _ _ hrt htr)]
    exact fsCreateDirectories_get_other _ fs fs1 _ _ htmp hrt

/-- For a request with a plain layout, when the destination directory existed before
the call, the download is written and passes both checks, and the backup rename,
the staging and the removal of the backup meet no file-system error, the call returns
success, the destination directory holds exactly the file `<id>-<version>.pkg` with the
downloaded bytes, and no backup directory is left. -/
theorem install_commits_payload (env : Environment) (fs : Node)
    (metadata : PluginPackageMetadata) (session : PortalSession) (msg msg' : String)
    (data : Bytes) (fs1 fs2 fs3 fs4 fs5 : Node)
    (hplain : plainLayout env metadata)
    (hurl : metadata.packageUrl ≠ "")
    (hfetch : env.fetch metadata.packageUrl
      (if session.accessToken = "" then none else some session.accessToken) = some data)
    (htmp : fsCreateDirectories env.createTempDirFault fs (tempDir env) = .ok fs1)
    (hwrite : fsWriteFile env.openTempFault fs1 (tempPath env metadata) data = some fs2)
    (hverify : verifyDownload env fs2 metadata msg = (true, msg'))
    (hexists : fsExists fs (pluginDir env metadata) = true)
    (hbackup : fsRename env.backupRenameFault fs2 (pluginDir env metadata)
      (backupDir env metadata) = .ok fs3)
    (hstage : stagePayload env fs3 metadata = (.ok (), fs4))
    (hremove : fsRemoveAll env.removeBackupFault fs4 (backupDir env metadata) = .ok fs5) :
    downloadAndInstallPackage env fs metadata session msg = (.returned true msg', fs5) ∧
      fs5.get (pluginDir env metadata) =
        some (.dir [(tempFileName metadata, .file data)]) ∧
      fs5.get (backupDir env metadata) = none := by
  obtain ⟨hP, hB, hI, hT⟩ := plainLayout_paths env metadata hplain
  have hne := backupName_ne metadata.id env.timestamp
  have hrt : ¬ pluginsRoot env <+: tempDir env := hplain.2.2.2.1
  have htr : ¬ tempDir env <+: pluginsRoot env := hplain.2.2.2.2
  have hPB : ¬ pluginDir env metadata <+: backupDir env metadata := by
    rw [hP, hB]; exact not_prefix_sibling _ _ _ hne
  have hBP : ¬ backupDir env metadata <+: pluginDir env metadata := by
    rw [hP, hB]; exact not_prefix_sibling _ _ _ (Ne.symm hne)
  have hBI : ¬ backupDir env metadata <+: installPath env metadata := by
    rw [hB, hI]; exact not_prefix_sibling_child _ _ _ _ (Ne.symm hne)
  have hIB : ¬ installPath env metadata <+: backupDir env metadata := by
    rw [hB, hI]; exact not_prefix_longer _ _ _ _
  have hPT : ¬ pluginDir env metadata <+: tempPath env metadata := by
    rw [hP, hT]; exact not_prefix_concat_concat _ _ _ _ hrt
  have hTP : ¬ tempPath env metadata <+: pluginDir env metadata := by
    rw [hP, hT]; exact not_prefix_concat_concat _ _ _ _ htr
  have hBT : ¬ backupDir env metadata <+: tempPath env metadata := by
    rw [hB, hT]; exact not_prefix_concat_concat _ _ _ _ hrt
  have hTB : ¬ tempPath env metadata <+: backupDir env metadata := by
    rw [hB, hT]; exact not_prefix_concat_concat _ _ _ _ htr
  have h2P : fs2.get (pluginDir env metadata) = fs.get (pluginDir env metadata) := by
    rw [hP]; exact download_get_plugins env metadata fs fs1 fs2 data hplain htmp hwrite _
  have hex2 : fsExists fs2 (pluginDir env metadata) = true := by
    unfold fsExists at hexists ⊢; rw [h2P]; exact hexists
  have h2T : fs2.get (tempPath env metadata) = some (.file data) :=
    fsWriteFile_get_self _ fs1 fs2 _ data hwrite
  -- the backup rename
  obtain ⟨n, -, h3B, h3P, h3frame⟩ := fsRename_spec _ fs2 fs3 _ _ hbackup hPB hBP
  have h3T : fs3.get (tempPath env metadata) = some (.file data) := by
    rw [h3frame _ hPT hTP hBT hTB, h2T]
  -- staging
  have h4B : fs4.get (backupDir env metadata) = some n := by
    have := stagePayload_get_other env fs3 metadata (backupDir env metadata) hBP hIB hBI
    rw [hstage] at this
    rw [this, h3B]
  have h4P : fs4.get (pluginDir env metadata) =
      some (.dir [(tempFileName metadata, .file data)]) := by
    unfold stagePayload at hstage
    cases hc : fsCreateDirectories env.createPluginDirFault fs3 (pluginDir env metadata) with
    | error what => rw [hc] at hstage; simp at hstage
    | ok fsa =>
      rw [hc] at hstage
      simp only at hstage
      have haP := fsCreateDirectories_get_self_of_none _ fs3 fsa _ hc h3P
      have haT : fsa.get (tempPath env metadata) = some (.file data) := by
        rw [fsCreateDirectories_get_other _ fs3 fsa _ _ hc hTP, h3T]
      obtain ⟨bytes, hsrc, hset⟩ := fsCopyFile_ok _ fsa fs4 _ _ hstage
      rw [haT] at hsrc
      cases Option.some.inj hsrc
      have hI' : installPath env metadata = pluginDir env metadata ++ [tempFileName metadata] := by
        rw [hI, hP]; simp
      rw [hI'] at hset
      exact Node.get_set_child fsa fs4 _ _ _ [] haP hset
  have hex4 : fsExists fs4 (backupDir env metadata) = true := by
    unfold fsExists; rw [h4B]; rfl
  obtain ⟨h5B, h5frame⟩ := fsRemoveAll_spec _ fs4 fs5 _ hremove
  refine ⟨?_, ?_, h5B⟩
  · unfold downloadAndInstallPackage
    simp only [hurl, ↓reduceIte, hfetch, htmp, hwrite, hverify]
    unfold installVerified
    simp only [hex2, ↓reduceIte, hbackup, hstage, hex4, hremove]
  · rw [h5frame _ hBP hPB, h4P]

/-- The example request has a plain layout in the example environments. -/
theorem plainLayout_example (env : Environment) (henv : env.tempDirectoryPath = ["tmp"])
    (hs : env.userPluginManagerSettingsLocation = ["config"])
    (hts : env.timestamp = "20250101120000") : plainLayout env exampleRequest := by
  unfold plainLayout pluginsRoot tempDir
  rw [henv, hs, hts]
  decide

/-- The transaction on `exampleFs` for the request with a wrong hash: the call returns the
mismatch and the plugins root is the tree it was. -/
theorem failed_check_leaves_plugins_root_witness :
    downloadAndInstallPackage exampleEnv exampleFs wrongHashRequest exampleSession "" =
        (.returned false "Package hash mismatch.", exampleDownloadedFs) ∧
      exampleDownloadedFs.get (pluginsRoot exampleEnv) = exampleFs.get (pluginsRoot exampleEnv) :=
  failed_check_leaves_plugins_root exampleEnv exampleFs wrongHashRequest exampleSession ""
    "Package hash mismatch." examplePayload
    (.dir [("tmp", .dir [("obs-plugin-packages", .dir [])]),
      ("config", .dir [("obs-studio", .dir [("plugins",
        .dir [("demo", .dir [("demo-0.9.pkg", .file [1, 2, 3])])])])])])
    exampleDownloadedFs
    (by unfold plainLayout pluginsRoot tempDir; decide) (by decide) rfl rfl rfl (by rfl)

/-- The transaction on `exampleFs` for the example request without faults: the call
succeeds, `demo` holds exactly the new payload file and no backup is left. -/
theorem install_commits_payload_witness :
    downloadAndInstallPackage exampleEnv exampleFs exampleRequest exampleSession "" =
        (.returned true "", exampleInstalledFs) ∧
      exampleInstalledFs.get (pluginDir exampleEnv exampleRequest) =
        some (.dir [(tempFileName exampleRequest, .file examplePayload)]) ∧
      exampleInstalledFs.get (backupDir exampleEnv exampleRequest) = none :=
  install_commits_payload exampleEnv exampleFs exampleRequest exampleSession "" ""
    examplePayload
    (.dir [("tmp", .dir [("obs-plugin-packages", .dir [])]),
      ("config", .dir [("obs-studio", .dir [("plugins",
        .dir [("demo", .dir [("demo-0.9.pkg", .file [1, 2, 3])])])])])])
    exampleDownloadedFs exampleBackedUpFs
    (.dir [("tmp", .dir [("obs-plugin-packages", .dir [("demo-1.0.pkg", .file examplePayload)])]),
      ("config", .dir [("obs-studio", .dir [("plugins",
        .dir [("demo.backup-20250101120000", .dir [("demo-0.9.pkg", .file [1, 2, 3])]),
          ("demo", .dir [("demo-1.0.pkg", .file examplePayload)])])])])])
    exampleInstalledFs
    (plainLayout_example exampleEnv rfl rfl rfl) (by decide) rfl rfl rfl (by rfl) rfl rfl rfl rfl

/-! ## Claims on the install transaction -/

/-- Claim C2 (the code at the failing input): for a request whose `id` is an absolute
path into the plugins root and whose hash check fails, the call returns the hash
mismatch, and the downloaded bytes have been written into the destination directory
`pluginsRoot/<id>`, which held no such file before the call. -/
theorem failed_check_destination_changed :
    (downloadAndInstallPackage exampleEnv exampleFs hostileRequest exampleSession "").1 =
        .returned false "Package hash mismatch." ∧
      pluginDir exampleEnv hostileRequest = ["config", "obs-studio", "plugins", "demo"] ∧
      exampleFs.get ["config", "obs-studio", "plugins", "demo", "-1.0.pkg"] = none ∧
      (downloadAndInstallPackage exampleEnv exampleFs hostileRequest exampleSession "").2.get
          ["config", "obs-studio", "plugins", "demo", "-1.0.pkg"] = some (.file examplePayload) :=
  ⟨by rfl, by decide, by rfl, by rfl⟩

/-- Claim C3 (the code at the failing input): the destination exists, the backup rename
is done, and the copy of the payload fails on a full disk after creating the
destination file: the rename of the backup onto the destination, in the `catch` block,
finds the destination not empty and throws; the call ends by that exception instead of
returning failure, the destination is not restored: it holds the truncated new file,
and the previous contents stay in the backup directory. -/
theorem staging_failure_rollback_throws :
    fsExists exampleFs (pluginDir diskFullEnv exampleRequest) = true ∧
      fsRename diskFullEnv.backupRenameFault exampleDownloadedFs
          (pluginDir diskFullEnv exampleRequest) (backupDir diskFullEnv exampleRequest) =
        .ok exampleBackedUpFs ∧
      (stagePayload diskFullEnv exampleBackedUpFs exampleRequest).1 =
        .error "copy_file: No space left on device" ∧
      (downloadAndInstallPackage diskFullEnv exampleFs exampleRequest exampleSession "").1 =
        .threw "rename: Directory not empty" ∧
      (downloadAndInstallPackage diskFullEnv exampleFs exampleRequest exampleSession "").2.get
          (pluginDir diskFullEnv exampleRequest) = some (.dir [("demo-1.0.pkg", .file [])]) ∧
      (downloadAndInstallPackage diskFullEnv exampleFs exampleRequest exampleSession "").2.get
          (backupDir diskFullEnv exampleRequest) = some (.dir [("demo-0.9.pkg", .file [1, 2, 3])]) :=
  ⟨by rfl, by rfl, by rfl, by rfl, by rfl, by rfl⟩

/-- The transaction on `exampleFs` when the environment refuses to create the plugin
directory: the backup is renamed back and the tree is the one after the download. -/
theorem install_restores_destination_witness :
    downloadAndInstallPackage refusedEnv exampleFs exampleRequest exampleSession "" =
        (.returned false "Failed to install package: create_directories: Permission denied",
          exampleDownloadedFs) ∧
      exampleDownloadedFs.get (pluginDir refusedEnv exampleRequest) =
        exampleFs.get (pluginDir refusedEnv exampleRequest) ∧
      exampleDownloadedFs.get (backupDir refusedEnv exampleRequest) = none :=
  install_restores_destination refusedEnv exampleFs exampleRequest exampleSession "" ""
    "create_directories: Permission denied" examplePayload
    (.dir [("tmp", .dir [("obs-plugin-packages", .dir [])]),
      ("config", .dir [("obs-studio", .dir [("plugins",
        .dir [("demo", .dir [("demo-0.9.pkg", .file [1, 2, 3])])])])])])
    exampleDownloadedFs exampleBackedUpFs exampleBackedUpFs exampleDownloadedFs
    (plainLayout_example refusedEnv rfl rfl rfl) (by decide) rfl rfl rfl (by rfl) rfl rfl rfl rfl

/-- Claim C4 (the code at the failing input): for the request with the `id` `../x`, a
destination directory that exists, a download that passes both checks and no
file-system error, the call succeeds, the destination directory is empty afterwards,
and the payload file lies beside it. -/
theorem traversal_install_outside_destination :
    fsExists traversalFs (pluginDir exampleEnv traversalRequest) = true ∧
      pluginDir exampleEnv traversalRequest = ["config", "obs-studio", "x"] ∧
      (downloadAndInstallPackage exampleEnv traversalFs traversalRequest exampleSession "").1 =
        .returned true "" ∧
      (downloadAndInstallPackage exampleEnv traversalFs traversalRequest exampleSession "").2.get
          ["config", "obs-studio", "x"] = some (.dir []) ∧
      (downloadAndInstallPackage exampleEnv traversalFs traversalRequest exampleSession "").2.get
          ["config", "obs-studio", "x-1.0.pkg"] = some (.file examplePayload) :=
  ⟨by rfl, by decide, by rfl, by rfl, by rfl⟩

/-- Claim C18 (counterexample): the request with a wrong hash on `exampleFs`; the call
returns the hash mismatch, and the temporary file
`/tmp/obs-plugin-packages/demo-1.0.pkg`, which did not exist before the call, is there
after it and holds the downloaded bytes. -/
theorem failed_check_download_kept_counterexample :
    (downloadAndInstallPackage exampleEnv exampleFs wrongHashRequest exampleSession "").1 =
        .returned false "Package hash mismatch." ∧
      tempPath exampleEnv wrongHashRequest = ["tmp", "obs-plugin-packages", "demo-1.0.pkg"] ∧
      exampleFs.get (tempPath exampleEnv wrongHashRequest) = none ∧
      (downloadAndInstallPackage exampleEnv exampleFs wrongHashRequest exampleSession "").2.get
          (tempPath exampleEnv wrongHashRequest) = some (.file examplePayload) :=
  ⟨by rfl, by decide, by rfl, by rfl⟩

/-- Claim C18 (amended): for every request whose download is written to the temporary
file and then fails the hash check or the signature check, the call returns that
failure and the temporary file is still there, holding the downloaded bytes. -/
theorem failed_check_keeps_download (env : Environment) (fs : Node)
    (metadata : PluginPackageMetadata) (session : PortalSession) (msg msg' : String)
    (data : Bytes) (fs1 fs2 : Node)
    (hurl : metadata.packageUrl ≠ "")
    (hfetch : env.fetch metadata.packageUrl
      (if session.accessToken = "" then none else some session.accessToken) = some data)
    (htmp : fsCreateDirectories env.createTempDirFault fs (tempDir env) = .ok fs1)
    (hwrite : fsWriteFile env.openTempFault fs1 (tempPath env metadata) data = some fs2)
    (hverify : verifyDownload env fs2 metadata msg = (false, msg')) :
    (downloadAndInstallPackage env fs metadata session msg).1 = .returned false msg' ∧
      (downloadAndInstallPackage env fs metadata session msg).2.get (tempPath env metadata) =
        some (.file data) := by
  have h : downloadAndInstallPackage env fs metadata session msg = (.returned false msg', fs2) := by
    unfold downloadAndInstallPackage
    simp only [hurl, ↓reduceIte, hfetch, htmp, hwrite, hverify]
  rw [h]
  exact ⟨rfl, fsWriteFile_get_self _ fs1 fs2 _ data hwrite⟩

/-- The request whose signature does not match, on `exampleFs`. -/
theorem failed_check_keeps_download_witness :
    (downloadAndInstallPackage exampleEnv exampleFs wrongSignatureRequest exampleSession "").1 =
        .returned false "Package signature verification failed." ∧
      (downloadAndInstallPackage exampleEnv exampleFs wrongSignatureRequest exampleSession "").2.get
          (tempPath exampleEnv wrongSignatureRequest) =
        some (.file examplePayload) :=
  failed_check_keeps_download exampleEnv exampleFs wrongSignatureRequest
    exampleSession "" "Package signature verification failed." examplePayload
    (.dir [("tmp", .dir [("obs-plugin-packages", .dir [])]),
      ("config", .dir [("obs-studio", .dir [("plugins",
        .dir [("demo", .dir [("demo-0.9.pkg", .file [1, 2, 3])])])])])])
    exampleDownloadedFs (by decide) rfl rfl rfl (by rfl)

/-- Claim C19 (the code at the failing input): the destination exists, the backup rename
is done, the copy of the payload fails on a full disk after creating the destination
file, and the rename of the backup onto the destination fails; the call returns no
value, compound or other: it ends by the exception of that rename, whose text is the
rename error alone, without the staging error. -/
theorem restore_failure_throws :
    (stagePayload diskFullEnv exampleBackedUpFs exampleRequest).1 =
        .error "copy_file: No space left on device" ∧
      fsRename diskFullEnv.restoreRenameFault
          (stagePayload diskFullEnv exampleBackedUpFs exampleRequest).2
          (backupDir diskFullEnv exampleRequest) (pluginDir diskFullEnv exampleRequest) =
        .error "rename: Directory not empty" ∧
      (downloadAndInstallPackage diskFullEnv exampleFs exampleRequest exampleSession "").1 =
        .threw "rename: Directory not empty" ∧
      ∀ (ok : Bool) (errorMessage : String),
        (downloadAndInstallPackage diskFullEnv exampleFs exampleRequest exampleSession "").1 ≠
          .returned ok errorMessage := by
  have h : (downloadAndInstallPackage diskFullEnv exampleFs exampleRequest exampleSession "").1 =
      .threw "rename: Directory not empty" := by rfl
  refine ⟨by rfl, by rfl, h, ?_⟩
  intro ok errorMessage
  rw [h]
  exact fun hh => Outcome.noConfusion hh

/-- Whenever a destination directory exists after the download, the backup rename is
done, staging fails with a file-system error, the backup directory is there and the
rename of the backup onto the destination fails, the call returns no value: it ends by
the exception of that rename, on the tree that the failed staging has left. -/
theorem restore_failure_never_returns (env : Environment) (fs : Node)
    (metadata : PluginPackageMetadata) (session : PortalSession) (msg msg' what what2 : String)
    (data : Bytes) (fs1 fs2 fs3 fs4 : Node)
    (hurl : metadata.packageUrl ≠ "")
    (hfetch : env.fetch metadata.packageUrl
      (if session.accessToken = "" then none else some session.accessToken) = some data)
    (htmp : fsCreateDirectories env.createTempDirFault fs (tempDir env) = .ok fs1)
    (hwrite : fsWriteFile env.openTempFault fs1 (tempPath env metadata) data = some fs2)
    (hverify : verifyDownload env fs2 metadata msg = (true, msg'))
    (hexists : fsExists fs2 (pluginDir env metadata) = true)
    (hbackup : fsRename env.backupRenameFault fs2 (pluginDir env metadata)
      (backupDir env metadata) = .ok fs3)
    (hstage : stagePayload env fs3 metadata = (.error what, fs4))
    (hthere : fsExists fs4 (backupDir env metadata) = true)
    (hrestore : fsRename env.restoreRenameFault fs4 (backupDir env metadata)
      (pluginDir env metadata) = .error what2) :
    downloadAndInstallPackage env fs metadata session msg = (.threw what2, fs4) := by
  unfold downloadAndInstallPackage
  simp only [hurl, ↓reduceIte, hfetch, htmp, hwrite, hverify]
  unfold installVerified
  simp only [hexists, ↓reduceIte, hbackup, hstage, hthere, hrestore]

/-- The transaction on `exampleFs` when the disk is full at the copy of the payload. -/
theorem restore_failure_never_returns_witness :
    downloadAndInstallPackage diskFullEnv exampleFs exampleRequest exampleSession "" =
      (.threw "rename: Directory not empty",
        (stagePayload diskFullEnv exampleBackedUpFs exampleRequest).2) :=
  restore_failure_never_returns diskFullEnv exampleFs exampleRequest exampleSession "" ""
    "copy_file: No space left on device" "rename: Directory not empty" examplePayload
    (.dir [("tmp", .dir [("obs-plugin-packages", .dir [])]),
      ("config", .dir [("obs-studio", .dir [("plugins",
        .dir [("demo", .dir [("demo-0.9.pkg", .file [1, 2, 3])])])])])])
    exampleDownloadedFs exampleBackedUpFs
    (stagePayload diskFullEnv exampleBackedUpFs exampleRequest).2
    (by decide) rfl rfl rfl (by rfl) rfl rfl rfl (by rfl) (by rfl)

/-- Whenever a destination directory exists after the download, the backup rename is
done and staging fails with a file-system error, a value that the call returns is
`false` with the message `Failed to install package: ` followed by the text of the
staging error; the call returns a value when the rename of the backup onto the
destination succeeds. -/
theorem staging_failure_returned_value (env : Environment) (fs : Node)
    (metadata : PluginPackageMetadata) (session : PortalSession) (msg msg' what : String)
    (data : Bytes) (fs1 fs2 fs3 fs4 : Node) (ok : Bool) (errorMessage : String)
    (hurl : metadata.packageUrl ≠ "")
    (hfetch : env.fetch metadata.packageUrl
      (if session.accessToken = "" then none else some session.accessToken) = some data)
    (htmp : fsCreateDirectories env.createTempDirFault fs (tempDir env) = .ok fs1)
    (hwrite : fsWriteFile env.openTempFault fs1 (tempPath env metadata) data = some fs2)
    (hverify : verifyDownload env fs2 metadata msg = (true, msg'))
    (hexists : fsExists fs2 (pluginDir env metadata) = true)
    (hbackup : fsRename env.backupRenameFault fs2 (pluginDir env metadata)
      (backupDir env metadata) = .ok fs3)
    (hstage : stagePayload env fs3 metadata = (.error what, fs4))
    (hret : (downloadAndInstallPackage env fs metadata session msg).1 =
      .returned ok errorMessage) :
    ok = false ∧ errorMessage = "Failed to install package: " ++ what := by
  unfold downloadAndInstallPackage at hret
  simp only [hurl, ↓reduceIte, hfetch, htmp, hwrite, hverify] at hret
  unfold installVerified at hret
  simp only [hexists, ↓reduceIte, hbackup, hstage] at hret
  by_cases hex : fsExists fs4 (backupDir env metadata) = true
  · simp only [hex, ↓reduceIte] at hret
    cases hr : fsRename env.restoreRenameFault fs4 (backupDir env metadata)
        (pluginDir env metadata) with
    | error what2 =>
      rw [hr] at hret
      exact Outcome.noConfusion hret
    | ok fs5 =>
      rw [hr] at hret
      simp only [Outcome.returned.injEq] at hret
      exact ⟨hret.1.symm, hret.2.symm⟩
  · simp only [hex, Bool.false_eq_true, ↓reduceIte] at hret
    simp only [Outcome.returned.injEq] at hret
    exact ⟨hret.1.symm, hret.2.symm⟩

/-- The transaction on `exampleFs` when the environment refuses to create the plugin
directory: the value returned carries the staging error. -/
theorem staging_failure_returned_value_witness :
    (downloadAndInstallPackage refusedEnv exampleFs exampleRequest exampleSession "").1 =
        .returned false "Failed to install package: create_directories: Permission denied" ∧
      false = false ∧
      "Failed to install package: create_directories: Permission denied" =
        "Failed to install package: " ++ "create_directories: Permission denied" :=
  ⟨by rfl, staging_failure_returned_value refusedEnv exampleFs exampleRequest exampleSession "" ""
    "create_directories: Permission denied" examplePayload
    (.dir [("tmp", .dir [("obs-plugin-packages", .dir [])]),
      ("config", .dir [("obs-studio", .dir [("plugins",
        .dir [("demo", .dir [("demo-0.9.pkg", .file [1, 2, 3])])])])])])
    exampleDownloadedFs exampleBackedUpFs exampleBackedUpFs false
    "Failed to install package: create_directories: Permission denied"
    (by decide) rfl rfl rfl (by rfl) rfl rfl rfl (by rfl)⟩

/-- Claim C20 (the code at the failing input): the destination exists, the download
passes both checks, the backup rename and the staging are done, and the removal of
the backup directory is refused; the call does not return success: it ends by the
exception of `remove_all`, with the payload staged in the destination and the backup
directory left beside it. -/
theorem backup_removal_failure_throws :
    verifyDownload lockedBackupEnv exampleDownloadedFs exampleRequest "" = (true, "") ∧
      stagePayload lockedBackupEnv exampleBackedUpFs exampleRequest = (.ok (), exampleStagedFs) ∧
      fsRemoveAll lockedBackupEnv.removeBackupFault exampleStagedFs
          (backupDir lockedBackupEnv exampleRequest) = .error "remove_all: Permission denied" ∧
      downloadAndInstallPackage lockedBackupEnv exampleFs exampleRequest exampleSession "" =
        (.threw "remove_all: Permission denied", exampleStagedFs) ∧
      exampleStagedFs.get (installPath lockedBackupEnv exampleRequest) =
        some (.file examplePayload) :=
  ⟨by rfl, by rfl, by rfl, by rfl, by rfl⟩

/-! ## Names of the temporary file and of the destination -/

/-- Two texts that agree are split alike at the first occurrence of a character. -/
theorem append_cons_inj_of_not_mem (a : Char) (l1 l2 r1 r2 : List Char) (h1 : a ∉ l1)
    (h2 : a ∉ l2) (h : l1 ++ a :: r1 = l2 ++ a :: r2) : l1 = l2 ∧ r1 = r2 := by
  induction l1 generalizing l2 with
  | nil =>
    cases l2 with
    | nil => simpa using h
    | cons c cs =>
      simp only [List.nil_append, List.cons_append, List.cons.injEq] at h
      exact absurd (h.1 ▸ List.mem_cons_self _ _) h2
  | cons b bs ih =>
    cases l2 with
    | nil =>
      simp only [List.nil_append, List.cons_append, List.cons.injEq] at h
      exact absurd (h.1 ▸ List.mem_cons_self _ _) h1
    | cons c cs =>
      simp only [List.cons_append, List.cons.injEq] at h
      obtain ⟨hl, hr⟩ := ih cs (fun hm => h1 (List.mem_cons_of_mem _ hm))
        (fun hm => h2 (List.mem_cons_of_mem _ hm)) h.2
      exact ⟨by rw [h.1, hl], hr⟩

/-- For requests whose `id` is a plain file name without `-` and whose `version` has no
`/`, different `id`s or different `version`s give different temporary files. -/
theorem tempPath_ne_of_ne (env : Environment) (m1 m2 : PluginPackageMetadata)
    (hid1 : isPlainName m1.id = true) (hid2 : isPlainName m2.id = true)
    (hv1 : '/' ∉ m1.version.toList) (hv2 : '/' ∉ m2.version.toList)
    (hd1 : '-' ∉ m1.id.toList) (hd2 : '-' ∉ m2.id.toList)
    (hne : m1.id ≠ m2.id ∨ m1.version ≠ m2.version) :
    tempPath env m1 ≠ tempPath env m2 := by
  intro h
  unfold tempPath at h
  rw [pathAppend_plain _ _ (isPlainName_tempFileName m1 (isPlainName_not_slash _ hid1) hv1),
    pathAppend_plain _ _ (isPlainName_tempFileName m2 (isPlainName_not_slash _ hid2) hv2)] at h
  have hname : tempFileName m1 = tempFileName m2 := by
    have := List.append_cancel_left h
    simpa using this
  have hdata := congrArg String.data hname
  simp only [tempFileName, String.data_append] at hdata
  have hsplit : m1.id.data ++ '-' :: (m1.version.data ++ ".pkg".data) =
      m2.id.data ++ '-' :: (m2.version.data ++ ".pkg".data) := by
    simpa [List.append_assoc] using hdata
  obtain ⟨hl, hr⟩ := append_cons_inj_of_not_mem '-' _ _ _ _ hd1 hd2 hsplit
  have hv := List.append_cancel_right hr
  rcases hne with hne | hne
  · exact hne (String.ext hl)
  · exact hne (String.ext hv)

/-- The requests for `demo` and for `obs`, both without `-` in the `id`. -/
theorem tempPath_ne_of_ne_witness :
    tempPath exampleEnv exampleRequest ≠ tempPath exampleEnv hyphenVersionRequest :=
  tempPath_ne_of_ne exampleEnv exampleRequest hyphenVersionRequest (by decide) (by decide)
    (by decide) (by decide) (by decide) (by decide) (Or.inl (by decide))

/-- Claim C21 (the code at the failing input): the request for version `4.0` of `obs-ndi`
and the request for version `ndi-4.0` of `obs` have different `id`s, and
`downloadAndInstallPackage` writes both downloads to the one temporary file
`/tmp/obs-plugin-packages/obs-ndi-4.0.pkg`. -/
theorem tempPath_collision :
    hyphenRequest.id ≠ hyphenVersionRequest.id ∧
      tempPath exampleEnv hyphenRequest = ["tmp", "obs-plugin-packages", "obs-ndi-4.0.pkg"] ∧
      tempPath exampleEnv hyphenVersionRequest = ["tmp", "obs-plugin-packages", "obs-ndi-4.0.pkg"] ∧
      (downloadAndInstallPackage exampleEnv exampleFs hyphenRequest exampleSession "").2.get
          ["tmp", "obs-plugin-packages", "obs-ndi-4.0.pkg"] = some (.file examplePayload) ∧
      (downloadAndInstallPackage exampleEnv exampleFs hyphenVersionRequest exampleSession "").2.get
          ["tmp", "obs-plugin-packages", "obs-ndi-4.0.pkg"] = some (.file examplePayload) :=
  ⟨by decide, by decide, by decide, by rfl, by rfl⟩

/-- Claim C29 (the code at the failing inputs): for the empty `id` the destination
directory is the plugins root itself, and the call ends by the exception of the rename
of the plugins root into itself; for the `id` `../x` the destination directory is
`obs-studio/x`, outside the plugins root, and the call renames that directory to a
backup, creates it anew and returns success. -/
theorem pluginDir_not_child :
    pluginsRoot exampleEnv = ["config", "obs-studio", "plugins"] ∧
      pluginDir exampleEnv emptyIdRequest = pluginsRoot exampleEnv ∧
      (downloadAndInstallPackage exampleEnv exampleFs emptyIdRequest exampleSession "").1 =
        .threw "rename: Invalid argument" ∧
      pluginDir exampleEnv traversalRequest = ["config", "obs-studio", "x"] ∧
      ¬ (pluginsRoot exampleEnv <+: pluginDir exampleEnv traversalRequest) ∧
      (downloadAndInstallPackage exampleEnv traversalFs traversalRequest exampleSession "").1 =
        .returned true "" ∧
      traversalFs.get ["config", "obs-studio", "x"] = some (.dir [("old.bin", .file [7])]) ∧
      (downloadAndInstallPackage exampleEnv traversalFs traversalRequest exampleSession "").2.get
          ["config", "obs-studio", "x"] = some (.dir []) := by
  refine ⟨by decide, by decide, by rfl, by decide, ?_, by rfl, by rfl, by rfl⟩
  have h1 : pluginsRoot exampleEnv = ["config", "obs-studio", "plugins"] := by decide
  have h2 : pluginDir exampleEnv traversalRequest = ["config", "obs-studio", "x"] := by decide
  rw [h1, h2]
  decide

/-- For a request whose `id` is a plain file name, the destination directory is the
child of the plugins root with that name. -/
theorem pluginDir_child_of_plain (env : Environment) (metadata : PluginPackageMetadata)
    (hid : isPlainName metadata.id = true) :
    pluginDir env metadata = pluginsRoot env ++ [metadata.id] :=
  pathAppend_plain _ _ hid

/-- The destination of the request for `demo`. -/
theorem pluginDir_child_of_plain_witness :
    pluginDir exampleEnv exampleRequest = pluginsRoot exampleEnv ++ ["demo"] :=
  pluginDir_child_of_plain exampleEnv exampleRequest (by decide)

/-! ## The scene package download -/

/-- The payload that `fetchUrl` returns does not depend on `errorMessage`. -/
theorem fetchUrl_fst (env : SceneEnvironment) (url msg : String) :
    (fetchUrl env url msg).1 =
      match env.reply url with
      | .error _ => []
      | .ok payload => payload := by
  unfold fetchUrl
  cases env.reply url <;> rfl

/-- One iteration of the loop of `downloadPackage`. -/
theorem downloadResources_cons (env : SceneEnvironment) (manifestUrl : String)
    (packageRoot : Path) (r : SceneCatalogResource) (rest : List SceneCatalogResource)
    (fs : Node) (requests : List String) (msg : String) :
    downloadResources env manifestUrl packageRoot (r :: rest) fs requests msg =
      if r.url = "" then downloadResources env manifestUrl packageRoot rest fs requests msg
      else if (fetchUrl env (env.resolved manifestUrl r.url) msg).1 = [] then
        .error (.returned false ("Failed to download resource: " ++ r.path), fs,
          requests ++ [env.resolved manifestUrl r.url])
      else
        match fsCreateDirectories (env.createDirectoriesFault (parentPath packageRoot r.path)) fs
            (parentPath packageRoot r.path) with
        | .error what => .error (.threw what, fs, requests ++ [env.resolved manifestUrl r.url])
        | .ok fs1 =>
          match fsWriteFile (env.openFault (pathAppend packageRoot r.path)) fs1
              (pathAppend packageRoot r.path)
              (fetchUrl env (env.resolved manifestUrl r.url) msg).1 with
          | none =>
            .error (.returned false ("Failed to write resource file: " ++ r.path), fs1,
              requests ++ [env.resolved manifestUrl r.url])
          | some fs2 =>
            downloadResources env manifestUrl packageRoot rest fs2
              (requests ++ [env.resolved manifestUrl r.url])
              (fetchUrl env (env.resolved manifestUrl r.url) msg).2 := by
  rw [downloadResources]

/-- The loop over a list of resources followed by another: the first part is run, and
when it runs to its end, the second part is run from where the first has come to. -/
theorem downloadResources_append (env : SceneEnvironment) (manifestUrl : String)
    (packageRoot : Path) (pre rest : List SceneCatalogResource) (fs : Node)
    (requests : List String) (msg : String) :
    downloadResources env manifestUrl packageRoot (pre ++ rest) fs requests msg =
      match downloadResources env manifestUrl packageRoot pre fs requests msg with
      | .error e => .error e
      | .ok (fs1, requests1, msg1) =>
        downloadResources env manifestUrl packageRoot rest fs1 requests1 msg1 := by
  induction pre generalizing fs requests msg with
  | nil => rfl
  | cons r pre ih =>
    rw [List.cons_append, downloadResources_cons, downloadResources_cons]
    by_cases hurl : r.url = ""
    · simp only [hurl, ↓reduceIte]
      exact ih fs requests msg
    · simp only [hurl, ↓reduceIte]
      by_cases hf : (fetchUrl env (env.resolved manifestUrl r.url) msg).1 = []
      · simp only [hf, ↓reduceIte]
      · simp only [hf, ↓reduceIte]
        cases fsCreateDirectories
            (env.createDirectoriesFault (parentPath packageRoot r.path)) fs
            (parentPath packageRoot r.path) with
        | error what => rfl
        | ok fs1 =>
          simp only
          cases fsWriteFile (env.openFault (pathAppend packageRoot r.path)) fs1
              (pathAppend packageRoot r.path)
              (fetchUrl env (env.resolved manifestUrl r.url) msg).1 with
          | none => rfl
          | some fs2 => exact ih fs2 _ _

/-- When the loop runs to its end, the URLs requested are those of the resources with a
non-empty `url`, in the order of the manifest. -/
theorem downloadResources_requests (env : SceneEnvironment) (manifestUrl : String)
    (packageRoot : Path) (rs : List SceneCatalogResource) (fs fs1 : Node)
    (requests requests1 : List String) (msg msg1 : String)
    (h : downloadResources env manifestUrl packageRoot rs fs requests msg =
      .ok (fs1, requests1, msg1)) :
    requests1 = requests ++
      ((rs.filter (fun r => decide (r.url ≠ ""))).map (fun r => env.resolved manifestUrl r.url)) := by
  induction rs generalizing fs requests msg with
  | nil =>
    unfold downloadResources at h
    simp only [Except.ok.injEq, Prod.mk.injEq] at h
    simp [h.2.1]
  | cons r rs ih =>
    rw [downloadResources_cons] at h
    by_cases hurl : r.url = ""
    · simp only [hurl, ↓reduceIte] at h
      rw [ih fs requests msg h]
      simp [hurl]
    · simp only [hurl, ↓reduceIte] at h
      by_cases hf : (fetchUrl env (env.resolved manifestUrl r.url) msg).1 = []
      · simp [hf] at h
      · simp only [hf, ↓reduceIte] at h
        cases hc : fsCreateDirectories
            (env.createDirectoriesFault (parentPath packageRoot r.path)) fs
            (parentPath packageRoot r.path) with
        | error what => simp [hc] at h
        | ok fs2 =>
          simp only [hc] at h
          cases hw : fsWriteFile (env.openFault (pathAppend packageRoot r.path)) fs2
              (pathAppend packageRoot r.path)
              (fetchUrl env (env.resolved manifestUrl r.url) msg).1 with
          | none => simp [hw] at h
          | some fs3 =>
            simp only [hw] at h
            rw [ih fs3 _ _ h]
            simp [hurl]

/-- When the loop runs to its end, a path that is unrelated to the destination of every
resource written, and not on the way to it, is left as it was. -/
theorem downloadResources_get_other (env : SceneEnvironment) (manifestUrl : String)
    (packageRoot : Path) (rs : List SceneCatalogResource) (fs fs1 : Node)
    (requests requests1 : List String) (msg msg1 : String) (p : Path)
    (h : downloadResources env manifestUrl packageRoot rs fs requests msg =
      .ok (fs1, requests1, msg1))
    (hp : ∀ r ∈ rs, r.url ≠ "" →
      ¬ p <+: parentPath packageRoot r.path ∧ ¬ p <+: pathAppend packageRoot r.path ∧
        ¬ pathAppend packageRoot r.path <+: p) :
    fs1.get p = fs.get p := by
  induction rs generalizing fs requests msg with
  | nil =>
    unfold downloadResources at h
    simp only [Except.ok.injEq, Prod.mk.injEq] at h
    rw [h.1]
  | cons r rs ih =>
    have hrest : ∀ x ∈ rs, x.url ≠ "" →
        ¬ p <+: parentPath packageRoot x.path ∧ ¬ p <+: pathAppend packageRoot x.path ∧
          ¬ pathAppend packageRoot x.path <+: p :=
      fun x hx => hp x (List.mem_cons_of_mem _ hx)
    rw [downloadResources_cons] at h
    by_cases hurl : r.url = ""
    · simp only [hurl, ↓reduceIte] at h
      exact ih fs requests msg h hrest
    · simp only [hurl, ↓reduceIte] at h
      obtain ⟨h1, h2, h3⟩ := hp r (List.mem_cons_self _ _) hurl
      by_cases hf : (fetchUrl env (env.resolved manifestUrl r.url) msg).1 = []
      · simp [hf] at h
      · simp only [hf, ↓reduceIte] at h
        cases hc : fsCreateDirectories
            (env.createDirectoriesFault (parentPath packageRoot r.path)) fs
            (parentPath packageRoot r.path) with
        | error what => simp [hc] at h
        | ok fs2 =>
          simp only [hc] at h
          cases hw : fsWriteFile (env.openFault (pathAppend packageRoot r.path)) fs2
              (pathAppend packageRoot r.path)
              (fetchUrl env (env.resolved manifestUrl r.url) msg).1 with
          | none => simp [hw] at h
          | some fs3 =>
            simp only [hw] at h
            rw [ih fs3 _ _ h hrest, fsWriteFile_get_other _ fs2 fs3 _ _ _ hw h3 h2,
              fsCreateDirectories_get_other _ fs fs2 _ _ hc h1]

/-- When the loop runs to its end, the file written for a resource holds the bytes
fetched for it, provided the destinations of the resources written after it are
unrelated to its destination. -/
theorem downloadResources_keeps_written (env : SceneEnvironment) (manifestUrl : String)
    (packageRoot : Path) (pre post : List SceneCatalogResource) (q : SceneCatalogResource)
    (fs fs1 : Node) (requests requests1 : List String) (msg msg1 : String)
    (h : downloadResources env manifestUrl packageRoot (pre ++ q :: post) fs requests msg =
      .ok (fs1, requests1, msg1))
    (hq : q.url ≠ "")
    (hpost : ∀ r ∈ post, r.url ≠ "" →
      ¬ pathAppend packageRoot q.path <+: parentPath packageRoot r.path ∧
        ¬ pathAppend packageRoot q.path <+: pathAppend packageRoot r.path ∧
        ¬ pathAppend packageRoot r.path <+: pathAppend packageRoot q.path) :
    ∃ data, env.reply (env.resolved manifestUrl q.url) = .ok data ∧ data ≠ [] ∧
      fs1.get (pathAppend packageRoot q.path) = some (.file data) := by
  rw [downloadResources_append] at h
  cases hpre : downloadResources env manifestUrl packageRoot pre fs requests msg with
  | error e => simp [hpre] at h
  | ok s =>
    obtain ⟨fs2, requests2, msg2⟩ := s
    simp only [hpre] at h
    rw [downloadResources_cons] at h
    simp only [hq, ↓reduceIte] at h
    by_cases hf : (fetchUrl env (env.resolved manifestUrl q.url) msg2).1 = []
    · simp [hf] at h
    · simp only [hf, ↓reduceIte] at h
      cases hc : fsCreateDirectories
          (env.createDirectoriesFault (parentPath packageRoot q.path)) fs2
          (parentPath packageRoot q.path) with
      | error what => simp [hc] at h
      | ok fs3 =>
        simp only [hc] at h
        cases hw : fsWriteFile (env.openFault (pathAppend packageRoot q.path)) fs3
            (pathAppend packageRoot q.path)
            (fetchUrl env (env.resolved manifestUrl q.url) msg2).1 with
        | none => simp [hw] at h
        | some fs4 =>
          simp only [hw] at h
          have hget := downloadResources_get_other env manifestUrl packageRoot post fs4 fs1 _ _ _ _
            (pathAppend packageRoot q.path) h hpost
          rw [fsWriteFile_get_self _ fs3 fs4 _ _ hw] at hget
          rw [fetchUrl_fst] at hf hget
          cases hr : env.reply (env.resolved manifestUrl q.url) with
          | error e => simp [hr] at hf
          | ok data =>
            simp only [hr] at hf hget
            exact ⟨data, rfl, hf, hget⟩

/-- When the manifest is fetched and loaded, the host is compatible, the package root is
created, the loop has run over the resources before `r`, and the fetch of `r` fails or
gives no bytes: the call returns the download failure of `r`, the file system is the
one the earlier resources have left, and the URLs requested are the manifest URL, then
those of the earlier resources with a non-empty `url` in manifest order, then the URL
of `r`; no later resource is requested. -/
theorem downloadPackage_fails_fast (env : SceneEnvironment) (fs fs1 fs2 : Node)
    (entry : SceneCatalogEntry) (package out : SceneCatalogPackage) (packageRoot : Path)
    (msg msg1 msg2 msg3 : String) (payload : Bytes) (pre post : List SceneCatalogResource)
    (r : SceneCatalogResource) (requests : List String)
    (hentry : entry.manifestUrl ≠ "")
    (hmanifest : env.reply entry.manifestUrl = .ok payload) (hpayload : payload ≠ [])
    (hload : SceneCatalogPackage.LoadFromJson env.library (toStdString payload) msg =
      (true, out, msg1))
    (hcompat : out.validateCompatibility env.versionString msg1 = (true, msg2))
    (hroot : fsCreateDirectories (env.createDirectoriesFault (scenePackageRoot env out)) fs
      (scenePackageRoot env out) = .ok fs1)
    (hres : out.resources = pre ++ r :: post)
    (hpre : downloadResources env entry.manifestUrl (scenePackageRoot env out) pre fs1
      [entry.manifestUrl] msg2 = .ok (fs2, requests, msg3))
    (hurl : r.url ≠ "")
    (hfail : (fetchUrl env (env.resolved entry.manifestUrl r.url) msg3).1 = []) :
    (downloadPackage env fs entry package packageRoot msg).outcome =
        .returned false ("Failed to download resource: " ++ r.path) ∧
      (downloadPackage env fs entry package packageRoot msg).fs = fs2 ∧
      (downloadPackage env fs entry package packageRoot msg).requests =
        [entry.manifestUrl] ++
          ((pre.filter (fun x => decide (x.url ≠ ""))).map
            (fun x => env.resolved entry.manifestUrl x.url)) ++
          [env.resolved entry.manifestUrl r.url] := by
  have hreq := downloadResources_requests env _ _ pre fs1 fs2 _ requests _ _ hpre
  have hloop : downloadResources env entry.manifestUrl (scenePackageRoot env out) out.resources
      fs1 [entry.manifestUrl] msg2 =
      .error (.returned false ("Failed to download resource: " ++ r.path), fs2,
        requests ++ [env.resolved entry.manifestUrl r.url]) := by
    rw [hres, downloadResources_append, hpre]
    simp only
    rw [downloadResources_cons]
    simp only [hurl, ↓reduceIte, hfail]
  have hfetch : fetchUrl env entry.manifestUrl msg = (payload, msg) := by
    unfold fetchUrl
    rw [hmanifest]
  have hall : downloadPackage env fs entry package packageRoot msg =
      ⟨.returned false ("Failed to download resource: " ++ r.path), out,
        scenePackageRoot env out, fs2, requests ++ [env.resolved entry.manifestUrl r.url]⟩ := by
    unfold downloadPackage
    simp only [hentry, ↓reduceIte, hfetch, hpayload, hload, hcompat, hroot, hloop]
  rw [hall, hreq]
  exact ⟨rfl, rfl, rfl⟩

/-- The package of `partialDocument`: the first resource has no URL, the second is
written, the third is not available, the fourth is not requested. -/
theorem downloadPackage_fails_fast_witness :
    (downloadPackage (sceneEnv partialDocument) emptyScenesFs exampleEntry {} [] "").outcome =
        .returned false "Failed to download resource: missing.bin" ∧
      (downloadPackage (sceneEnv partialDocument) emptyScenesFs exampleEntry {} [] "").fs =
        .dir [("scenes", .dir [("scene-packages", .dir [("pack", .dir [("1.2",
          .dir [("a.bin", .file examplePayload)])])])])] ∧
      (downloadPackage (sceneEnv partialDocument) emptyScenesFs exampleEntry {} [] "").requests =
        ["https://portal.example/pack/manifest.json", "https://portal.example/pack/a.bin",
          "https://portal.example/pack/missing.bin"] :=
  downloadPackage_fails_fast (sceneEnv partialDocument) emptyScenesFs
    (.dir [("scenes", .dir [("scene-packages", .dir [("pack", .dir [("1.2", .dir [])])])])])
    (.dir [("scenes", .dir [("scene-packages", .dir [("pack", .dir [("1.2",
      .dir [("a.bin", .file examplePayload)])])])])])
    exampleEntry {} (SceneCatalogPackage.LoadFromJson (libraryOf partialDocument) "" "").2.1 [] ""
    "" "" "" examplePayload
    [{ path := "local.bin", sha256 := "", url := "", size := 0 },
      { path := "a.bin", sha256 := "", url := "a.bin", size := 0 }]
    [{ path := "c.bin", sha256 := "", url := "c.bin", size := 0 }]
    { path := "missing.bin", sha256 := "", url := "missing.bin", size := 0 }
    ["https://portal.example/pack/manifest.json", "https://portal.example/pack/a.bin"]
    (by decide) rfl (by decide) (by rfl) (by rfl) (by rfl) (by rfl) (by rfl) (by decide) (by rfl)

/-- Claim C26 (the code at the failing input): the manifest stores its first resource
as the file `assets` and its second resource as `assets/b.bin`; the first resource is
fetched and written, the second is fetched and cannot be written, because the
directory for it cannot be created; the call does not return failure: it ends by the
exception of `create_directories`. The file of the first resource stays, and the
third resource is not requested. -/
theorem downloadPackage_write_failure_throws :
    (SceneCatalogPackage.LoadFromJson (libraryOf clashingDocument) "" "").2.1.resources =
        [{ path := "assets", sha256 := "", url := "assets", size := 0 },
          { path := "assets/b.bin", sha256 := "", url := "b.bin", size := 0 },
          { path := "c.bin", sha256 := "", url := "c.bin", size := 0 }] ∧
      (downloadPackage (sceneEnv clashingDocument) emptyScenesFs exampleEntry {} [] "").outcome =
        .threw "create_directories: Not a directory" ∧
      (downloadPackage (sceneEnv clashingDocument) emptyScenesFs exampleEntry {} [] "").fs =
        .dir [("scenes", .dir [("scene-packages", .dir [("pack", .dir [("1.2",
          .dir [("assets", .file examplePayload)])])])])] ∧
      (downloadPackage (sceneEnv clashingDocument) emptyScenesFs exampleEntry {} [] "").requests =
        ["https://portal.example/pack/manifest.json", "https://portal.example/pack/assets",
          "https://portal.example/pack/b.bin"] :=
  ⟨by rfl, by rfl, by rfl, by rfl⟩

/-- Claim C30 (the code at the failing input): the manifest is accepted by `LoadFromJson`
and has a resource with the path `../../../global.ini`; the call returns success, the
file it writes for the resource is `scenes/global.ini`, outside the package root
`scenes/scene-packages/pack/1.2`, and `validateResources` reads that file: on the
tree without it the validation reports the resource file missing. -/
theorem downloadPackage_resource_escapes :
    (SceneCatalogPackage.LoadFromJson (libraryOf escapingDocument) "" "").1 = true ∧
      (downloadPackage (sceneEnv escapingDocument) emptyScenesFs exampleEntry {} [] "").outcome =
        .returned true "" ∧
      (downloadPackage (sceneEnv escapingDocument) emptyScenesFs exampleEntry {} [] "").packageRoot =
        ["scenes", "scene-packages", "pack", "1.2"] ∧
      pathAppend ["scenes", "scene-packages", "pack", "1.2"] "../../../global.ini" =
        ["scenes", "global.ini"] ∧
      ¬ (["scenes", "scene-packages", "pack", "1.2"] <+: ["scenes", "global.ini"]) ∧
      emptyScenesFs.get ["scenes", "global.ini"] = none ∧
      (downloadPackage (sceneEnv escapingDocument) emptyScenesFs exampleEntry {} [] "").fs.get
          ["scenes", "global.ini"] = some (.file examplePayload) ∧
      (SceneCatalogPackage.LoadFromJson (libraryOf escapingDocument) "" "").2.1.validateResources
          (fun _ => none)
          (.dir [("scenes", .dir [("scene-packages", .dir [("pack", .dir [("1.2", .dir [])])])])])
          ["scenes", "scene-packages", "pack", "1.2"] "" =
        (false, "Missing resource file: ../../../global.ini") :=
  ⟨by rfl, by rfl, by rfl, by decide, by decide, by rfl, by rfl, by rfl⟩

/-- The destination of a resource whose path is a plain file name is the child of the
package root with that name. -/
theorem resource_destination_of_plain (packageRoot : Path) (resource : SceneCatalogResource)
    (h : isPlainName resource.path = true) :
    pathAppend packageRoot resource.path = packageRoot ++ [resource.path] ∧
      packageRoot <+: pathAppend packageRoot resource.path := by
  rw [pathAppend_plain _ _ h]
  exact ⟨rfl, List.prefix_append _ _⟩

/-- The destination of the resource `a.bin`. -/
theorem resource_destination_of_plain_witness :
    pathAppend ["scenes", "scene-packages", "pack", "1.2"] exampleResourceA.path =
        ["scenes", "scene-packages", "pack", "1.2"] ++ [exampleResourceA.path] ∧
      ["scenes", "scene-packages", "pack", "1.2"] <+:
        pathAppend ["scenes", "scene-packages", "pack", "1.2"] exampleResourceA.path :=
  resource_destination_of_plain _ exampleResourceA (by decide)

end OBS
